import Mathlib

/-!
# speechTranscriberDemo: session lifecycle and latency telemetry

A shallow embedding of
`src/mod/applications/mod_asr_ali/NlsSdk3.X_LINUX/demo/speechTranscriberDemo.cpp`.

Conventions of the embedding

* `uint64_t` / `unsigned long long` values are natural numbers below `U64`; every
  arithmetic operation on them is followed by `% U64` where the C++ operation can wrap.
  `uint32_t` values are treated the same way with `U32`.
* `int` values are mathematical integers (`Int`); signed overflow has no defined
  behaviour in C++, so theorems that depend on `int` arithmetic state the range explicitly.
  The signed C++ division is `Int.tdiv`.
* Clock readings (`gettimeofday`), transport return values and the outcome of
  `fopen` are inputs of the functions that use them.
* Strings that the program cuts, copies into `char` arrays or writes to a file are
  sequences of bytes (`List UInt8`), the UTF-8 encoding of the strings of the model.
* A worker thread is a step function between the points at which another thread can
  interfere; a call of `start()` or `stop()` and the entry into the wait that follows
  it are separate steps.
-/

namespace SpeechTranscriberDemo

/-! ## Machine integers -/

/-- The modulus of `uint64_t` arithmetic, `2^64`. -/
def U64 : Nat := 18446744073709551616

/-- The modulus of `uint32_t` arithmetic, `2^32`. -/
def U32 : Nat := 4294967296

/-- Conversion of a signed value to `unsigned long long`. -/
def toU64 (z : Int) : Nat := (z % (U64 : Int)).toNat

/-- Conversion of a signed value to `unsigned int`. -/
def toU32 (z : Int) : Nat := (z % (U32 : Int)).toNat

/-! ## Strings as bytes

A `char` array, a C string and the content of a `std::string` are sequences of
bytes. A string of the model is held as its UTF-8 encoding. -/

/-- The bytes of a string: its UTF-8 encoding. -/
def utf8 (s : String) : List UInt8 := s.data.flatMap String.utf8EncodeChar

/-- The C string that begins at the first of the bytes `bs`: the bytes before the
first NUL. -/
def cString (bs : List UInt8) : List UInt8 := bs.takeWhile (fun b => b != 0)

/-- The bytes that `%s`, `strlen`, `strncpy` and `strcmp` see of a string. -/
def c_str (s : String) : List UInt8 := cString (utf8 s)

/-- The size of the character arrays of `struct ParamStruct` (line 45). -/
def DEFAULT_STRING_LEN : Nat := 128

/-- A zeroed character array of `DEFAULT_STRING_LEN` bytes. -/
def zeroArray : List UInt8 := List.replicate DEFAULT_STRING_LEN 0

/-! ## Constants of the demo -/

def FRAME_16K_20MS : Int := 640
def FRAME_16K_100MS : Int := 3200
def FRAME_8K_20MS : Int := 320
def SAMPLE_RATE_8K : Int := 8000
def SAMPLE_RATE_16K : Int := 16000
def OPERATION_TIMEOUT_S : Int := 5
def LOOP_TIMEOUT : Int := 60

/-- The `ENCODER_TYPE` values used by the demo (declared in the SDK headers). -/
inductive ENCODER_TYPE where
  | ENCODER_NONE
  | ENCODER_OPU
  | ENCODER_OPUS
  deriving DecidableEq, Repr

/-! ## Time -/

/-- A `struct timeval`. -/
structure Timeval where
  tv_sec : Int
  tv_usec : Int
  deriving DecidableEq, Repr

/-- The latency computed by every event handler (lines 477-486, 629-638, 702-711,
841-850): the seconds difference and the microseconds difference are converted to
`unsigned long long`; with a positive seconds difference the result is
`(timeValue1 * 1000000 + timeValue2) / 1000`, otherwise `timeValue2 / 1000`. -/
def timeValueOf (startTv tv : Timeval) : Nat :=
  let timeValue1 := toU64 (tv.tv_sec - startTv.tv_sec)
  let timeValue2 := toU64 (tv.tv_usec - startTv.tv_usec)
  if timeValue1 > 0 then
    (((timeValue1 * 1000000) % U64 + timeValue2) % U64) / 1000
  else
    timeValue2 / 1000

/-! ## Audio duration and pacing -/

/-- The `int` computation inside `getAudioFileTimeMs` (lines 411-429), before the
conversion of the result to `unsigned int`. A zero divisor has no defined
behaviour in C++; `Int.tdiv` returns `0` there. -/
def getAudioFileTimeMs_int (dataSize sampleRate compressRate : Int) : Int :=
  let sampleBytes : Int := 16
  let soundChannel : Int := 1
  let bytes := Int.tdiv (sampleRate * sampleBytes * soundChannel) 8
  let bytesMs := Int.tdiv bytes 1000
  let fileMs := Int.tdiv (dataSize * compressRate) bytesMs
  fileMs

/-- The function `getAudioFileTimeMs`: the `int` result returned as `unsigned int`. -/
def getAudioFileTimeMs (dataSize sampleRate compressRate : Int) : Nat :=
  toU32 (getAudioFileTimeMs_int dataSize sampleRate compressRate)

/-- Conversion of an `unsigned int` to `int` (two's complement). -/
def u32ToInt (n : Nat) : Int :=
  if n % U32 < 2147483648 then ((n % U32 : Nat) : Int) else ((n % U32 : Nat) : Int) - (U32 : Int)

/-- The function `getSendAudioSleepTime` (lines 443-449): the result of
`getAudioFileTimeMs` is stored in an `int` and returned as `unsigned int`. -/
def getSendAudioSleepTime (dataSize sampleRate compressRate : Int) : Nat :=
  let sleepMs : Int := u32ToInt (getAudioFileTimeMs dataSize sampleRate compressRate)
  toU32 sleepMs

/-! ## Per-thread parameters -/

/-- The `struct ParamStruct` (lines 48-97), without the mutex. The four character
arrays `fileName`, `token`, `appkey` and `url` hold `DEFAULT_STRING_LEN` bytes
each and follow each other in memory. -/
structure ParamStruct where
  fileName : List UInt8
  token : List UInt8
  appkey : List UInt8
  url : List UInt8
  startedConsumed : Nat
  firstConsumed : Nat
  completedConsumed : Nat
  closeConsumed : Nat
  failedConsumed : Nat
  requestConsumed : Nat
  sendConsumed : Nat
  startTotalValue : Nat
  startAveValue : Nat
  startMaxValue : Nat
  startMinValue : Nat
  firstTotalValue : Nat
  firstAveValue : Nat
  firstMaxValue : Nat
  firstMinValue : Nat
  firstFlag : Bool
  endTotalValue : Nat
  endAveValue : Nat
  endMaxValue : Nat
  endMinValue : Nat
  closeTotalValue : Nat
  closeAveValue : Nat
  closeMaxValue : Nat
  closeMinValue : Nat
  sendTotalValue : Nat
  audioFileTimeLen : Nat
  s50Value : Nat
  s100Value : Nat
  s200Value : Nat
  s500Value : Nat
  s1000Value : Nat
  s2000Value : Nat
  deriving DecidableEq, Repr

/-- The initialisation of one `pa[i]` in `speechTranscriberMultFile` (lines 1689-1745)
after its four character arrays have been filled. -/
def ParamStruct.init (fileName token appkey url : List UInt8) : ParamStruct :=
  { fileName := fileName, token := token, appkey := appkey, url := url
    startedConsumed := 0, firstConsumed := 0, completedConsumed := 0
    closeConsumed := 0, failedConsumed := 0, requestConsumed := 0, sendConsumed := 0
    startTotalValue := 0, startAveValue := 0, startMaxValue := 0, startMinValue := 0
    firstTotalValue := 0, firstAveValue := 0, firstMaxValue := 0, firstMinValue := 0
    firstFlag := false
    endTotalValue := 0, endAveValue := 0, endMaxValue := 0, endMinValue := 0
    closeTotalValue := 0, closeAveValue := 0, closeMaxValue := 0, closeMinValue := 0
    sendTotalValue := 0, audioFileTimeLen := 0
    s50Value := 0, s100Value := 0, s200Value := 0, s500Value := 0
    s1000Value := 0, s2000Value := 0 }

/-! ## The running statistics of the four latency phases -/

/-- The six counters of the start-latency histogram. -/
inductive Bucket where
  | s50
  | s100
  | s200
  | s500
  | s1000
  | s2000
  deriving DecidableEq, Repr

/-- The histogram counter chosen by the `if`/`else if` chain of lines 493-506. -/
def startBucket (tmp : Nat) : Bucket :=
  if tmp ≤ 50 then Bucket.s50
  else if tmp ≤ 100 then Bucket.s100
  else if tmp ≤ 200 then Bucket.s200
  else if tmp ≤ 500 then Bucket.s500
  else if tmp ≤ 1000 then Bucket.s1000
  else Bucket.s2000

/-- The statement `v ++` on a `uint64_t`, executed when `hit` holds. -/
def incIf (hit : Bool) (v : Nat) : Nat := if hit then (v + 1) % U64 else v

/-- The start-phase bookkeeping of `onTranscriptionStarted` for a latency
`timeValue` (line 475 and lines 488-525): count, maximum, histogram bucket,
minimum, total, average, and the reset of the first-result flag. Each field is
given the value the source leaves in it. -/
def recordStarted (p : ParamStruct) (timeValue : Nat) : ParamStruct :=
  let startedConsumed := (p.startedConsumed + 1) % U64
  -- max
  let startMaxValue := if timeValue > p.startMaxValue then timeValue else p.startMaxValue
  let tmp := timeValue
  -- min
  let startMinValue :=
    if p.startMinValue = 0 then timeValue
    else if timeValue < p.startMinValue then timeValue
    else p.startMinValue
  -- ave
  let startTotalValue := (p.startTotalValue + timeValue) % U64
  let startAveValue :=
    if startedConsumed > 0 then startTotalValue / startedConsumed else p.startAveValue
  { p with
    startedConsumed := startedConsumed
    startMaxValue := startMaxValue
    s50Value := incIf (startBucket tmp = Bucket.s50) p.s50Value
    s100Value := incIf (startBucket tmp = Bucket.s100) p.s100Value
    s200Value := incIf (startBucket tmp = Bucket.s200) p.s200Value
    s500Value := incIf (startBucket tmp = Bucket.s500) p.s500Value
    s1000Value := incIf (startBucket tmp = Bucket.s1000) p.s1000Value
    s2000Value := incIf (startBucket tmp = Bucket.s2000) p.s2000Value
    startMinValue := startMinValue
    startTotalValue := startTotalValue
    startAveValue := startAveValue
    -- first package flag init
    firstFlag := false }

/-- The first-result bookkeeping of `onTranscriptionResultChanged` (lines 624-657),
run when `firstFlag` is false. -/
def recordFirst (p : ParamStruct) (timeValue : Nat) : ParamStruct :=
  let firstConsumed := (p.firstConsumed + 1) % U64
  -- max
  let firstMaxValue := if timeValue > p.firstMaxValue then timeValue else p.firstMaxValue
  -- min
  let firstMinValue :=
    if p.firstMinValue = 0 then timeValue
    else if timeValue < p.firstMinValue then timeValue
    else p.firstMinValue
  -- ave
  let firstTotalValue := (p.firstTotalValue + timeValue) % U64
  let firstAveValue :=
    if firstConsumed > 0 then firstTotalValue / firstConsumed else p.firstAveValue
  { p with
    firstConsumed := firstConsumed
    firstFlag := true
    firstMaxValue := firstMaxValue
    firstMinValue := firstMinValue
    firstTotalValue := firstTotalValue
    firstAveValue := firstAveValue }

/-- The completion bookkeeping of `onTranscriptionCompleted` (line 700 and lines 713-730). -/
def recordCompleted (p : ParamStruct) (timeValue : Nat) : ParamStruct :=
  let completedConsumed := (p.completedConsumed + 1) % U64
  -- max
  let endMaxValue := if timeValue > p.endMaxValue then timeValue else p.endMaxValue
  -- min
  let endMinValue :=
    if p.endMinValue = 0 then timeValue
    else if timeValue < p.endMinValue then timeValue
    else p.endMinValue
  -- ave
  let endTotalValue := (p.endTotalValue + timeValue) % U64
  let endAveValue :=
    if completedConsumed > 0 then endTotalValue / completedConsumed else p.endAveValue
  { p with
    completedConsumed := completedConsumed
    endMaxValue := endMaxValue
    endMinValue := endMinValue
    endTotalValue := endTotalValue
    endAveValue := endAveValue }

/-- The close bookkeeping of `onChannelClosed` (line 838 and lines 852-869). -/
def recordClosed (p : ParamStruct) (timeValue : Nat) : ParamStruct :=
  let closeConsumed := (p.closeConsumed + 1) % U64
  -- max
  let closeMaxValue := if timeValue > p.closeMaxValue then timeValue else p.closeMaxValue
  -- min
  let closeMinValue :=
    if p.closeMinValue = 0 then timeValue
    else if timeValue < p.closeMinValue then timeValue
    else p.closeMinValue
  -- ave
  let closeTotalValue := (p.closeTotalValue + timeValue) % U64
  let closeAveValue :=
    if closeConsumed > 0 then closeTotalValue / closeConsumed else p.closeAveValue
  { p with
    closeConsumed := closeConsumed
    closeMaxValue := closeMaxValue
    closeMinValue := closeMinValue
    closeTotalValue := closeTotalValue
    closeAveValue := closeAveValue }

/-- One latency phase of a `ParamStruct` seen as a record of its five fields. -/
structure PhaseView where
  consumed : Nat
  total : Nat
  ave : Nat
  max : Nat
  min : Nat
  deriving DecidableEq, Repr

def startView (p : ParamStruct) : PhaseView :=
  ⟨p.startedConsumed, p.startTotalValue, p.startAveValue, p.startMaxValue, p.startMinValue⟩

def firstView (p : ParamStruct) : PhaseView :=
  ⟨p.firstConsumed, p.firstTotalValue, p.firstAveValue, p.firstMaxValue, p.firstMinValue⟩

def endView (p : ParamStruct) : PhaseView :=
  ⟨p.completedConsumed, p.endTotalValue, p.endAveValue, p.endMaxValue, p.endMinValue⟩

def closeView (p : ParamStruct) : PhaseView :=
  ⟨p.closeConsumed, p.closeTotalValue, p.closeAveValue, p.closeMaxValue, p.closeMinValue⟩

/-- The all-zero parameter block every worker starts from. -/
def pa0 : ParamStruct := ParamStruct.init zeroArray zeroArray zeroArray zeroArray

/-! ## Global state -/

/-- The `struct ParamStatistics` (lines 143-154). -/
structure ParamStatistics where
  running : Bool
  success_flag : Bool
  failed_flag : Bool
  audio_ms : Nat
  start_ms : Nat
  end_ms : Nat
  ave_ms : Nat
  s_cnt : Nat
  deriving DecidableEq, Repr

/-- The configuration globals written by `parse_argv` and only read while a run is
in progress (lines 165-176, 182-186, 198, 201-203), with their initial values. -/
structure Config where
  g_appkey : String := ""
  g_akId : String := ""
  g_akSecret : String := ""
  g_token : String := ""
  g_domain : String := ""
  g_api_version : String := ""
  g_url : String := ""
  g_audio_path : String := ""
  g_threads : Int := 1
  g_cpu : Int := 1
  loop_timeout : Int := LOOP_TIMEOUT
  loop_count : Int := 0
  sample_rate : Int := SAMPLE_RATE_16K
  frame_size : Int := FRAME_16K_20MS
  encoder_type : ENCODER_TYPE := ENCODER_TYPE.ENCODER_OPUS
  logLevel : Int := 4
  max_sentence_silence : Int := 0
  profile_scan : Int := -1
  longConnection : Bool := false
  sysAddrinfo : Bool := false
  noSleepFlag : Bool := false
  deriving DecidableEq, Repr

/-- The globals that change during a run: the five run counters (lines 187-191),
`global_run`, the statistics map `g_statistics` as an association list keyed by
thread id, and the content of `transcriptionTaskFailed.log` as the list of the
blocks written to it. The `int` counters are unbounded integers here. -/
structure Globals where
  run_cnt : Int
  run_start_failed : Int
  run_cancel : Int
  run_success : Int
  run_fail : Int
  global_run : Bool
  g_statistics : List (Nat × ParamStatistics)
  failedLog : List (List UInt8)
  deriving DecidableEq, Repr

/-- The globals at program start. -/
def Globals.init : Globals :=
  { run_cnt := 0, run_start_failed := 0, run_cancel := 0, run_success := 0, run_fail := 0
    global_run := false, g_statistics := [], failedLog := [] }

/-! ## The statistics map -/

/-- The lookup `g_statistics.find(pid)`. -/
def statFind (m : List (Nat × ParamStatistics)) (pid : Nat) : Option ParamStatistics :=
  match m with
  | [] => none
  | (k, v) :: rest => if k = pid then some v else statFind rest pid

/-- An assignment through the iterator returned by `g_statistics.find(pid)`. -/
def statUpdate (m : List (Nat × ParamStatistics)) (pid : Nat)
    (f : ParamStatistics → ParamStatistics) : List (Nat × ParamStatistics) :=
  match m with
  | [] => []
  | (k, v) :: rest => if k = pid then (k, f v) :: rest else (k, v) :: statUpdate rest pid f

/-- A block of `struct ParamStatistics` after `memset(p_tmp, 0, ...)`. -/
def ParamStatistics.zero : ParamStatistics :=
  { running := false, success_flag := false, failed_flag := false
    audio_ms := 0, start_ms := 0, end_ms := 0, ave_ms := 0, s_cnt := 0 }

/-- Milliseconds of a clock reading as computed in `vectorStartStore` and
`vectorSetResult`: `tv_sec * 1000 + tv_usec / 1000` stored in a `uint64_t`. -/
def tvMs (tv : Timeval) : Nat := toU64 (tv.tv_sec * 1000 + Int.tdiv tv.tv_usec 1000)

/-- The function `vectorStartStore` (lines 230-245); `start_tv` is its clock reading. -/
def vectorStartStore (g : Globals) (pid : Nat) (start_tv : Timeval) : Globals :=
  match statFind g.g_statistics pid with
  | some _ =>
    { g with g_statistics :=
        (statUpdate g.g_statistics pid (fun s => { s with start_ms := tvMs start_tv })) }
  | none => g

/-- The function `vectorSetParams` (lines 247-281). Of `params` only `running`,
`success_flag` and `audio_ms` are read. -/
def vectorSetParams (g : Globals) (pid : Nat) (add : Bool)
    (running success_flag : Bool) (audio_ms : Nat) : Globals :=
  match statFind g.g_statistics pid with
  | some _ =>
    { g with g_statistics := statUpdate g.g_statistics pid (fun s =>
        let s := { s with running := running, success_flag := success_flag, failed_flag := false }
        if audio_ms > 0 then { s with audio_ms := audio_ms } else s) }
  | none =>
    if add then
      let p_tmp := ParamStatistics.zero
      let p_tmp := { p_tmp with running := running, success_flag := success_flag
                                failed_flag := false }
      let p_tmp := if audio_ms > 0 then { p_tmp with audio_ms := audio_ms } else p_tmp
      { g with g_statistics := g.g_statistics ++ [(pid, p_tmp)] }
    else g

/-- The function `vectorSetRunning` (lines 283-298). -/
def vectorSetRunning (g : Globals) (pid : Nat) (run : Bool) : Globals :=
  match statFind g.g_statistics pid with
  | some _ =>
    { g with g_statistics :=
        (statUpdate g.g_statistics pid (fun s => { s with running := run })) }
  | none => g

/-- The function `vectorSetResult` (lines 300-327); `end_tv` is its clock reading. -/
def vectorSetResult (g : Globals) (pid : Nat) (ret : Bool) (end_tv : Timeval) : Globals :=
  match statFind g.g_statistics pid with
  | some _ =>
    { g with g_statistics := statUpdate g.g_statistics pid (fun s =>
        let s := { s with success_flag := ret }
        if ret then
          let s := { s with end_ms := tvMs end_tv }
          let d_ms := (s.end_ms + U64 - s.start_ms) % U64
          let s :=
            if s.ave_ms = 0 then { s with ave_ms := d_ms }
            else { s with ave_ms := ((d_ms + s.ave_ms) % U64) / 2 }
          { s with s_cnt := (s.s_cnt + 1) % U32 }
        else s) }
  | none => g

/-- The function `vectorSetFailed` (lines 329-342). -/
def vectorSetFailed (g : Globals) (pid : Nat) (ret : Bool) : Globals :=
  match statFind g.g_statistics pid with
  | some _ =>
    { g with g_statistics :=
        (statUpdate g.g_statistics pid (fun s => { s with failed_flag := ret })) }
  | none => g

/-- The function `vectorGetRunning` (lines 344-359). -/
def vectorGetRunning (g : Globals) (pid : Nat) : Bool :=
  match statFind g.g_statistics pid with
  | some s => s.running
  | none => false

/-- The function `vectorGetFailed` (lines 361-376). -/
def vectorGetFailed (g : Globals) (pid : Nat) : Bool :=
  match statFind g.g_statistics pid with
  | some s => s.failed_flag
  | none => false

/-! ## Events and callback parameters -/

/-- The part of an `AlibabaNls::NlsEvent` read by the callbacks. -/
structure NlsEvent where
  statusCode : Int
  taskId : String
  errorMessage : String
  result : String
  sentenceIndex : Int
  sentenceTime : Int
  sentenceBeginTime : Int
  deriving DecidableEq, Repr

/-- The `struct SentenceParamStruct` (lines 99-106); `beginTv` is never written. -/
structure SentenceParamStruct where
  sentenceId : Nat
  text : String
  beginTime : Nat
  endTime : Nat
  endTv : Timeval
  deriving DecidableEq, Repr

/-- The class `ParamCallBack` (lines 109-140) without its mutex and condition
variable. `tParam` points to the `ParamStruct` of the owning worker, which is held
here; the destructor sets it to `NULL` (`none`). -/
structure ParamCallBack where
  userId : Nat
  startTv : Timeval
  startedTv : Timeval
  startAudioTv : Timeval
  firstTv : Timeval
  completedTv : Timeval
  closedTv : Timeval
  failedTv : Timeval
  tParam : Option ParamStruct
  sentenceParam : List SentenceParamStruct
  deriving DecidableEq, Repr

/-- What a callback reads from its environment: `now` is the reading of its own
`gettimeofday`, `now2` the reading made inside `vectorSetResult`, `ts` the string
returned by `timestamp_str`, `fopenOk` whether `fopen` of the failure log succeeds. -/
structure CbEnv where
  now : Timeval
  now2 : Timeval
  ts : String
  fopenOk : Bool
  deriving DecidableEq, Repr

/-- The result of a callback: the globals, the callback parameter, and whether
`pthread_cond_signal(&cvWord)` was called. -/
structure CbOut where
  g : Globals
  cbParam : Option ParamCallBack
  signal : Bool
  deriving DecidableEq, Repr

/-- The block written to the failure log by `onTaskFailed` (lines 749-757):
`snprintf` with the format `"%s status code:%d task id:%s error mesg:%s\n"` into
the zeroed buffer `outbuf` of 1024 bytes, which keeps at most 1023 bytes of the
line, then `fwrite` of `strlen(outbuf)` bytes. -/
def failedLine (ts : String) (cbEvent : NlsEvent) : List UInt8 :=
  (c_str ts ++ utf8 " status code:" ++ utf8 (toString cbEvent.statusCode) ++
    utf8 " task id:" ++ c_str cbEvent.taskId ++ utf8 " error mesg:" ++
    c_str cbEvent.errorMessage ++ utf8 "\n").take 1023

/-- The callback `onTranscriptionStarted` (lines 457-539). -/
def onTranscriptionStarted (g : Globals) (cbParam : Option ParamCallBack)
    (env : CbEnv) : CbOut :=
  match cbParam with
  | none => ⟨g, none, false⟩
  | some tmpParam =>
    match tmpParam.tParam with
    | none => ⟨g, some tmpParam, false⟩
    | some tParam =>
      let tmpParam := { tmpParam with startedTv := env.now }
      let timeValue := timeValueOf tmpParam.startTv tmpParam.startedTv
      let tParam := recordStarted tParam timeValue
      -- pid, add, run, success
      let g := vectorSetParams g tmpParam.userId true true false 0
      ⟨g, some { tmpParam with tParam := some tParam }, true⟩

/-- The callback `onSentenceBegin` (lines 547-563): it only prints. -/
def onSentenceBegin (g : Globals) (cbParam : Option ParamCallBack) : CbOut :=
  ⟨g, cbParam, false⟩

/-- The callback `onSentenceEnd` (lines 571-607): the sentence is appended to
`sentenceParam`. The source dereferences `cbParam` without a null check. -/
def onSentenceEnd (g : Globals) (cbEvent : NlsEvent) (cbParam : Option ParamCallBack)
    (env : CbEnv) : CbOut :=
  match cbParam with
  | none => ⟨g, none, false⟩
  | some tmpParam =>
    let param : SentenceParamStruct :=
      { sentenceId := toU32 cbEvent.sentenceIndex, text := cbEvent.result
        beginTime := toU64 cbEvent.sentenceBeginTime, endTime := toU64 cbEvent.sentenceTime
        endTv := env.now }
    ⟨g, some { tmpParam with sentenceParam := tmpParam.sentenceParam ++ [param] }, false⟩

/-- The callback `onTranscriptionResultChanged` (lines 616-670). The source
dereferences `tParam` without a null check. -/
def onTranscriptionResultChanged (g : Globals) (cbParam : Option ParamCallBack)
    (env : CbEnv) : CbOut :=
  match cbParam with
  | none => ⟨g, none, false⟩
  | some tmpParam =>
    match tmpParam.tParam with
    | none => ⟨g, some tmpParam, false⟩
    | some tParam =>
      if tParam.firstFlag = false then
        let tmpParam := { tmpParam with firstTv := env.now }
        let timeValue := timeValueOf tmpParam.startTv tmpParam.firstTv
        let tParam := recordFirst tParam timeValue
        ⟨g, some { tmpParam with tParam := some tParam }, false⟩
      else ⟨g, some tmpParam, false⟩

/-- The callback `onTranscriptionCompleted` (lines 680-734). -/
def onTranscriptionCompleted (g : Globals) (cbParam : Option ParamCallBack)
    (env : CbEnv) : CbOut :=
  let g := { g with run_success := g.run_success + 1 }
  match cbParam with
  | none => ⟨g, none, false⟩
  | some tmpParam =>
    match tmpParam.tParam with
    | none => ⟨g, some tmpParam, false⟩
    | some tParam =>
      let tmpParam := { tmpParam with completedTv := env.now }
      let timeValue := timeValueOf tmpParam.startTv tmpParam.completedTv
      let tParam := recordCompleted tParam timeValue
      let g := vectorSetResult g tmpParam.userId true env.now2
      ⟨g, some { tmpParam with tParam := some tParam }, false⟩

/-- The callback `onTaskFailed` (lines 743-781). -/
def onTaskFailed (g : Globals) (cbEvent : NlsEvent) (cbParam : Option ParamCallBack)
    (env : CbEnv) : CbOut :=
  let g := { g with run_fail := g.run_fail + 1 }
  let g :=
    { g with failedLog :=
        if env.fopenOk then g.failedLog ++ [failedLine env.ts cbEvent] else g.failedLog }
  match cbParam with
  | none => ⟨g, none, false⟩
  | some tmpParam =>
    match tmpParam.tParam with
    | none => ⟨g, some tmpParam, false⟩
    | some tParam =>
      let tParam := { tParam with failedConsumed := (tParam.failedConsumed + 1) % U64 }
      let g := vectorSetResult g tmpParam.userId false env.now2
      let g := vectorSetFailed g tmpParam.userId true
      ⟨g, some { tmpParam with tParam := some tParam }, false⟩

/-- The callback `onChannelClosed` (lines 827-921). -/
def onChannelClosed (g : Globals) (cbParam : Option ParamCallBack) (env : CbEnv) : CbOut :=
  match cbParam with
  | none => ⟨g, none, false⟩
  | some tmpParam =>
    match tmpParam.tParam with
    | none => ⟨g, some tmpParam, false⟩
    | some tParam =>
      let tmpParam := { tmpParam with closedTv := env.now }
      let timeValue := timeValueOf tmpParam.startTv tmpParam.closedTv
      let tParam := recordClosed tParam timeValue
      let tmpParam := { tmpParam with sentenceParam := [] }
      -- wake the sending thread
      ⟨g, some { tmpParam with tParam := some tParam }, true⟩

/-- The seven event kinds delivered by the SDK. -/
inductive EventKind where
  | Started
  | SentenceBegin
  | SentenceEnd
  | ResultChanged
  | Completed
  | TaskFailed
  | Closed
  deriving DecidableEq, Repr

/-- The callback registered for each event kind (lines 1092-1105 and 1395-1407). -/
def dispatch (k : EventKind) (g : Globals) (cbEvent : NlsEvent)
    (cbParam : Option ParamCallBack) (env : CbEnv) : CbOut :=
  match k with
  | .Started => onTranscriptionStarted g cbParam env
  | .SentenceBegin => onSentenceBegin g cbParam
  | .SentenceEnd => onSentenceEnd g cbEvent cbParam env
  | .ResultChanged => onTranscriptionResultChanged g cbParam env
  | .Completed => onTranscriptionCompleted g cbParam env
  | .TaskFailed => onTaskFailed g cbEvent cbParam env
  | .Closed => onChannelClosed g cbParam env

/-! ## The worker threads

A worker is modelled as a step function between its blocking points. The values
it obtains from outside (return values of the transport, clock readings, the
outcome of `pthread_cond_timedwait`) are the inputs of the steps; the transport
operations it performs are the outputs. -/

/-- The operations a worker performs on the transport and on its own resources. -/
inductive Op where
  | createRequest (ok : Bool)
  | setFormat (fmt : String)
  | setSampleRate (rate : Int)
  | setMaxSentenceSilence (v : Int)
  | start (ret : Int)
  | cancel
  | sendAudio (nlen : Nat) (ret : Int)
  | usleep (us : Nat)
  | stop (ret : Int)
  | releaseRequest
  | graceSleep
  | deleteCbParam
  deriving DecidableEq, Repr

/-- The control points of a worker: before its preamble, at the top of the
`do` body, after `start()` has returned and before `pthread_cond_timedwait` is
entered, blocked in the wait for the started event, in the `while (!fs.eof())`
loop, after that loop and before `stop()`, after `stop()` has returned and before
`pthread_cond_timedwait` is entered, blocked in the wait for the closed event,
after the `do` loop and before `delete cbParam`, and returned. -/
inductive Pc where
  | created
  | loopTop
  | startCalled
  | waitStarted
  | sending
  | stopping
  | stopCalled
  | waitClosed
  | leaving
  | exited
  deriving DecidableEq, Repr

/-- The local state of a worker thread. `cbParam.tParam` holds the `ParamStruct`
that both `tst` and `cbParam->tParam` point to. `fileLen` is the size of the audio
file, `none` when it cannot be opened; `filePos` and `eof` are the state of the
stream `fs`; `signalled` records a `pthread_cond_signal` on `cvWord` since the
worker entered its current wait: a signal sent while the worker is not blocked in
`pthread_cond_timedwait` wakes nobody, and the record is cleared when the wait is
entered. -/
structure Worker where
  pc : Pc
  cbParam : ParamCallBack
  fileLen : Option Nat
  filePos : Nat
  eof : Bool
  signalled : Bool
  testCount : Int
  timedwait_flag : Bool
  sendAudio_us : Nat
  sendAudio_cnt : Nat
  sleepMs : Int
  deriving DecidableEq, Repr

/-- An update of the `ParamStruct` through the pointer `tst`. -/
def Worker.modTst (wk : Worker) (f : ParamStruct → ParamStruct) : Worker :=
  { wk with cbParam := { wk.cbParam with tParam := wk.cbParam.tParam.map f } }

/-- The inputs of the worker steps. `init`: the preamble before the `do` loop
(`createOk` is the outcome of `createTranscriberRequest` in the long-connection
worker). `begin`: the `do` body up to the first wait, with the outcome of
`createTranscriberRequest` (per-request worker), the return value of `start()` and
the clock reading stored in `startTv`; the step ends when `start()` has returned.
`enterWait`: the code from there to `pthread_cond_timedwait`, which is entered
with `mtxWord` locked; the same after `stop()`. `waitReturn`:
`pthread_cond_timedwait` returns, with `0` when the condition variable was
signalled during the wait or the wake-up is spurious and with `ETIMEDOUT`
otherwise; `now` is the next clock reading. `frame`: one iteration of the send
loop with the return value of `sendAudio` and the measured duration of the call.
`stop`: the code after the send loop up to the return of `stop()`, and the rest
of the iteration when `stop()` does not return 0. `finish`: the code after the
`do` loop. -/
inductive WorkerInput where
  | init (createOk : Bool)
  | begin (createOk : Bool) (ret : Int) (now : Timeval)
  | enterWait
  | waitReturn (spurious : Bool) (now : Timeval)
  | frame (ret : Int) (tmp_us : Nat)
  | stop (ret : Int)
  | finish
  deriving DecidableEq, Repr

/-- The result of a worker step. -/
structure StepOut where
  g : Globals
  wk : Worker
  ops : List Op
  deriving DecidableEq, Repr

/-- The request settings made before `start()` (lines 1130-1154 and 1432-1457). -/
def requestSettings (cfg : Config) : List Op :=
  [Op.setFormat (match cfg.encoder_type with
      | .ENCODER_OPUS => "opus"
      | .ENCODER_OPU => "opu"
      | .ENCODER_NONE => "pcm"),
   Op.setSampleRate cfg.sample_rate] ++
  (if cfg.max_sentence_silence > 0 then
    if cfg.max_sentence_silence > 2000 ∨ cfg.max_sentence_silence < 200 then []
    else [Op.setMaxSentenceSilence cfg.max_sentence_silence]
  else [])

/-- One iteration of `while (!fs.eof())` (lines 1212-1273 and 1524-1577), entered
with `eof` false: `fs.read` of `frame_size` bytes, `sendAudio` unless nothing was
read, the bookkeeping of the call and the pacing sleep, then the loop condition.
A `frame_size` that is not positive reads nothing. -/
def sendFrame (cfg : Config) (wk : Worker) (ret : Int) (tmp_us : Nat) : Worker × List Op :=
  let avail := wk.fileLen.getD 0 - wk.filePos
  let nlen := min cfg.frame_size.toNat avail
  let wk := { wk with filePos := wk.filePos + nlen
                      eof := wk.eof || decide (avail < cfg.frame_size.toNat) }
  if nlen ≤ 0 then
    -- continue
    ({ wk with pc := if wk.eof then Pc.stopping else Pc.sending }, [])
  else if ret < 0 then
    -- break
    ({ wk with pc := Pc.stopping }, [Op.sendAudio nlen ret])
  else
    let wk := { wk with sendAudio_us := (wk.sendAudio_us + tmp_us) % U64
                        sendAudio_cnt := (wk.sendAudio_cnt + 1) % U32 }
    if cfg.noSleepFlag then
      ({ wk with pc := if wk.eof then Pc.stopping else Pc.sending }, [Op.sendAudio nlen ret])
    else
      let sleepMs := u32ToInt (getSendAudioSleepTime ret cfg.sample_rate 1)
      let wk := { wk with sleepMs := sleepMs }
      let pace :=
        if toU64 (sleepMs * 1000) > tmp_us then
          [Op.usleep (((toU64 (sleepMs * 1000) + U64 - tmp_us) % U64) % U32)]
        else []
      ({ wk with pc := if wk.eof then Pc.stopping else Pc.sending },
        [Op.sendAudio nlen ret] ++ pace)

/-- The end of a `do` iteration (lines 1319-1322 and 1623-1626): the loop-count
check and the test of `global_run`. -/
def endIteration (cfg : Config) (g : Globals) (wk : Worker) (ops : List Op) : StepOut :=
  let g :=
    if cfg.loop_count > 0 ∧ wk.testCount ≥ cfg.loop_count then { g with global_run := false }
    else g
  if g.global_run then ⟨g, { wk with pc := Pc.loopTop }, ops⟩
  else ⟨g, { wk with pc := Pc.leaving }, ops⟩

/-- The code after the send loop up to `stop()` (lines 1279-1286 and 1586-1594). -/
def afterSend (wk : Worker) : Worker :=
  wk.modTst (fun t =>
    { t with sendConsumed := (t.sendConsumed + wk.sendAudio_cnt) % U64
             sendTotalValue := (t.sendTotalValue + wk.sendAudio_us) % U64 })

/-- The code after the `do` loop (lines 1324-1343 and 1628-1647): in the
long-connection worker the release of the request, then the sleep of ten seconds
when `timedwait_flag` is set, then `delete cbParam`. -/
def finishWorker (long : Bool) (g : Globals) (wk : Worker) : StepOut :=
  ⟨g, { wk with pc := Pc.exited },
    (if long then [Op.releaseRequest] else []) ++
    (if wk.timedwait_flag then [Op.graceSleep] else []) ++ [Op.deleteCbParam]⟩

/-- The worker `pthreadFunction` of the per-request mode (lines 1029-1344). -/
def pthreadFunction (cfg : Config) (g : Globals) (wk : Worker) (inp : WorkerInput) :
    StepOut :=
  match wk.pc, inp with
  | .created, .init _ =>
    match wk.fileLen with
    | none => ⟨g, { wk with pc := Pc.exited }, []⟩
    | some size =>
      -- int len = fs.tellg();
      let len : Int := u32ToInt size
      let wk := wk.modTst (fun t =>
        { t with audioFileTimeLen := getAudioFileTimeMs len cfg.sample_rate 1 })
      let g := vectorSetParams g wk.cbParam.userId true false false
        (toU64 (Int.tdiv len 640 * 20))
      ⟨g, { wk with pc := Pc.loopTop }, []⟩
  | .loopTop, .begin createOk ret now =>
    let wk := wk.modTst (fun t => { t with requestConsumed := (t.requestConsumed + 1) % U64 })
    if createOk = false then
      ⟨g, { wk with pc := Pc.exited }, [Op.createRequest false, Op.deleteCbParam]⟩
    else
      let ops := [Op.createRequest true] ++ requestSettings cfg
      -- fs.clear(); fs.seekg(0, std::ios::beg);
      let wk := { wk with filePos := 0, eof := false }
      let wk := { wk with cbParam := { wk.cbParam with startTv := now } }
      let g := { g with run_cnt := g.run_cnt + 1 }
      let wk := { wk with testCount := wk.testCount + 1 }
      if ret < 0 then
        let g := { g with run_start_failed := g.run_start_failed + 1 }
        ⟨g, { wk with pc := Pc.leaving }, ops ++ [Op.start ret, Op.releaseRequest]⟩
      else
        ⟨g, { wk with pc := Pc.startCalled }, ops ++ [Op.start ret]⟩
  | .startCalled, .enterWait =>
    -- pthread_mutex_lock(&(cbParam->mtxWord)); pthread_cond_timedwait(...)
    ⟨g, { wk with pc := Pc.waitStarted, signalled := false }, []⟩
  | .waitStarted, .waitReturn spurious now =>
    if wk.signalled || spurious then
      let wk := { wk with sendAudio_us := 0, sendAudio_cnt := 0 }
      let wk := { wk with cbParam := { wk.cbParam with startAudioTv := now } }
      ⟨g, { wk with pc := Pc.sending }, []⟩
    else
      let wk := { wk with timedwait_flag := true }
      let g := { g with run_cancel := g.run_cancel + 1 }
      ⟨g, { wk with pc := Pc.leaving }, [Op.cancel, Op.releaseRequest]⟩
  | .sending, .frame ret tmp_us =>
    let r := sendFrame cfg wk ret tmp_us
    ⟨g, r.1, r.2⟩
  | .stopping, .stop ret =>
    let wk := afterSend wk
    if ret = 0 then
      ⟨g, { wk with pc := Pc.stopCalled }, [Op.stop ret]⟩
    else
      endIteration cfg g wk [Op.stop ret, Op.releaseRequest]
  | .stopCalled, .enterWait =>
    -- pthread_mutex_lock(&(cbParam->mtxWord)); pthread_cond_timedwait(...)
    ⟨g, { wk with pc := Pc.waitClosed, signalled := false }, []⟩
  | .waitClosed, .waitReturn spurious _ =>
    if wk.signalled || spurious then
      endIteration cfg g wk [Op.releaseRequest]
    else
      let wk := { wk with timedwait_flag := true }
      ⟨g, { wk with pc := Pc.leaving }, [Op.releaseRequest]⟩
  | .leaving, .finish => finishWorker false g wk
  | _, _ => ⟨g, wk, []⟩

/-- The worker `pthreadLongConnectionFunction` of the long-connection mode
(lines 1360-1648). -/
def pthreadLongConnectionFunction (cfg : Config) (g : Globals) (wk : Worker)
    (inp : WorkerInput) : StepOut :=
  match wk.pc, inp with
  | .created, .init createOk =>
    if createOk = false then
      ⟨g, { wk with pc := Pc.exited }, [Op.createRequest false, Op.deleteCbParam]⟩
    else
      ⟨g, { wk with pc := Pc.loopTop }, [Op.createRequest true] ++ requestSettings cfg⟩
  | .loopTop, .begin _ ret now =>
    match wk.fileLen with
    | none => ⟨g, { wk with pc := Pc.leaving }, []⟩
    | some size =>
      -- int len = fs.tellg();
      let len : Int := u32ToInt size
      let wk := wk.modTst (fun t =>
        { t with audioFileTimeLen := getAudioFileTimeMs len cfg.sample_rate 1 })
      let wk := { wk with filePos := 0, eof := false }
      let g := vectorSetParams g wk.cbParam.userId true false false
        (toU64 (Int.tdiv len 640 * 20))
      let wk := wk.modTst (fun t =>
        { t with requestConsumed := (t.requestConsumed + 1) % U64 })
      let wk := { wk with cbParam := { wk.cbParam with startTv := now } }
      let g := { g with run_cnt := g.run_cnt + 1 }
      let wk := { wk with testCount := wk.testCount + 1 }
      if ret < 0 then
        let g := { g with run_start_failed := g.run_start_failed + 1 }
        ⟨g, { wk with pc := Pc.leaving }, [Op.start ret]⟩
      else
        ⟨g, { wk with pc := Pc.startCalled }, [Op.start ret]⟩
  | .startCalled, .enterWait =>
    -- pthread_mutex_lock(&(cbParam->mtxWord)); pthread_cond_timedwait(...)
    ⟨g, { wk with pc := Pc.waitStarted, signalled := false }, []⟩
  | .waitStarted, .waitReturn spurious now =>
    if wk.signalled || spurious then
      let wk := { wk with sendAudio_us := 0, sendAudio_cnt := 0 }
      let wk := { wk with cbParam := { wk.cbParam with startAudioTv := now } }
      ⟨g, { wk with pc := Pc.sending }, []⟩
    else
      let wk := { wk with timedwait_flag := true }
      let g := { g with run_cancel := g.run_cancel + 1 }
      ⟨g, { wk with pc := Pc.leaving }, [Op.cancel]⟩
  | .sending, .frame ret tmp_us =>
    let r := sendFrame cfg wk ret tmp_us
    ⟨g, r.1, r.2⟩
  | .stopping, .stop ret =>
    let wk := afterSend wk
    if ret = 0 then
      ⟨g, { wk with pc := Pc.stopCalled }, [Op.stop ret]⟩
    else
      endIteration cfg g wk [Op.stop ret]
  | .stopCalled, .enterWait =>
    -- pthread_mutex_lock(&(cbParam->mtxWord)); pthread_cond_timedwait(...)
    ⟨g, { wk with pc := Pc.waitClosed, signalled := false }, []⟩
  | .waitClosed, .waitReturn spurious _ =>
    if wk.signalled || spurious then
      endIteration cfg g wk []
    else
      -- `timedwait_flag` is not set on this path (lines 1613-1617)
      ⟨g, { wk with pc := Pc.leaving }, []⟩
  | .leaving, .finish => finishWorker true g wk
  | _, _ => ⟨g, wk, []⟩

/-- The thread function selected by `longConnection` (lines 1752-1756). -/
def workerStep (cfg : Config) (g : Globals) (wk : Worker) (inp : WorkerInput) : StepOut :=
  if cfg.longConnection then pthreadLongConnectionFunction cfg g wk inp
  else pthreadFunction cfg g wk inp

/-- A worker run on its own: the inputs are consumed in order and the operations
are collected. -/
def workerRun (cfg : Config) (g : Globals) (wk : Worker) : List WorkerInput → StepOut
  | [] => ⟨g, wk, []⟩
  | inp :: rest =>
    let r := workerStep cfg g wk inp
    let r2 := workerRun cfg r.g r.wk rest
    ⟨r2.g, r2.wk, r.ops ++ r2.ops⟩

/-! ## A run: workers and event delivery interleaved -/

/-- One entry of the history of a run: an operation performed by the worker
with thread id `pid`, or an event handled by the callbacks of that worker. -/
inductive TraceItem where
  | op (pid : Nat) (o : Op)
  | handled (pid : Nat) (k : EventKind)
  deriving DecidableEq, Repr

/-- The state of a run: the globals, the worker threads, and the history. -/
structure World where
  g : Globals
  workers : List Worker
  trace : List TraceItem
  deriving DecidableEq, Repr

/-- The atomic actions of a run: worker `i` takes a step; the SDK delivers an
event to the callbacks registered by worker `i`; `global_run` is cleared from
outside (`signal_handler_int`, `signal_handler_quit`, `autoCloseFunc`). -/
inductive Action where
  | worker (i : Nat) (inp : WorkerInput)
  | event (i : Nat) (k : EventKind) (cbEvent : NlsEvent) (env : CbEnv)
  | stopRun
  deriving DecidableEq, Repr

/-- Delivery of an event to the callbacks of a worker: the registered callback
runs on the worker's `cbParam`; a signal on `cvWord` is recorded. The record
counts only for a wait that the worker has already entered: the entry into the
next wait clears it. -/
def deliver (g : Globals) (wk : Worker) (k : EventKind) (cbEvent : NlsEvent)
    (env : CbEnv) : Globals × Worker :=
  let out := dispatch k g cbEvent (some wk.cbParam) env
  let wk :=
    match out.cbParam with
    | some cb => { wk with cbParam := cb }
    | none => wk
  (out.g, { wk with signalled := wk.signalled || out.signal })

/-- Whether the callbacks of a worker can run: its `cbParam` exists and has not
been deleted. Deliveries outside this window are not part of the model. -/
def Worker.listening (wk : Worker) : Bool :=
  wk.pc ≠ Pc.created ∧ wk.pc ≠ Pc.exited

/-- One action of a run. An action that names no worker, a worker input that does
not match the control point of the worker, and an event for a worker whose
callbacks cannot run leave the state unchanged. -/
def step (cfg : Config) (w : World) (a : Action) : World :=
  match a with
  | .worker i inp =>
    match w.workers.get? i with
    | none => w
    | some wk =>
      let r := workerStep cfg w.g wk inp
      { g := r.g, workers := w.workers.set i r.wk
        trace := w.trace ++ r.ops.map (TraceItem.op wk.cbParam.userId) }
  | .event i k cbEvent env =>
    match w.workers.get? i with
    | none => w
    | some wk =>
      if wk.listening then
        let r := deliver w.g wk k cbEvent env
        { g := r.1, workers := w.workers.set i r.2
          trace := w.trace ++ [TraceItem.handled wk.cbParam.userId k] }
      else w
  | .stopRun => { w with g := { w.g with global_run := false } }

/-- A run: the actions are taken in order. -/
def run (cfg : Config) (w : World) : List Action → World
  | [] => w
  | a :: rest => run cfg (step cfg w a) rest

/-- The built-in audio files (lines 1681-1684). -/
def audioFileNames : List String := ["test0.wav", "test1.wav", "test2.wav", "test3.wav"]

/-- A write of the bytes `bs` into the memory `mem` from offset `off` on. Bytes
that would fall behind the end of `mem` are left out. -/
def memWrite (mem : List UInt8) (off : Nat) (bs : List UInt8) : List UInt8 :=
  mem.take off ++ (bs ++ mem.drop (off + bs.length)).take (mem.length - off)

/-- The call `memset(mem + off, 0, n)`. -/
def memset0 (mem : List UInt8) (off n : Nat) : List UInt8 :=
  memWrite mem off (List.replicate n 0)

/-- The call `strncpy(mem + off, src, n)` for the C string `src`: its first `n`
bytes, followed by NUL bytes when it has fewer than `n`. -/
def strncpy (mem : List UInt8) (off : Nat) (src : List UInt8) (n : Nat) : List UInt8 :=
  memWrite mem off (src.take n ++ List.replicate (n - src.length) 0)

/-- The first 512 bytes of `pa[i]`, the arrays `fileName`, `token`, `appkey` and
`url`, after their initialisation (lines 1688-1705), written in the order of the
source. Each array is zeroed before it is filled, so the bytes the arrays had
before do not matter. `fileName` receives the built-in name number `i % 4` or,
through `strncpy`, at most `DEFAULT_STRING_LEN` bytes of the configured path, with
no terminator when the path has that many bytes or more. `memcpy` copies the
whole token, appkey and url: what exceeds an array runs into the next one, which
is zeroed and filled afterwards; what exceeds `url` lies outside these bytes. -/
def paArrays (cfg : Config) (i : Nat) : List UInt8 :=
  let mem : List UInt8 := List.replicate (4 * DEFAULT_STRING_LEN) 0
  -- memset(pa[i].fileName, 0, DEFAULT_STRING_LEN);
  let mem := memset0 mem 0 DEFAULT_STRING_LEN
  let mem :=
    if cfg.g_audio_path = "" then
      let name := c_str (audioFileNames.getD (i % 4) "")
      strncpy mem 0 name name.length
    else
      strncpy mem 0 (c_str cfg.g_audio_path) DEFAULT_STRING_LEN
  -- memset(pa[i].token, 0, DEFAULT_STRING_LEN); memcpy(..., g_token.length());
  let mem := memset0 mem DEFAULT_STRING_LEN DEFAULT_STRING_LEN
  let mem := memWrite mem DEFAULT_STRING_LEN (utf8 cfg.g_token)
  -- memset(pa[i].appkey, 0, DEFAULT_STRING_LEN); memcpy(..., strlen(appkey));
  let mem := memset0 mem (2 * DEFAULT_STRING_LEN) DEFAULT_STRING_LEN
  let mem := memWrite mem (2 * DEFAULT_STRING_LEN) (c_str cfg.g_appkey)
  -- memset(pa[i].url, 0, DEFAULT_STRING_LEN);
  let mem := memset0 mem (3 * DEFAULT_STRING_LEN) DEFAULT_STRING_LEN
  if cfg.g_url = "" then mem
  else memWrite mem (3 * DEFAULT_STRING_LEN) (utf8 cfg.g_url)

/-- The parameter block `pa[i]` after its initialisation (lines 1688-1745). -/
def paInit (cfg : Config) (i : Nat) : ParamStruct :=
  let mem := paArrays cfg i
  ParamStruct.init (mem.take DEFAULT_STRING_LEN)
    ((mem.drop DEFAULT_STRING_LEN).take DEFAULT_STRING_LEN)
    ((mem.drop (2 * DEFAULT_STRING_LEN)).take DEFAULT_STRING_LEN)
    (mem.drop (3 * DEFAULT_STRING_LEN))

/-- The file name that `fs.open(tst->fileName, ...)` reads (lines 1046, 1471): the C
string that begins at `fileName`. It ends at the first NUL; when `fileName` holds
none it runs on into `token`, then `appkey`, then `url`. A read that finds no
NUL in the four arrays reaches `startedConsumed`, whose bytes are zero when the
worker starts; the name of the model ends there. -/
def ParamStruct.openName (t : ParamStruct) : List UInt8 :=
  cString (t.fileName ++ t.token ++ t.appkey ++ t.url)

/-- The name of the file that worker `i` opens. -/
def workerFileName (cfg : Config) (i : Nat) : List UInt8 := (paInit cfg i).openName

/-- A timeval that has not been written yet. -/
def Timeval.zero : Timeval := ⟨0, 0⟩

/-- The worker created for `pa[i]` (lines 1688-1757). The thread id of worker `i`
is `i`; `files` gives the size of the file with a given name. -/
def newWorker (cfg : Config) (files : List UInt8 → Option Nat) (i : Nat) : Worker :=
  let pa := paInit cfg i
  { pc := Pc.created
    cbParam :=
      { userId := i, startTv := Timeval.zero, startedTv := Timeval.zero
        startAudioTv := Timeval.zero, firstTv := Timeval.zero, completedTv := Timeval.zero
        closedTv := Timeval.zero, failedTv := Timeval.zero
        tParam := some pa, sentenceParam := [] }
    fileLen := files pa.openName
    filePos := 0, eof := false, signalled := false
    testCount := 0, timedwait_flag := false
    sendAudio_us := 0, sendAudio_cnt := 0, sleepMs := 0 }

/-- The state in which `speechTranscriberMultFile` has created its `threads`
workers (lines 1685-1757): `global_run` is set and every worker is about to run. -/
def startRun (cfg : Config) (files : List UInt8 → Option Nat) (g : Globals) (threads : Nat) :
    World :=
  { g := { g with global_run := true }
    workers := (List.range threads).map (newWorker cfg files)
    trace := [] }

/-- The number of history entries that satisfy `p`. -/
def countTrace (p : TraceItem → Bool) (w : World) : Nat := (w.trace.filter p).length

/-- The operations of the worker with thread id `pid`, in order. -/
def opsOf (pid : Nat) (w : World) : List Op :=
  w.trace.filterMap (fun t => match t with
    | .op q o => if q = pid then some o else none
    | .handled _ _ => none)

/-! ## Views used in the statements about the running statistics -/

/-- The update that `recordStarted`, `recordFirst`, `recordCompleted` and
`recordClosed` each perform on the five fields of their own phase. -/
def PhaseView.record (v : PhaseView) (timeValue : Nat) : PhaseView :=
  let consumed := (v.consumed + 1) % U64
  let total := (v.total + timeValue) % U64
  { consumed := consumed
    total := total
    ave := if consumed > 0 then total / consumed else v.ave
    max := if timeValue > v.max then timeValue else v.max
    min := if v.min = 0 then timeValue else if timeValue < v.min then timeValue else v.min }

/-- A phase that has not recorded anything yet. -/
def PhaseView.Fresh (v : PhaseView) : Prop :=
  v.consumed = 0 ∧ v.total = 0 ∧ v.max = 0 ∧ v.min = 0

/-- The invariant of a phase that has recorded positive samples without wrapping:
the count is positive and at most the total, the minimum is positive,
`count * min ≤ total ≤ count * max`, and the stored average is `total / count`. -/
def PhaseView.Sound (v : PhaseView) : Prop :=
  0 < v.consumed ∧ 0 < v.min ∧ v.consumed * v.min ≤ v.total ∧ v.total ≤ v.consumed * v.max ∧
    v.ave = v.total / v.consumed ∧ v.consumed ≤ v.total ∧ v.total < U64

/-- The property `min ≤ average ≤ max`, with the average both as `total / count`
and as the stored field. -/
def PhaseView.MinAveMax (v : PhaseView) : Prop :=
  v.min ≤ v.total / v.consumed ∧ v.total / v.consumed ≤ v.max ∧ v.ave = v.total / v.consumed

/-! ## Counting in the history of a run -/

/-- Whether an operation is a call of `start()`. -/
def Op.isStart : Op → Bool
  | .start _ => true
  | _ => false

/-- Whether an operation is a call of `start()` that returned a negative value. -/
def Op.isStartFailed : Op → Bool
  | .start ret => decide (ret < 0)
  | _ => false

/-- Whether an operation is a call of `cancel()`. -/
def Op.isCancel : Op → Bool
  | .cancel => true
  | _ => false

/-- Whether a history entry is an operation that satisfies `q`. -/
def TraceItem.isOp (q : Op → Bool) : TraceItem → Bool
  | .op _ o => q o
  | .handled _ _ => false

/-- Whether a history entry is a handled event of kind `k`. -/
def TraceItem.isHandled (k : EventKind) : TraceItem → Bool
  | .op _ _ => false
  | .handled _ k2 => decide (k2 = k)

/-- The relation between the run counters and the operations of one worker step:
`run_cnt` grows by the number of `start()` calls, `run_start_failed` by the number
of those that returned a negative value, `run_cancel` by the number of `cancel()`
calls, and `run_success` and `run_fail` do not change. -/
def StepCounts (g : Globals) (r : StepOut) : Prop :=
  r.g.run_cnt = g.run_cnt + (r.ops.filter Op.isStart).length ∧
  r.g.run_start_failed = g.run_start_failed + (r.ops.filter Op.isStartFailed).length ∧
  r.g.run_cancel = g.run_cancel + (r.ops.filter Op.isCancel).length ∧
  r.g.run_success = g.run_success ∧ r.g.run_fail = g.run_fail

/-- The relation between the run counters of a state and its history, relative
to the globals `g0` the run began with: `run_cnt` counts the `start()` calls,
`run_start_failed` those that returned a negative value, `run_cancel` the
`cancel()` calls, `run_success` the handled `Completed` events and `run_fail` the
handled `TaskFailed` events. -/
def CountersMatch (g0 : Globals) (w : World) : Prop :=
  w.g.run_cnt = g0.run_cnt + countTrace (TraceItem.isOp Op.isStart) w ∧
  w.g.run_start_failed = g0.run_start_failed + countTrace (TraceItem.isOp Op.isStartFailed) w ∧
  w.g.run_cancel = g0.run_cancel + countTrace (TraceItem.isOp Op.isCancel) w ∧
  w.g.run_success = g0.run_success + countTrace (TraceItem.isHandled EventKind.Completed) w ∧
  w.g.run_fail = g0.run_fail + countTrace (TraceItem.isHandled EventKind.TaskFailed) w

/-- An event without payload, and callback readings at time zero. -/
def NlsEvent.blank : NlsEvent :=
  { statusCode := 0, taskId := "", errorMessage := "", result := ""
    sentenceIndex := 0, sentenceTime := 0, sentenceBeginTime := 0 }

def CbEnv.blank : CbEnv :=
  { now := Timeval.zero, now2 := Timeval.zero, ts := "", fopenOk := true }

/-- A run of one per-request worker on a file of 1000 bytes: `start()` succeeds,
the Started event arrives, both frames are sent, `stop()` returns 0, and the wait
for the Closed event times out; no Completed or TaskFailed event is delivered. -/
def stopTimeoutRun : World :=
  run {} (startRun {} (fun _ => some 1000) Globals.init 1)
    [.worker 0 (.init true), .worker 0 (.begin true 0 ⟨100, 0⟩),
     .worker 0 .enterWait, .event 0 .Started NlsEvent.blank CbEnv.blank,
     .worker 0 (.waitReturn false ⟨100, 0⟩),
     .worker 0 (.frame 0 10), .worker 0 (.frame 0 10), .worker 0 (.stop 0),
     .worker 0 .enterWait, .worker 0 (.waitReturn false ⟨105, 0⟩), .worker 0 .finish]

/-! ## Reading the result of a callback -/

/-- The `ParamStruct` behind `tParam` after a callback (the all-zero block when a
pointer is null). -/
def CbOut.tst (o : CbOut) : ParamStruct :=
  match o.cbParam with
  | none => pa0
  | some cb => cb.tParam.getD pa0

/-- The `startTv` of the callback parameter after a callback. -/
def CbOut.startTv (o : CbOut) : Timeval :=
  match o.cbParam with
  | none => Timeval.zero
  | some cb => cb.startTv

/-- The callback parameter of the first worker of `newWorker`, used in examples. -/
def cbParam0 : ParamCallBack := (newWorker {} (fun _ => some 1000) 0).cbParam

/-! ## Example states -/

/-- A per-request worker on a file of 1000 bytes that has just left its wait for
the Started event: it is in the send loop at the beginning of the file. -/
def sendingWorker0 : Worker :=
  { newWorker {} (fun _ => some 1000) 0 with pc := Pc.sending }

/-- A run of one long-connection worker on a file of 1000 bytes: `start()` succeeds,
the Started event arrives, both frames are sent, `stop()` returns 0, the wait for
the Closed event times out, and the worker finishes. -/
def longStopTimeoutRun : World :=
  run { longConnection := true }
    (startRun { longConnection := true } (fun _ => some 1000) Globals.init 1)
    [.worker 0 (.init true), .worker 0 (.begin true 0 ⟨100, 0⟩),
     .worker 0 .enterWait, .event 0 .Started NlsEvent.blank CbEnv.blank,
     .worker 0 (.waitReturn false ⟨100, 0⟩),
     .worker 0 (.frame 0 10), .worker 0 (.frame 0 10), .worker 0 (.stop 0),
     .worker 0 .enterWait, .worker 0 (.waitReturn false ⟨105, 0⟩), .worker 0 .finish]

/-- A run of one per-request worker that is blocked in its wait for the Closed
event when a TaskFailed event is delivered to it. -/
def taskFailedWhileWaitingRun : World :=
  run {} (startRun {} (fun _ => some 1000) Globals.init 1)
    [.worker 0 (.init true), .worker 0 (.begin true 0 ⟨100, 0⟩),
     .worker 0 .enterWait, .event 0 .Started NlsEvent.blank CbEnv.blank,
     .worker 0 (.waitReturn false ⟨100, 0⟩),
     .worker 0 (.frame 0 10), .worker 0 (.frame 0 10), .worker 0 (.stop 0),
     .worker 0 .enterWait, .event 0 .TaskFailed NlsEvent.blank CbEnv.blank]

/-- The control point, the signal record and the timeout flag of each worker. -/
def World.waits (w : World) : List (Pc × Bool × Bool) :=
  w.workers.map (fun wk => (wk.pc, wk.signalled, wk.timedwait_flag))

/-! ## The send loop as a sequence of worker inputs -/

/-- Whether an operation is a call of `sendAudio`. -/
def Op.isSendAudio : Op → Bool
  | .sendAudio _ _ => true
  | _ => false

/-- The worker inputs of consecutive iterations of the send loop, one for each
pair of a `sendAudio` return value and the measured duration of the call. -/
def frameInputs (rs : List (Int × Nat)) : List WorkerInput :=
  rs.map (fun r => WorkerInput.frame r.1 r.2)

/-- The value of `sendConsumed` behind `tst`. -/
def Worker.sendConsumed (wk : Worker) : Option Nat :=
  wk.cbParam.tParam.map (fun t => t.sendConsumed)

/-- The configuration after `--frameSize 1` (lines 2087-2090). -/
def cfgFrame1 : Config := { frame_size := 1, encoder_type := ENCODER_TYPE.ENCODER_NONE }

/-- A worker in the send loop at the beginning of a file of `2^32 + 1` bytes. -/
def hugeFileWorker : Worker :=
  { newWorker cfgFrame1 (fun _ => some 4294967297) 0 with pc := Pc.sending }

/-- A worker in the send loop at the beginning of a file of 6400 bytes. -/
def tenFrameWorker : Worker :=
  { newWorker {} (fun _ => some 6400) 0 with pc := Pc.sending }

/-! ## Runs in which no Started event arrives -/

/-- The worker inputs of a run in which every request is created, every `start()`
succeeds and no wait is left by a spurious wake-up. -/
def WorkerInput.silent : WorkerInput → Bool
  | .init createOk => createOk
  | .begin createOk ret _ => createOk && decide (0 ≤ ret)
  | .waitReturn spurious _ => !spurious
  | _ => true

/-- The actions of a run in which the transport delivers no event at all, every
request is created, every `start()` succeeds and no wait is left by a spurious
wake-up. -/
def Action.silent : Action → Bool
  | .worker _ inp => inp.silent
  | .event _ _ _ _ => false
  | .stopRun => true

/-- Whether a worker at control point `pc` has left its `do` loop; in a silent run
this is the case exactly after the timeout of its wait for Started. -/
def cancelledPc (pc : Pc) : Nat :=
  match pc with
  | .leaving => 1
  | .exited => 1
  | _ => 0

/-- The operations of a worker whose `start()` returned `ret` and whose wait for
the Started event timed out, from its creation to its return. -/
def timeoutOps (cfg : Config) (ret : Int) : List Op :=
  [Op.createRequest true] ++ requestSettings cfg ++
    [Op.start ret, Op.cancel, Op.releaseRequest, Op.graceSleep, Op.deleteCbParam]

/-- The operations a worker of a silent run has performed when it is at control
point `pc`. -/
def TimeoutPathAt (cfg : Config) (wk : Worker) (ops : List Op) : Pc → Prop
  | .created => ops = []
  | .loopTop =>
    ops = (if cfg.longConnection then [Op.createRequest true] ++ requestSettings cfg else [])
  | .startCalled =>
    ∃ ret, 0 ≤ ret ∧ ops = [Op.createRequest true] ++ requestSettings cfg ++ [Op.start ret]
  | .waitStarted =>
    wk.signalled = false ∧
      ∃ ret, 0 ≤ ret ∧ ops = [Op.createRequest true] ++ requestSettings cfg ++ [Op.start ret]
  | .leaving =>
    wk.timedwait_flag = true ∧
      ∃ ret, 0 ≤ ret ∧ ops = [Op.createRequest true] ++ requestSettings cfg ++
        [Op.start ret, Op.cancel] ++ (if cfg.longConnection then [] else [Op.releaseRequest])
  | .exited => ∃ ret, 0 ≤ ret ∧ ops = timeoutOps cfg ret
  | _ => False

/-- The invariant of a worker of a silent run: its file can be opened and its
operations so far are those of the path to the timeout. -/
def TimeoutPath (cfg : Config) (wk : Worker) (ops : List Op) : Prop :=
  (∃ L, wk.fileLen = some L) ∧ TimeoutPathAt cfg wk ops wk.pc

/-- The invariant of a silent run started with the globals `g0`: worker `i` has
thread id `i` and is on the path to the timeout, `run_cancel` has grown by the
number of workers that have left their loop, and the failure log is unchanged. -/
def TimeoutRun (cfg : Config) (g0 : Globals) (w : World) : Prop :=
  (∀ i wk, w.workers.get? i = some wk →
    wk.cbParam.userId = i ∧ TimeoutPath cfg wk (opsOf i w)) ∧
  w.g.run_cancel = g0.run_cancel + ((w.workers.map (fun wk => cancelledPc wk.pc)).sum : Nat) ∧
  w.g.failedLog = g0.failedLog

/-- Whether an operation is a call of `stop()`. -/
def Op.isStop : Op → Bool
  | .stop _ => true
  | _ => false

/-- Scenario A: four per-request workers whose `start()` succeeds and to which
the transport delivers no event; every wait for Started times out. The steps of
the workers are interleaved. -/
def scenarioA : List Action :=
  [.worker 0 (.init true), .worker 1 (.init true), .worker 2 (.init true),
   .worker 3 (.init true),
   .worker 2 (.begin true 0 ⟨100, 0⟩), .worker 0 (.begin true 0 ⟨100, 1⟩),
   .worker 2 .enterWait,
   .worker 3 (.begin true 0 ⟨100, 2⟩), .worker 1 (.begin true 0 ⟨100, 3⟩),
   .worker 0 .enterWait, .worker 1 .enterWait, .worker 3 .enterWait,
   .worker 2 (.waitReturn false ⟨105, 0⟩), .worker 0 (.waitReturn false ⟨105, 1⟩),
   .worker 2 .finish,
   .worker 3 (.waitReturn false ⟨105, 2⟩), .worker 1 (.waitReturn false ⟨105, 3⟩),
   .worker 0 .finish, .worker 1 .finish, .worker 3 .finish]

/-- The globals after the preamble of worker 0 has registered its thread id in
`g_statistics` for a file of 1000 bytes. -/
def globalsWithWorker0 : Globals := vectorSetParams Globals.init 0 true false false 20

/-! ## Example: a TaskFailed event during streaming -/

/-- A run of one per-request worker on a file of 1000 bytes: after the first
frame has been sent a TaskFailed event is handled for the session, then the send
loop runs its next iteration with a `sendAudio` call that returns 0. -/
def taskFailedMidStreamRun : World :=
  run {} (startRun {} (fun _ => some 1000) Globals.init 1)
    [.worker 0 (.init true), .worker 0 (.begin true 0 ⟨100, 0⟩),
     .worker 0 .enterWait, .event 0 .Started NlsEvent.blank CbEnv.blank,
     .worker 0 (.waitReturn false ⟨100, 0⟩),
     .worker 0 (.frame 0 10),
     .event 0 .TaskFailed NlsEvent.blank CbEnv.blank,
     .worker 0 (.frame 0 10)]

/-! ## The timestamp of the failure log -/

/-- The part of a `struct tm` read by `timestamp_str`. -/
structure Tm where
  tm_year : Int
  tm_mon : Int
  tm_mday : Int
  tm_hour : Int
  tm_min : Int
  tm_sec : Int
  deriving DecidableEq, Repr

/-- The `printf` conversions `%0wd` and `%0wld`: the decimal digits of `v`, after
the sign if there is one, padded with zeros on the left to `w` characters. -/
def fmtZeroPad (w : Nat) (v : Int) : List Char :=
  let ds := Nat.toDigits 10 v.natAbs
  if v < 0 then '-' :: (List.replicate (w - 1 - ds.length) '0' ++ ds)
  else List.replicate (w - ds.length) '0' ++ ds

/-- The function `timestamp_str` (lines 214-228) for the broken-down local time
`ltm` and the microseconds `tv_usec` of its clock reading: `snprintf` with the
format `"%04d-%02d-%02d %02d:%02d:%02d.%06ld"` into a buffer of 64 bytes. Every
character of the result is a digit, a sign or a separator and takes one byte. -/
def timestamp_str (ltm : Tm) (tv_usec : Int) : String :=
  String.mk
    ((fmtZeroPad 4 (ltm.tm_year + 1900) ++ ['-'] ++ fmtZeroPad 2 (ltm.tm_mon + 1) ++ ['-'] ++
      fmtZeroPad 2 ltm.tm_mday ++ [' '] ++ fmtZeroPad 2 ltm.tm_hour ++ [':'] ++
      fmtZeroPad 2 ltm.tm_min ++ [':'] ++ fmtZeroPad 2 ltm.tm_sec ++ ['.'] ++
      fmtZeroPad 6 tv_usec).take 63)

/-- A field of `w` decimal digits. -/
def IsDigitField (w : Nat) (l : List Char) : Prop :=
  l.length = w ∧ ∀ c ∈ l, c.isDigit = true

/-- The shape `YYYY-MM-DD hh:mm:ss.uuuuuu`. -/
def IsTimestamp (s : String) : Prop :=
  ∃ Y M D h m sec u : List Char,
    IsDigitField 4 Y ∧ IsDigitField 2 M ∧ IsDigitField 2 D ∧ IsDigitField 2 h ∧
    IsDigitField 2 m ∧ IsDigitField 2 sec ∧ IsDigitField 6 u ∧
    s = String.mk (Y ++ ['-'] ++ M ++ ['-'] ++ D ++ [' '] ++ h ++ [':'] ++ m ++ [':'] ++ sec ++
      ['.'] ++ u)

/-- The local time 2026-11-01 18:55:07. -/
def tmExample : Tm :=
  { tm_year := 126, tm_mon := 10, tm_mday := 1, tm_hour := 18, tm_min := 55, tm_sec := 7 }

/-- A TaskFailed event with status code 40000004, task id `abc` and error message
`idle`. -/
def failedEventExample : NlsEvent :=
  { NlsEvent.blank with statusCode := 40000004, taskId := "abc", errorMessage := "idle" }

/-- A per-request worker on a file of 1000 bytes at the top of its `do` loop. -/
def loopTopWorker0 : Worker :=
  { newWorker {} (fun _ => some 1000) 0 with pc := Pc.loopTop }

/-- Whether an operation is the release of the request. -/
def Op.isRelease : Op → Bool
  | .releaseRequest => true
  | _ => false

/-! ## The aggregation at the end of a run -/

/-- The local totals of `speechTranscriberMultFile` (lines 1762-1797). -/
structure Totals where
  sTotalCount : Nat
  iTotalCount : Nat
  eTotalCount : Nat
  fTotalCount : Nat
  cTotalCount : Nat
  rTotalCount : Nat
  sMaxTime : Nat
  sMinTime : Nat
  sAveTime : Nat
  fMaxTime : Nat
  fMinTime : Nat
  fAveTime : Nat
  s50Count : Nat
  s100Count : Nat
  s200Count : Nat
  s500Count : Nat
  s1000Count : Nat
  s2000Count : Nat
  eMaxTime : Nat
  eMinTime : Nat
  eAveTime : Nat
  cMaxTime : Nat
  cMinTime : Nat
  cAveTime : Nat
  sendTotalCount : Nat
  sendTotalTime : Nat
  sendAveTime : Nat
  audioFileAveTimeLen : Nat
  deriving DecidableEq, Repr

/-- The totals before the aggregation loop: every local is initialised to 0. -/
def Totals.zero : Totals :=
  { sTotalCount := 0, iTotalCount := 0, eTotalCount := 0, fTotalCount := 0
    cTotalCount := 0, rTotalCount := 0
    sMaxTime := 0, sMinTime := 0, sAveTime := 0
    fMaxTime := 0, fMinTime := 0, fAveTime := 0
    s50Count := 0, s100Count := 0, s200Count := 0, s500Count := 0
    s1000Count := 0, s2000Count := 0
    eMaxTime := 0, eMinTime := 0, eAveTime := 0
    cMaxTime := 0, cMinTime := 0, cAveTime := 0
    sendTotalCount := 0, sendTotalTime := 0, sendAveTime := 0
    audioFileAveTimeLen := 0 }

/-- One iteration of the aggregation loop (lines 1799-1878) for `pa[i] = p`. -/
def Totals.add (t : Totals) (p : ParamStruct) : Totals :=
  { sTotalCount := (t.sTotalCount + p.startedConsumed) % U64
    iTotalCount := (t.iTotalCount + p.firstConsumed) % U64
    eTotalCount := (t.eTotalCount + p.completedConsumed) % U64
    fTotalCount := (t.fTotalCount + p.failedConsumed) % U64
    cTotalCount := (t.cTotalCount + p.closeConsumed) % U64
    rTotalCount := (t.rTotalCount + p.requestConsumed) % U64
    sendTotalCount := (t.sendTotalCount + p.sendConsumed) % U64
    sendTotalTime := (t.sendTotalTime + p.sendTotalValue) % U64
    audioFileAveTimeLen := (t.audioFileAveTimeLen + p.audioFileTimeLen) % U64
    -- start
    sMaxTime := if p.startMaxValue > t.sMaxTime then p.startMaxValue else t.sMaxTime
    sMinTime :=
      if t.sMinTime = 0 then p.startMinValue
      else if p.startMinValue < t.sMinTime then p.startMinValue
      else t.sMinTime
    sAveTime := (t.sAveTime + p.startAveValue) % U64
    s50Count := (t.s50Count + p.s50Value) % U64
    s100Count := (t.s100Count + p.s100Value) % U64
    s200Count := (t.s200Count + p.s200Value) % U64
    s500Count := (t.s500Count + p.s500Value) % U64
    s1000Count := (t.s1000Count + p.s1000Value) % U64
    s2000Count := (t.s2000Count + p.s2000Value) % U64
    -- first pack
    fMaxTime := if p.firstMaxValue > t.fMaxTime then p.firstMaxValue else t.fMaxTime
    fMinTime :=
      if t.fMinTime = 0 then p.firstMinValue
      else if p.firstMinValue < t.fMinTime then p.firstMinValue
      else t.fMinTime
    fAveTime := (t.fAveTime + p.firstAveValue) % U64
    -- end
    eMaxTime := if p.endMaxValue > t.eMaxTime then p.endMaxValue else t.eMaxTime
    eMinTime :=
      if t.eMinTime = 0 then p.endMinValue
      else if p.endMinValue < t.eMinTime then p.endMinValue
      else t.eMinTime
    eAveTime := (t.eAveTime + p.endAveValue) % U64
    -- close
    cMaxTime := if p.closeMaxValue > t.cMaxTime then p.closeMaxValue else t.cMaxTime
    cMinTime :=
      if t.cMinTime = 0 then p.closeMinValue
      else if p.closeMinValue < t.cMinTime then p.closeMinValue
      else t.cMinTime
    cAveTime := (t.cAveTime + p.closeAveValue) % U64
    sendAveTime := t.sendAveTime }

/-- The aggregation of `speechTranscriberMultFile` after the workers are joined
(lines 1762-1900) over the array `pa` of `threads = pa.length` parameter blocks:
the loop, the four averages and the average audio length divided by `threads`,
and the average duration of a `sendAudio` call. With `threads = 0` the division
`sAveTime /= threads` has no result. -/
def aggregate (pa : List ParamStruct) : Option Totals :=
  let t := pa.foldl Totals.add Totals.zero
  let threads := pa.length % U64
  if threads = 0 then none
  else
    some { t with
      sAveTime := t.sAveTime / threads
      eAveTime := t.eAveTime / threads
      cAveTime := t.cAveTime / threads
      fAveTime := t.fAveTime / threads
      audioFileAveTimeLen := t.audioFileAveTimeLen / threads
      sendAveTime :=
        if t.sendTotalCount > 0 then t.sendTotalTime / t.sendTotalCount else t.sendAveTime }

/-! ## The keys of the statistics map and the end of a run in `main` -/

/-- The thread ids that have an entry in `g_statistics`. -/
def statKeys (m : List (Nat × ParamStatistics)) : List Nat := m.map Prod.fst

/-- The entries of `g` are still present in `g2`, in the same order, possibly
followed by new ones. -/
def KeysKept (g g2 : Globals) : Prop :=
  ∃ extra, statKeys g2.g_statistics = statKeys g.g_statistics ++ extra

/-- The end of one run in `main` (lines 2260-2292): when the statistics map is
not empty every entry is deleted and erased; then `run_cnt`, `run_start_failed`,
`run_success` and `run_fail` are set to 0. -/
def mainEndOfRun (g : Globals) : Globals :=
  let size := g.g_statistics.length
  let g := if size > 0 then { g with g_statistics := [] } else g
  { g with run_cnt := 0, run_start_failed := 0, run_success := 0, run_fail := 0 }

/-- Whether an operation is a call of `setMaxSentenceSilence`. -/
def Op.isSetSilence : Op → Bool
  | .setMaxSentenceSilence _ => true
  | _ => false

/-- A configuration whose audio path has 130 characters of one byte each, with
the token `tok`. -/
def longPathCfg : Config :=
  { g_audio_path := String.mk (List.replicate 130 'a'), g_token := "tok" }

/-- A configuration whose audio path has 70 characters of two bytes each. -/
def widePathCfg : Config := { g_audio_path := String.mk (List.replicate 70 '\u00e9') }

/-- A file system that holds one file, of 1000 bytes, with the name `path`. -/
def filesOnly (path : String) : List UInt8 → Option Nat :=
  fun name => if name = utf8 path then some 1000 else none

/-- A configuration whose audio path is `audio/sample.wav`. -/
def pathCfg : Config := { g_audio_path := "audio/sample.wav" }

/-- A file system in which every file has 1000 bytes. -/
def files0 : List UInt8 → Option Nat := fun _ => some 1000

/-! ## The token check at the start of a run -/

/-- The outcome of a token request: the return code of `applyNlsToken` and the
values of `getToken` and `getExpireTime`. -/
structure TokenReply where
  retCode : Int
  token : String
  expireTime : Int
  deriving DecidableEq, Repr

/-- The function `generateToken` (lines 382-409). `service` stands for the token
service: it answers a request made with the AccessKey id, the AccessKey secret,
the domain and the API version. The result is the return value and the values
left in `*token` and `*expireTime`. -/
def generateToken (service : String → String → String → String → TokenReply)
    (g_domain g_api_version akId akSecret : String) (token : String) (expireTime : Int) :
    Int × String × Int :=
  let reply := service akId akSecret g_domain g_api_version
  let retCode := reply.retCode
  if retCode < 0 then (retCode, token, expireTime)
  else (0, reply.token, reply.expireTime)

/-- The outcome of the token check: `speechTranscriberMultFile` has returned
`ret`, or it goes on with the globals `g_token` (in `cfg`) and `g_expireTime`. -/
inductive TokenCheck where
  | returned (ret : Int)
  | proceed (cfg : Config) (g_expireTime : Int)
  deriving DecidableEq, Repr

/-- The token check of `speechTranscriberMultFile` (lines 1663-1671) at the time
`curTime`. -/
def tokenCheck (service : String → String → String → String → TokenReply)
    (cfg : Config) (g_expireTime : Int) (curTime : Int) : TokenCheck :=
  if cfg.g_token = "" then
    if g_expireTime - curTime < 10 then
      let r := generateToken service cfg.g_domain cfg.g_api_version cfg.g_akId cfg.g_akSecret
        cfg.g_token g_expireTime
      if r.1 < 0 then TokenCheck.returned (-1)
      else TokenCheck.proceed { cfg with g_token := r.2.1 } r.2.2
    else TokenCheck.proceed cfg g_expireTime
  else TokenCheck.proceed cfg g_expireTime

/-- The beginning of `speechTranscriberMultFile` (lines 1659-1757): it has
returned `ret` before creating a worker, or it has created its workers. -/
inductive MultFileStart where
  | returned (ret : Int)
  | started (cfg : Config) (g_expireTime : Int) (w : World)
  deriving DecidableEq, Repr

/-- The function `speechTranscriberMultFile` up to the creation of its workers
(lines 1659-1757): the token check, then the workers are created with the token
the check left in `g_token`. -/
def speechTranscriberMultFile_begin (service : String → String → String → String → TokenReply)
    (cfg : Config) (files : List UInt8 → Option Nat) (g : Globals) (threads : Nat)
    (g_expireTime : Int) (curTime : Int) : MultFileStart :=
  match tokenCheck service cfg g_expireTime curTime with
  | .returned ret => MultFileStart.returned ret
  | .proceed cfg2 e => MultFileStart.started cfg2 e (startRun cfg2 files g threads)

/-- The initial value of `g_expireTime` (line 178). -/
def g_expireTime_init : Int := -1

/-- A configuration with a token given on the command line. -/
def tokenCfg : Config := { g_appkey := "key", g_token := "tok" }

/-- A configuration with an AccessKey id and secret and no token. -/
def akCfg : Config := { g_appkey := "key", g_akId := "id", g_akSecret := "secret" }

/-- A token service that answers every request with the token `fresh`, valid
until the instant 5000. -/
def freshService : String → String → String → String → TokenReply :=
  fun _ _ _ _ => { retCode := 0, token := "fresh", expireTime := 5000 }

/-- A token service that fails every request with the code -7. -/
def failingService : String → String → String → String → TokenReply :=
  fun _ _ _ _ => { retCode := -7, token := "", expireTime := 0 }

/-! ## The command line -/

/-- The characters skipped by `atoi` before the number (`isspace`). -/
def isspace (c : Char) : Bool :=
  c = ' ' || c = '\t' || c = '\n' || c = '\x0b' || c = '\x0c' || c = '\r'

/-- The value of the longest prefix of decimal digits, after `acc`. -/
def atoiDigits (acc : Nat) : List Char → Nat
  | [] => acc
  | c :: cs => if c.isDigit then atoiDigits (acc * 10 + (c.toNat - '0'.toNat)) cs else acc

/-- The number read by `strtol(nptr, NULL, 10)`: white space, an optional sign,
then decimal digits up to the first other character; 0 when there is no digit. -/
def decimalPrefix (s : String) : Int :=
  match s.data.dropWhile isspace with
  | '-' :: ds => - (atoiDigits 0 ds : Int)
  | '+' :: ds => (atoiDigits 0 ds : Int)
  | ds => (atoiDigits 0 ds : Int)

/-- The library function `strtol` with base 10 and a `long` of 64 bits: a number
outside the range of `long` is replaced by `LONG_MAX` or `LONG_MIN`. -/
def strtol (s : String) : Int :=
  if decimalPrefix s > 9223372036854775807 then 9223372036854775807
  else if decimalPrefix s < -9223372036854775808 then -9223372036854775808
  else decimalPrefix s

/-- The library function `atoi` as the C library of the demo implements it,
`(int) strtol(nptr, NULL, 10)`: the low 32 bits of the `long`, read as an `int`
in two's complement. The value is the number written in `s` whenever that
number is in the range of `int`. -/
def atoi (s : String) : Int := u32ToInt (toU32 (strtol s))

/-- The effect of one pass of the `while` loop of `parse_argv` on the argument at
`index`: `parse_argv` returns, or it reads `argv[argc]`, or the pass has used the
argument alone (`skip`) or together with the following one (`took`). -/
inductive ArgStep where
  | ret (r : Int) (cfg : Config)
  | pastEnd (cfg : Config)
  | skip (cfg : Config)
  | took (cfg : Config)
  deriving DecidableEq, Repr

/-- The statements `index++; if (invalied_argv(index, argc)) return 1;` followed by
a use of `argv[index]`: `next` is the argument after the option, if there is one. -/
def needValue (cfg : Config) (next : Option String) (f : String → Config) : ArgStep :=
  match next with
  | none => ArgStep.ret 1 cfg
  | some v => ArgStep.took (f v)

/-- The body of the `while` loop of `parse_argv` (lines 2017-2127) without the
final `index++`, for `argv[index] = arg`. The branch of `--frameSize` makes no
check of `index`. -/
def parseArg (cfg : Config) (arg : String) (next : Option String) : ArgStep :=
  if arg = "--appkey" then needValue cfg next (fun v => { cfg with g_appkey := v })
  else if arg = "--akId" then needValue cfg next (fun v => { cfg with g_akId := v })
  else if arg = "--akSecret" then needValue cfg next (fun v => { cfg with g_akSecret := v })
  else if arg = "--token" then needValue cfg next (fun v => { cfg with g_token := v })
  else if arg = "--tokenDomain" then needValue cfg next (fun v => { cfg with g_domain := v })
  else if arg = "--tokenApiVersion" then
    needValue cfg next (fun v => { cfg with g_api_version := v })
  else if arg = "--url" then needValue cfg next (fun v => { cfg with g_url := v })
  else if arg = "--threads" then needValue cfg next (fun v => { cfg with g_threads := atoi v })
  else if arg = "--cpu" then needValue cfg next (fun v => { cfg with g_cpu := atoi v })
  else if arg = "--time" then needValue cfg next (fun v => { cfg with loop_timeout := atoi v })
  else if arg = "--loop" then needValue cfg next (fun v => { cfg with loop_count := atoi v })
  else if arg = "--type" then
    needValue cfg next (fun v =>
      if v = "pcm" then
        { cfg with encoder_type := ENCODER_TYPE.ENCODER_NONE, frame_size := FRAME_16K_100MS }
      else if v = "opu" then
        { cfg with encoder_type := ENCODER_TYPE.ENCODER_OPU, frame_size := FRAME_16K_20MS }
      else if v = "opus" then
        { cfg with encoder_type := ENCODER_TYPE.ENCODER_OPUS, frame_size := FRAME_16K_20MS }
      else cfg)
  else if arg = "--log" then needValue cfg next (fun v => { cfg with logLevel := atoi v })
  else if arg = "--sampleRate" then
    needValue cfg next (fun v =>
      let cfg := { cfg with sample_rate := atoi v }
      if cfg.sample_rate = SAMPLE_RATE_8K then { cfg with frame_size := FRAME_8K_20MS }
      else if cfg.sample_rate = SAMPLE_RATE_16K then { cfg with frame_size := FRAME_16K_20MS }
      else cfg)
  else if arg = "--frameSize" then
    match next with
    | none => ArgStep.pastEnd cfg
    | some v =>
      ArgStep.took { cfg with frame_size := atoi v, encoder_type := ENCODER_TYPE.ENCODER_NONE }
  else if arg = "--NlsScan" then
    needValue cfg next (fun v => { cfg with profile_scan := atoi v })
  else if arg = "--long" then
    needValue cfg next (fun v => { cfg with longConnection := decide (atoi v ≠ 0) })
  else if arg = "--sys" then
    needValue cfg next (fun v => { cfg with sysAddrinfo := decide (atoi v ≠ 0) })
  else if arg = "--noSleep" then
    needValue cfg next (fun v => { cfg with noSleepFlag := decide (atoi v ≠ 0) })
  else if arg = "--audioFile" then needValue cfg next (fun v => { cfg with g_audio_path := v })
  else if arg = "--maxSilence" then
    needValue cfg next (fun v => { cfg with max_sentence_silence := atoi v })
  else ArgStep.skip cfg

/-- The result of `parse_argv`: its return value with the globals it leaves, or
no result because it has read `argv[argc]`, a null pointer, as a string. -/
inductive ParseOut where
  | returned (ret : Int) (cfg : Config)
  | undefined (cfg : Config)
  deriving DecidableEq, Repr

/-- The final test of `parse_argv` (lines 2130-2135). -/
def parseEnd (cfg : Config) : ParseOut :=
  if (cfg.g_token = "" ∧ (cfg.g_akId = "" ∨ cfg.g_akSecret = "")) ∨ cfg.g_appkey = "" then
    ParseOut.returned 1 cfg
  else ParseOut.returned 0 cfg

/-- The `while` loop of `parse_argv` on the arguments from `index` on, then the
final test. -/
def parseLoop (cfg : Config) : List String → ParseOut
  | [] => parseEnd cfg
  | arg :: rest =>
    match parseArg cfg arg rest.head? with
    | .ret r c => ParseOut.returned r c
    | .pastEnd c => ParseOut.undefined c
    | .skip c => parseLoop c rest
    | .took c =>
      match rest with
      | [] => parseEnd c
      | _ :: rest2 => parseLoop c rest2

/-- The function `parse_argv` (lines 2014-2136) on `args = argv[1 .. argc-1]`,
from the globals `cfg`. -/
def parse_argv (cfg : Config) (args : List String) : ParseOut := parseLoop cfg args

/-- How `main` begins (lines 2138-2206): it has returned `ret`, or the parsing has
no result, or it goes on to install the signal handlers and to the scan loop, in
which the runs are made, with the parsed configuration. -/
inductive MainStart where
  | returned (ret : Int)
  | undefined
  | running (cfg : Config)
  deriving DecidableEq, Repr

/-- The beginning of `main` (lines 2138-2206). -/
def main_begin (cfg : Config) (args : List String) : MainStart :=
  match parse_argv cfg args with
  | .returned ret cfg2 =>
    if ret ≠ 0 then MainStart.returned (-1)
    else
      MainStart.running
        (if cfg2.profile_scan > 0 then cfg2 else { cfg2 with profile_scan := 0 })
  | .undefined _ => MainStart.undefined

/-- The options of `parse_argv` that are followed by a value. -/
def valueOptions : List String :=
  ["--appkey", "--akId", "--akSecret", "--token", "--tokenDomain", "--tokenApiVersion",
   "--url", "--threads", "--cpu", "--time", "--loop", "--type", "--log", "--sampleRate",
   "--frameSize", "--NlsScan", "--long", "--sys", "--noSleep", "--audioFile", "--maxSilence"]

/-- Every option in option position that takes a value is followed by an
argument (which is then its value, whatever it looks like). -/
def valuesPresent : List String → Bool
  | [] => true
  | arg :: rest =>
    if arg ∈ valueOptions then
      match rest with
      | [] => false
      | _ :: rest2 => valuesPresent rest2
    else valuesPresent rest

/-- The credentials are given: the appkey is not empty and either the
token is not empty or both the AccessKey id and the AccessKey secret are. -/
def credentialsGiven (cfg : Config) : Prop :=
  cfg.g_appkey ≠ "" ∧ (cfg.g_token ≠ "" ∨ (cfg.g_akId ≠ "" ∧ cfg.g_akSecret ≠ ""))

/-! ## A single worker whose iterations are all acknowledged -/

/-- The globals left by one pass of the loop of `parse_argv`. -/
def ArgStep.cfg : ArgStep → Config
  | .ret _ c => c
  | .pastEnd c => c
  | .skip c => c
  | .took c => c

/-- The globals left by `parse_argv`. -/
def ParseOut.cfg : ParseOut → Config
  | .returned _ c => c
  | .undefined c => c

/-- The local `bytesMs` of `getAudioFileTimeMs` (lines 420-423): the number of
bytes of one millisecond of audio, the divisor of the function. The product is
the mathematical one; it is the `int` product of the source for the sample rates
`r` with `|r| < 2 ^ 27`, for which `r * 16` fits in an `int`. -/
def bytesMs (sampleRate : Int) : Int :=
  let sampleBytes : Int := 16
  let soundChannel : Int := 1
  let bytes := Int.tdiv (sampleRate * sampleBytes * soundChannel) 8
  Int.tdiv bytes 1000

/-- The divisor of `sAveTime /= threads` and of the four divisions after it
(lines 1880-1884): the `int` parameter `threads` of `speechTranscriberMultFile`,
which `main` sets to `g_threads`, converted to `unsigned long long`. -/
def aveDivisor (threads : Int) : Nat := toU64 threads

/-- The arguments `--appkey k --token t --sampleRate 8000`. -/
def argsRate8K : List String := ["--appkey", "k", "--token", "t", "--sampleRate", "8000"]

/-- The first pass of the send loop of a worker of the run that follows the
arguments `argsRate8K`, on a file of 1000 bytes. -/
def firstFrameRate8K : Worker × List Op :=
  sendFrame (parse_argv {} argsRate8K).cfg
    { newWorker (parse_argv {} argsRate8K).cfg files0 0 with pc := Pc.sending } 0 0

/-! ## The exact running statistics -/

/-- The five fields of a phase hold the exact statistics of the samples `xs`: their
number, their sum, their maximum, their minimum, and the sum divided by the
number. -/
def PhaseView.ExactFor (v : PhaseView) (xs : List Nat) : Prop :=
  v.consumed = xs.length ∧ v.total = xs.sum ∧
  (v.max ∈ xs ∧ ∀ x ∈ xs, x ≤ v.max) ∧ (v.min ∈ xs ∧ ∀ x ∈ xs, v.min ≤ x) ∧
  v.ave = xs.sum / xs.length

/-! ## The sizes of the `sendAudio` calls -/

/-- The number of bytes of a `sendAudio` call. -/
def Op.audioLen : Op → Option Nat
  | .sendAudio nlen _ => some nlen
  | _ => none

/-- The numbers of bytes of the `sendAudio` calls among `ops`, in order. -/
def sendSizes (ops : List Op) : List Nat := ops.filterMap Op.audioLen

/-- A worker on a file of `L` bytes that has just entered its send loop: the
stream is at the beginning of the file. -/
def streamingWorker (L : Nat) : Worker :=
  { newWorker {} (fun _ => some L) 0 with pc := Pc.sending }

/-! ## The events of a session in order -/

/-- The callbacks of a session run one after the other on its callback parameter. -/
def handleAll (g : Globals) (cb : Option ParamCallBack) :
    List (EventKind × NlsEvent × CbEnv) → Globals × Option ParamCallBack
  | [] => (g, cb)
  | x :: rest =>
    handleAll (dispatch x.1 g x.2.1 cb x.2.2).g (dispatch x.1 g x.2.1 cb x.2.2).cbParam rest

/-- The `ParamStruct` behind a callback parameter. -/
def tParamOf (cb : Option ParamCallBack) : Option ParamStruct :=
  match cb with
  | some c => c.tParam
  | none => none

/-- The number of Started events among `evs`. -/
def numStarted (evs : List (EventKind × NlsEvent × CbEnv)) : Nat :=
  (evs.filter (fun x => decide (x.1 = EventKind.Started))).length

/-- The histogram counter of a bucket. -/
def bucketValue (p : ParamStruct) : Bucket → Nat
  | .s50 => p.s50Value
  | .s100 => p.s100Value
  | .s200 => p.s200Value
  | .s500 => p.s500Value
  | .s1000 => p.s1000Value
  | .s2000 => p.s2000Value

/-- The sum of the six histogram counters. -/
def bucketSum (p : ParamStruct) : Nat :=
  p.s50Value + p.s100Value + p.s200Value + p.s500Value + p.s1000Value + p.s2000Value

/-- An event of the given kind with a blank payload, handled at the instant `now`. -/
def eventAt (k : EventKind) (now : Timeval) : EventKind × NlsEvent × CbEnv :=
  (k, NlsEvent.blank, { CbEnv.blank with now := now })

/-- The first ResultChanged event among `evs`. -/
def firstResultChanged (evs : List (EventKind × NlsEvent × CbEnv)) :
    Option (EventKind × NlsEvent × CbEnv) :=
  evs.find? (fun x => decide (x.1 = EventKind.ResultChanged))

/-! # Theorems -/

/-! ## Running statistics: min, average, max -/



theorem startView_recordStarted (p : ParamStruct) (t : Nat) :
    startView (recordStarted p t) = (startView p).record t := rfl

theorem firstView_recordFirst (p : ParamStruct) (t : Nat) :
    firstView (recordFirst p t) = (firstView p).record t := rfl

theorem endView_recordCompleted (p : ParamStruct) (t : Nat) :
    endView (recordCompleted p t) = (endView p).record t := rfl

theorem closeView_recordClosed (p : ParamStruct) (t : Nat) :
    closeView (recordClosed p t) = (closeView p).record t := rfl

theorem startView_foldl (xs : List Nat) (p : ParamStruct) :
    startView (xs.foldl recordStarted p) = xs.foldl PhaseView.record (startView p) := by
  induction xs generalizing p with
  | nil => rfl
  | cons x xs ih => simp only [List.foldl_cons, ih, startView_recordStarted]

theorem firstView_foldl (xs : List Nat) (p : ParamStruct) :
    firstView (xs.foldl recordFirst p) = xs.foldl PhaseView.record (firstView p) := by
  induction xs generalizing p with
  | nil => rfl
  | cons x xs ih => simp only [List.foldl_cons, ih, firstView_recordFirst]

theorem endView_foldl (xs : List Nat) (p : ParamStruct) :
    endView (xs.foldl recordCompleted p) = xs.foldl PhaseView.record (endView p) := by
  induction xs generalizing p with
  | nil => rfl
  | cons x xs ih => simp only [List.foldl_cons, ih, endView_recordCompleted]

theorem closeView_foldl (xs : List Nat) (p : ParamStruct) :
    closeView (xs.foldl recordClosed p) = xs.foldl PhaseView.record (closeView p) := by
  induction xs generalizing p with
  | nil => rfl
  | cons x xs ih => simp only [List.foldl_cons, ih, closeView_recordClosed]

theorem PhaseView.record_sound (v : PhaseView) (x : Nat) (hx : 0 < x)
    (h : v.Fresh ∨ v.Sound) (hb : v.total + x < U64) : (v.record x).Sound := by
  have hc : v.consumed + 1 < U64 := by
    rcases h with ⟨h1, h2, _, _⟩ | ⟨_, _, _, _, _, h6, _⟩
    · rw [h1]; decide
    · omega
  have e1 : (v.consumed + 1) % U64 = v.consumed + 1 := Nat.mod_eq_of_lt hc
  have e2 : (v.total + x) % U64 = v.total + x := Nat.mod_eq_of_lt hb
  unfold PhaseView.Sound PhaseView.record
  simp only [e1, e2]
  rcases h with ⟨h1, h2, h3, h4⟩ | ⟨g1, g2, g3, g4, g5, g6, g7⟩
  · simp only [h1, h2, h3, h4]
    simp [hx]
    omega
  · have hmin : v.min ≠ 0 := by omega
    simp only [hmin, if_false]
    refine ⟨by omega, ?_, ?_, ?_, by simp, by omega, hb⟩
    · split_ifs <;> omega
    · split_ifs with hlt
      · have : v.consumed * x ≤ v.consumed * v.min := Nat.mul_le_mul_left _ (le_of_lt hlt)
        rw [Nat.add_mul]; omega
      · rw [Nat.add_mul]; omega
    · split_ifs with hgt
      · have : v.consumed * v.max ≤ v.consumed * x := Nat.mul_le_mul_left _ (le_of_lt hgt)
        rw [Nat.add_mul]; omega
      · rw [Nat.add_mul]; omega

theorem PhaseView.foldl_record_sound (xs : List Nat) (v : PhaseView)
    (h : v.Fresh ∨ v.Sound) (hpos : ∀ x ∈ xs, 0 < x) (hb : v.total + xs.sum < U64)
    (hne : xs ≠ []) : (xs.foldl PhaseView.record v).Sound := by
  induction xs generalizing v with
  | nil => exact absurd rfl hne
  | cons x xs ih =>
    have hx : 0 < x := hpos x (List.mem_cons_self _ _)
    simp only [List.sum_cons] at hb
    have hs : (v.record x).Sound := PhaseView.record_sound v x hx h (by omega)
    have ht : (v.record x).total = v.total + x := by
      show (v.total + x) % U64 = v.total + x
      exact Nat.mod_eq_of_lt (by omega)
    by_cases hxs : xs = []
    · subst hxs; exact hs
    · exact ih (v.record x) (Or.inr hs) (fun y hy => hpos y (List.mem_cons_of_mem _ hy))
        (by rw [ht]; omega) hxs

theorem PhaseView.Sound.minAveMax {v : PhaseView} (h : v.Sound) : v.MinAveMax := by
  obtain ⟨g1, _, g3, g4, g5, _, _⟩ := h
  refine ⟨?_, ?_, g5⟩
  · rw [Nat.le_div_iff_mul_le g1]; rw [Nat.mul_comm]; exact g3
  · apply Nat.div_le_of_le_mul; exact g4

theorem sum_le_of_prefix {ys xs : List Nat} (h : ys <+: xs) : ys.sum ≤ xs.sum := by
  obtain ⟨zs, rfl⟩ := h
  simp

/-- The running statistics of a phase after the samples `ys` from a fresh state. -/
theorem minAveMax_of_samples (xs ys : List Nat) (v : PhaseView) (hv : v.Fresh)
    (hpos : ∀ x ∈ xs, 0 < x) (hsum : xs.sum < U64) (hys : ys <+: xs) (hne : ys ≠ []) :
    (ys.foldl PhaseView.record v).MinAveMax := by
  apply PhaseView.Sound.minAveMax
  apply PhaseView.foldl_record_sound ys v (Or.inl hv) (fun y hy => hpos y (hys.subset hy)) _ hne
  have := sum_le_of_prefix hys
  rw [hv.2.1]; omega

/-- C1, counterexample: in the start phase of `onTranscriptionStarted`, after the
samples 0 and 5 the stored minimum is 5 and the average 5 / 2 = 2, so
`min ≤ average` fails. -/
theorem min_above_average_after_zero_sample :
    ¬ ((startView ([0, 5].foldl recordStarted pa0)).min ≤
        (startView ([0, 5].foldl recordStarted pa0)).total /
          (startView ([0, 5].foldl recordStarted pa0)).consumed) := by
  decide

/-- C1, amended: for every sequence `xs` of strictly positive latency samples whose
sum is below `2^64`, fed one at a time to the running-statistics update of the
start, first-result, completed and closed phase from the all-zero block created
by `speechTranscriberMultFile`, after each update (after every non-empty prefix
`ys`) `min ≤ average ≤ max` holds, where the average is the stored total divided by
the stored count and equals the stored average. -/
theorem min_le_average_le_max (fileName token appkey url : List UInt8) (xs ys : List Nat)
    (hpos : ∀ x ∈ xs, 0 < x) (hsum : xs.sum < U64) (hys : ys <+: xs) (hne : ys ≠ []) :
    (startView (ys.foldl recordStarted (ParamStruct.init fileName token appkey url))).MinAveMax ∧
    (firstView (ys.foldl recordFirst (ParamStruct.init fileName token appkey url))).MinAveMax ∧
    (endView (ys.foldl recordCompleted (ParamStruct.init fileName token appkey url))).MinAveMax ∧
    (closeView (ys.foldl recordClosed (ParamStruct.init fileName token appkey url))).MinAveMax := by
  have hf : ∀ view : ParamStruct → PhaseView,
      (view = startView ∨ view = firstView ∨ view = endView ∨ view = closeView) →
      (view (ParamStruct.init fileName token appkey url)).Fresh := by
    rintro view (rfl | rfl | rfl | rfl) <;> exact ⟨rfl, rfl, rfl, rfl⟩
  rw [startView_foldl, firstView_foldl, endView_foldl, closeView_foldl]
  exact ⟨minAveMax_of_samples xs ys _ (hf _ (Or.inl rfl)) hpos hsum hys hne,
    minAveMax_of_samples xs ys _ (hf _ (Or.inr (Or.inl rfl))) hpos hsum hys hne,
    minAveMax_of_samples xs ys _ (hf _ (Or.inr (Or.inr (Or.inl rfl)))) hpos hsum hys hne,
    minAveMax_of_samples xs ys _ (hf _ (Or.inr (Or.inr (Or.inr rfl)))) hpos hsum hys hne⟩

/-- The instance of `min_le_average_le_max` for the samples 7, 3, 9 after the
second update. -/
theorem min_le_average_le_max_witness :
    (startView ([7, 3].foldl recordStarted (ParamStruct.init [] [] [] []))).MinAveMax ∧
    (firstView ([7, 3].foldl recordFirst (ParamStruct.init [] [] [] []))).MinAveMax ∧
    (endView ([7, 3].foldl recordCompleted (ParamStruct.init [] [] [] []))).MinAveMax ∧
    (closeView ([7, 3].foldl recordClosed (ParamStruct.init [] [] [] []))).MinAveMax :=
  min_le_average_le_max [] [] [] [] [7, 3, 9] [7, 3] (by decide) (by decide)
    ⟨[9], rfl⟩ (by decide)

/-! ## The run counters -/

theorem vectorSetParams_counters (g : Globals) (pid : Nat) (add r s : Bool) (a : Nat) :
    (vectorSetParams g pid add r s a).run_cnt = g.run_cnt ∧
    (vectorSetParams g pid add r s a).run_start_failed = g.run_start_failed ∧
    (vectorSetParams g pid add r s a).run_cancel = g.run_cancel ∧
    (vectorSetParams g pid add r s a).run_success = g.run_success ∧
    (vectorSetParams g pid add r s a).run_fail = g.run_fail := by
  unfold vectorSetParams
  split
  · simp
  · split <;> simp

theorem vectorSetResult_counters (g : Globals) (pid : Nat) (ret : Bool) (tv : Timeval) :
    (vectorSetResult g pid ret tv).run_cnt = g.run_cnt ∧
    (vectorSetResult g pid ret tv).run_start_failed = g.run_start_failed ∧
    (vectorSetResult g pid ret tv).run_cancel = g.run_cancel ∧
    (vectorSetResult g pid ret tv).run_success = g.run_success ∧
    (vectorSetResult g pid ret tv).run_fail = g.run_fail := by
  unfold vectorSetResult
  split <;> simp

theorem vectorSetFailed_counters (g : Globals) (pid : Nat) (ret : Bool) :
    (vectorSetFailed g pid ret).run_cnt = g.run_cnt ∧
    (vectorSetFailed g pid ret).run_start_failed = g.run_start_failed ∧
    (vectorSetFailed g pid ret).run_cancel = g.run_cancel ∧
    (vectorSetFailed g pid ret).run_success = g.run_success ∧
    (vectorSetFailed g pid ret).run_fail = g.run_fail := by
  unfold vectorSetFailed
  split <;> simp

/-- What the callbacks do to the five run counters. -/
theorem dispatch_counters (k : EventKind) (g : Globals) (ev : NlsEvent)
    (cb : Option ParamCallBack) (env : CbEnv) :
    (dispatch k g ev cb env).g.run_cnt = g.run_cnt ∧
    (dispatch k g ev cb env).g.run_start_failed = g.run_start_failed ∧
    (dispatch k g ev cb env).g.run_cancel = g.run_cancel ∧
    (dispatch k g ev cb env).g.run_success =
      g.run_success + (if k = EventKind.Completed then 1 else 0) ∧
    (dispatch k g ev cb env).g.run_fail =
      g.run_fail + (if k = EventKind.TaskFailed then 1 else 0) := by
  cases k
  · simp only [dispatch, onTranscriptionStarted]
    rcases cb with _ | cb
    · simp
    · rcases h : cb.tParam with _ | t
      · simp [h]
      · simp [h, vectorSetParams_counters]
  · simp [dispatch, onSentenceBegin]
  · simp only [dispatch, onSentenceEnd]
    rcases cb with _ | cb <;> simp
  · simp only [dispatch, onTranscriptionResultChanged]
    rcases cb with _ | cb
    · simp
    · rcases h : cb.tParam with _ | t
      · simp [h]
      · simp only [h]; split <;> simp
  · simp only [dispatch, onTranscriptionCompleted]
    rcases cb with _ | cb
    · simp
    · rcases h : cb.tParam with _ | t
      · simp [h]
      · simp [h, vectorSetResult_counters]
  · simp only [dispatch, onTaskFailed]
    rcases cb with _ | cb
    · simp
    · rcases h : cb.tParam with _ | t
      · simp [h]
      · simp [h, vectorSetResult_counters, vectorSetFailed_counters]
  · simp only [dispatch, onChannelClosed]
    rcases cb with _ | cb
    · simp
    · rcases h : cb.tParam with _ | t
      · simp [h]
      · simp [h]

/-- The number of operations in `ops` that satisfy `q`. -/
theorem countOps_map (q : Op → Bool) (pid : Nat) (ops : List Op) :
    ((ops.map (TraceItem.op pid)).filter (TraceItem.isOp q)).length = (ops.filter q).length := by
  induction ops with
  | nil => rfl
  | cons o ops ih =>
    simp only [List.map_cons, List.filter_cons, TraceItem.isOp]
    split <;> simp [ih]

theorem countHandled_map (k : EventKind) (pid : Nat) (ops : List Op) :
    ((ops.map (TraceItem.op pid)).filter (TraceItem.isHandled k)).length = 0 := by
  induction ops with
  | nil => rfl
  | cons o ops ih => simp [List.filter_cons, TraceItem.isHandled]

theorem requestSettings_counts (cfg : Config) :
    ((requestSettings cfg).filter Op.isStart) = [] ∧
    ((requestSettings cfg).filter Op.isStartFailed) = [] ∧
    ((requestSettings cfg).filter Op.isCancel) = [] := by
  unfold requestSettings
  split_ifs <;> simp [List.filter_cons, Op.isStart, Op.isStartFailed, Op.isCancel]

theorem sendFrame_counts (cfg : Config) (wk : Worker) (ret : Int) (tmp_us : Nat) :
    ((sendFrame cfg wk ret tmp_us).2.filter Op.isStart) = [] ∧
    ((sendFrame cfg wk ret tmp_us).2.filter Op.isStartFailed) = [] ∧
    ((sendFrame cfg wk ret tmp_us).2.filter Op.isCancel) = [] := by
  unfold sendFrame
  simp only
  split_ifs <;> simp [List.filter_cons, Op.isStart, Op.isStartFailed, Op.isCancel]


theorem endIteration_counts (cfg : Config) (g : Globals) (wk : Worker) (ops : List Op) :
    (endIteration cfg g wk ops).g.run_cnt = g.run_cnt ∧
    (endIteration cfg g wk ops).g.run_start_failed = g.run_start_failed ∧
    (endIteration cfg g wk ops).g.run_cancel = g.run_cancel ∧
    (endIteration cfg g wk ops).g.run_success = g.run_success ∧
    (endIteration cfg g wk ops).g.run_fail = g.run_fail ∧
    (endIteration cfg g wk ops).ops = ops := by
  unfold endIteration
  simp only
  split_ifs <;> simp

theorem pthreadFunction_counts (cfg : Config) (g : Globals) (wk : Worker) (inp : WorkerInput) :
    StepCounts g (pthreadFunction cfg g wk inp) := by
  unfold StepCounts pthreadFunction
  split
  · split <;> simp [vectorSetParams_counters]
  · simp only
    split_ifs <;>
      simp [List.filter_cons, List.filter_append, requestSettings_counts, Op.isStart,
        Op.isStartFailed, Op.isCancel, *]
  · simp
  · simp only
    split_ifs <;> simp [List.filter_cons, Op.isStart, Op.isStartFailed, Op.isCancel]
  · simp [sendFrame_counts]
  · simp only
    split_ifs <;>
      simp [endIteration_counts, List.filter_cons, Op.isStart, Op.isStartFailed, Op.isCancel]
  · simp
  · simp only
    split_ifs <;>
      simp [endIteration_counts, List.filter_cons, Op.isStart, Op.isStartFailed, Op.isCancel]
  · unfold finishWorker
    simp only
    split_ifs <;> simp [List.filter_cons, Op.isStart, Op.isStartFailed, Op.isCancel]
  · simp

theorem pthreadLongConnectionFunction_counts (cfg : Config) (g : Globals) (wk : Worker)
    (inp : WorkerInput) : StepCounts g (pthreadLongConnectionFunction cfg g wk inp) := by
  unfold StepCounts pthreadLongConnectionFunction
  split
  · split_ifs <;>
      simp [List.filter_cons, requestSettings_counts, Op.isStart, Op.isStartFailed,
        Op.isCancel]
  · split
    · simp
    · simp only
      split_ifs <;>
        simp [List.filter_cons, vectorSetParams_counters, Op.isStart, Op.isStartFailed,
          Op.isCancel, *]
  · simp
  · simp only
    split_ifs <;> simp [List.filter_cons, Op.isStart, Op.isStartFailed, Op.isCancel]
  · simp [sendFrame_counts]
  · simp only
    split_ifs <;>
      simp [endIteration_counts, List.filter_cons, Op.isStart, Op.isStartFailed, Op.isCancel]
  · simp
  · split_ifs <;>
      simp [endIteration_counts, List.filter_cons, Op.isStart, Op.isStartFailed, Op.isCancel]
  · unfold finishWorker
    simp only
    split_ifs <;> simp [List.filter_cons, Op.isStart, Op.isStartFailed, Op.isCancel]
  · simp

theorem workerStep_counts (cfg : Config) (g : Globals) (wk : Worker) (inp : WorkerInput) :
    StepCounts g (workerStep cfg g wk inp) := by
  unfold workerStep
  split
  · exact pthreadLongConnectionFunction_counts cfg g wk inp
  · exact pthreadFunction_counts cfg g wk inp

theorem deliver_counters (g : Globals) (wk : Worker) (k : EventKind) (ev : NlsEvent)
    (env : CbEnv) :
    (deliver g wk k ev env).1.run_cnt = g.run_cnt ∧
    (deliver g wk k ev env).1.run_start_failed = g.run_start_failed ∧
    (deliver g wk k ev env).1.run_cancel = g.run_cancel ∧
    (deliver g wk k ev env).1.run_success =
      g.run_success + (if k = EventKind.Completed then 1 else 0) ∧
    (deliver g wk k ev env).1.run_fail =
      g.run_fail + (if k = EventKind.TaskFailed then 1 else 0) := by
  unfold deliver
  exact dispatch_counters k g ev (some wk.cbParam) env

theorem step_countersMatch (cfg : Config) (g0 : Globals) (w : World) (a : Action)
    (h : CountersMatch g0 w) : CountersMatch g0 (step cfg w a) := by
  obtain ⟨h1, h2, h3, h4, h5⟩ := h
  cases a with
  | worker i inp =>
    simp only [step]
    split
    · exact ⟨h1, h2, h3, h4, h5⟩
    · rename_i wk _
      obtain ⟨c1, c2, c3, c4, c5⟩ := workerStep_counts cfg w.g wk inp
      simp only [CountersMatch, countTrace, List.filter_append, List.length_append,
        countOps_map, countHandled_map] at *
      refine ⟨?_, ?_, ?_, ?_, ?_⟩ <;> push_cast <;> omega
  | event i k ev env =>
    simp only [step]
    split
    · exact ⟨h1, h2, h3, h4, h5⟩
    · rename_i wk _
      split
      · obtain ⟨c1, c2, c3, c4, c5⟩ := deliver_counters w.g wk k ev env
        simp only [CountersMatch, countTrace, List.filter_append, List.length_append] at *
        refine ⟨?_, ?_, ?_, ?_, ?_⟩
        · simp [List.filter_cons, TraceItem.isOp, c1, h1]
        · simp [List.filter_cons, TraceItem.isOp, c2, h2]
        · simp [List.filter_cons, TraceItem.isOp, c3, h3]
        · rw [c4, h4]
          by_cases hk : k = EventKind.Completed <;>
            simp [List.filter_cons, TraceItem.isHandled, hk, add_assoc]
        · rw [c5, h5]
          by_cases hk : k = EventKind.TaskFailed <;>
            simp [List.filter_cons, TraceItem.isHandled, hk, add_assoc]
      · exact ⟨h1, h2, h3, h4, h5⟩
  | stopRun =>
    exact ⟨h1, h2, h3, h4, h5⟩

theorem run_countersMatch (cfg : Config) (g0 : Globals) (acts : List Action) (w : World)
    (h : CountersMatch g0 w) : CountersMatch g0 (run cfg w acts) := by
  induction acts generalizing w with
  | nil => exact h
  | cons a rest ih => exact ih _ (step_countersMatch cfg g0 w a h)

theorem startRun_countersMatch (cfg : Config) (files : List UInt8 → Option Nat) (g0 : Globals)
    (threads : Nat) : CountersMatch g0 (startRun cfg files g0 threads) := by
  simp [CountersMatch, startRun, countTrace]

/-- C2, counterexample: in `stopTimeoutRun` (one worker, `start()` succeeds, Started
arrives, the file is sent, the wait for Closed times out, no Completed or
TaskFailed event) `run_cnt` ends at 1 while
`run_cancel + run_start_failed + run_success + run_fail` ends at 0. -/
theorem counters_sum_below_run_cnt :
    stopTimeoutRun.g.run_cnt = 1 ∧
    ¬ (stopTimeoutRun.g.run_cancel + stopTimeoutRun.g.run_start_failed +
        stopTimeoutRun.g.run_success + stopTimeoutRun.g.run_fail = stopTimeoutRun.g.run_cnt) := by
  decide

/-- C2, amended: for every run of `speechTranscriberMultFile` (any configuration,
any number of workers, any files, any sequence of worker steps and delivered
events), started with the globals `g0`: `run_cnt` has grown by the number of
`start()` calls, `run_start_failed` by the number of `start()` calls that returned
a negative value, `run_cancel` by the number of `cancel()` calls (one for each
wait for Started that timed out), `run_success` by the number of handled Completed
events and `run_fail` by the number of handled TaskFailed events. Hence the growth of
`run_cancel + run_start_failed + run_success + run_fail` equals the growth of
`run_cnt` exactly when the handled Completed and TaskFailed events are as many as
the `start()` calls that neither failed nor were cancelled. -/
theorem run_counters_count_calls_and_events (cfg : Config) (files : List UInt8 → Option Nat)
    (g0 : Globals) (threads : Nat) (acts : List Action) :
    CountersMatch g0 (run cfg (startRun cfg files g0 threads) acts) ∧
    (((run cfg (startRun cfg files g0 threads) acts).g.run_cancel - g0.run_cancel) +
      ((run cfg (startRun cfg files g0 threads) acts).g.run_start_failed - g0.run_start_failed) +
      ((run cfg (startRun cfg files g0 threads) acts).g.run_success - g0.run_success) +
      ((run cfg (startRun cfg files g0 threads) acts).g.run_fail - g0.run_fail) =
      (run cfg (startRun cfg files g0 threads) acts).g.run_cnt - g0.run_cnt ↔
     countTrace (TraceItem.isOp Op.isCancel) (run cfg (startRun cfg files g0 threads) acts) +
      countTrace (TraceItem.isOp Op.isStartFailed) (run cfg (startRun cfg files g0 threads) acts) +
      countTrace (TraceItem.isHandled EventKind.Completed)
        (run cfg (startRun cfg files g0 threads) acts) +
      countTrace (TraceItem.isHandled EventKind.TaskFailed)
        (run cfg (startRun cfg files g0 threads) acts) =
      countTrace (TraceItem.isOp Op.isStart) (run cfg (startRun cfg files g0 threads) acts)) := by
  have h := run_countersMatch cfg g0 acts _ (startRun_countersMatch cfg files g0 threads)
  refine ⟨h, ?_⟩
  obtain ⟨h1, h2, h3, h4, h5⟩ := h
  rw [h1, h2, h3, h4, h5]
  constructor <;> intro h <;> omega

/-! ## Events after a terminal event -/

/-- C3, counterexample: after a TaskFailed event has been handled for a session, a
Closed event for the same session increments `closeConsumed` (from 0 to 1), and a
second TaskFailed event increments `run_fail` (from 1 to 2) and `failedConsumed`. -/
theorem closed_after_taskFailed_is_counted :
    (dispatch .TaskFailed Globals.init NlsEvent.blank (some cbParam0) CbEnv.blank).tst.closeConsumed
      = 0 ∧
    (dispatch .Closed
      (dispatch .TaskFailed Globals.init NlsEvent.blank (some cbParam0) CbEnv.blank).g
      NlsEvent.blank
      (dispatch .TaskFailed Globals.init NlsEvent.blank (some cbParam0) CbEnv.blank).cbParam
      CbEnv.blank).tst.closeConsumed = 1 ∧
    (dispatch .TaskFailed Globals.init NlsEvent.blank (some cbParam0) CbEnv.blank).g.run_fail
      = 1 ∧
    (dispatch .TaskFailed
      (dispatch .TaskFailed Globals.init NlsEvent.blank (some cbParam0) CbEnv.blank).g
      NlsEvent.blank
      (dispatch .TaskFailed Globals.init NlsEvent.blank (some cbParam0) CbEnv.blank).cbParam
      CbEnv.blank).g.run_fail = 2 := by
  decide

theorem dispatch_keeps_tParam (k : EventKind) (g : Globals) (ev : NlsEvent)
    (cb : ParamCallBack) (t : ParamStruct) (env : CbEnv) (ht : cb.tParam = some t) :
    ∃ cb1 t1, (dispatch k g ev (some cb) env).cbParam = some cb1 ∧ cb1.tParam = some t1 ∧
      cb1.startTv = cb.startTv := by
  cases k <;>
    simp only [dispatch, onTranscriptionStarted, onSentenceBegin, onSentenceEnd,
      onTranscriptionResultChanged, onTranscriptionCompleted, onTaskFailed, onChannelClosed, ht]
  · exact ⟨_, _, rfl, rfl, rfl⟩
  · exact ⟨_, _, rfl, ht, rfl⟩
  · exact ⟨_, _, rfl, rfl, rfl⟩
  · split
    · exact ⟨_, _, rfl, rfl, rfl⟩
    · exact ⟨_, _, rfl, ht, rfl⟩
  · exact ⟨_, _, rfl, rfl, rfl⟩
  · exact ⟨_, _, rfl, rfl, rfl⟩
  · exact ⟨_, _, rfl, rfl, rfl⟩

/-- What the three counting callbacks do on a callback parameter whose `tParam`
is set, whatever was handled before. -/
theorem counting_callbacks (g : Globals) (ev : NlsEvent) (cb : ParamCallBack)
    (t : ParamStruct) (env : CbEnv) (ht : cb.tParam = some t) :
    ((dispatch .Completed g ev (some cb) env).g.run_success = g.run_success + 1 ∧
      (dispatch .Completed g ev (some cb) env).tst.completedConsumed =
        (t.completedConsumed + 1) % U64 ∧
      endView (dispatch .Completed g ev (some cb) env).tst =
        (endView t).record (timeValueOf cb.startTv env.now)) ∧
    ((dispatch .TaskFailed g ev (some cb) env).g.run_fail = g.run_fail + 1 ∧
      (dispatch .TaskFailed g ev (some cb) env).tst.failedConsumed =
        (t.failedConsumed + 1) % U64) ∧
    ((dispatch .Closed g ev (some cb) env).tst.closeConsumed = (t.closeConsumed + 1) % U64 ∧
      closeView (dispatch .Closed g ev (some cb) env).tst =
        (closeView t).record (timeValueOf cb.startTv env.now)) := by
  refine ⟨⟨?_, ?_, ?_⟩, ⟨?_, ?_⟩, ⟨?_, ?_⟩⟩
  · exact (dispatch_counters .Completed g ev (some cb) env).2.2.2.1.trans (by simp)
  · simp [dispatch, onTranscriptionCompleted, ht, CbOut.tst, recordCompleted]
  · simp only [dispatch, onTranscriptionCompleted, ht, CbOut.tst, Option.getD_some]
    exact endView_recordCompleted t _
  · exact (dispatch_counters .TaskFailed g ev (some cb) env).2.2.2.2.trans (by simp)
  · simp [dispatch, onTaskFailed, ht, CbOut.tst]
  · simp [dispatch, onChannelClosed, ht, CbOut.tst, recordClosed]
  · simp only [dispatch, onChannelClosed, ht, CbOut.tst, Option.getD_some]
    exact closeView_recordClosed t _

/-- C3, amended: the callbacks keep no record of a terminal event. After an
event `term` of any kind, in particular a terminal one (Closed or TaskFailed), has
been handled for a session, a further Completed event again increments `run_success` and `completedConsumed` and
updates the completion statistics with its latency, a further TaskFailed event
again increments `run_fail` and `failedConsumed`, and a further Closed event again
increments `closeConsumed` and updates the close statistics with its latency. -/
theorem events_after_terminal_are_counted (term : EventKind)
    (g : Globals) (cb : ParamCallBack) (t : ParamStruct) (ht : cb.tParam = some t)
    (ev ev2 : NlsEvent) (env env2 : CbEnv) :
    ((dispatch .Completed (dispatch term g ev (some cb) env).g ev2
        (dispatch term g ev (some cb) env).cbParam env2).g.run_success =
        (dispatch term g ev (some cb) env).g.run_success + 1 ∧
      (dispatch .Completed (dispatch term g ev (some cb) env).g ev2
        (dispatch term g ev (some cb) env).cbParam env2).tst.completedConsumed =
        ((dispatch term g ev (some cb) env).tst.completedConsumed + 1) % U64 ∧
      endView (dispatch .Completed (dispatch term g ev (some cb) env).g ev2
        (dispatch term g ev (some cb) env).cbParam env2).tst =
        (endView (dispatch term g ev (some cb) env).tst).record
          (timeValueOf cb.startTv env2.now)) ∧
    ((dispatch .TaskFailed (dispatch term g ev (some cb) env).g ev2
        (dispatch term g ev (some cb) env).cbParam env2).g.run_fail =
        (dispatch term g ev (some cb) env).g.run_fail + 1 ∧
      (dispatch .TaskFailed (dispatch term g ev (some cb) env).g ev2
        (dispatch term g ev (some cb) env).cbParam env2).tst.failedConsumed =
        ((dispatch term g ev (some cb) env).tst.failedConsumed + 1) % U64) ∧
    ((dispatch .Closed (dispatch term g ev (some cb) env).g ev2
        (dispatch term g ev (some cb) env).cbParam env2).tst.closeConsumed =
        ((dispatch term g ev (some cb) env).tst.closeConsumed + 1) % U64 ∧
      closeView (dispatch .Closed (dispatch term g ev (some cb) env).g ev2
        (dispatch term g ev (some cb) env).cbParam env2).tst =
        (closeView (dispatch term g ev (some cb) env).tst).record
          (timeValueOf cb.startTv env2.now)) := by
  obtain ⟨cb1, t1, h1, h2, h3⟩ := dispatch_keeps_tParam term g ev cb t env ht
  have e : (dispatch term g ev (some cb) env).tst = t1 := by
    simp [CbOut.tst, h1, h2]
  rw [h1, e, ← h3]
  exact counting_callbacks _ ev2 cb1 t1 env2 h2

/-- The instance of `events_after_terminal_are_counted` for a Closed event that
follows a TaskFailed event. -/
theorem events_after_terminal_are_counted_witness :
    (dispatch .Closed (dispatch .TaskFailed Globals.init NlsEvent.blank (some cbParam0)
        CbEnv.blank).g NlsEvent.blank
        (dispatch .TaskFailed Globals.init NlsEvent.blank (some cbParam0) CbEnv.blank).cbParam
        CbEnv.blank).tst.closeConsumed =
      ((dispatch .TaskFailed Globals.init NlsEvent.blank (some cbParam0)
        CbEnv.blank).tst.closeConsumed + 1) % U64 :=
  (events_after_terminal_are_counted .TaskFailed Globals.init cbParam0 _ rfl
    NlsEvent.blank NlsEvent.blank CbEnv.blank CbEnv.blank).2.2.1

/-! ## Latency arithmetic -/

/-- The range of `latency_is_elapsed_ms` is that of the arithmetic: for two instants
18446744073710 s (more than 584000 years) apart the product
`timeValue1 * 1000000` wraps modulo `2^64` and the handlers compute 448 ms. No two
readings of the clock of one run are that far apart. -/
theorem latency_wraps_at_large_differences :
    timeValueOf ⟨0, 0⟩ ⟨18446744073710, 0⟩ = 448 ∧
    ¬ ((timeValueOf ⟨0, 0⟩ ⟨18446744073710, 0⟩ : Int) =
        ((18446744073710 - 0) * 1000000 + (0 - 0)) / 1000) := by
  decide

/-- C7: for every start instant and event instant with both microsecond fields in
`[0, 999999]` and the event instant not earlier than the start instant, the
latency computed by the event handlers with their unsigned 64-bit arithmetic (the
seconds difference, the microseconds difference that may wrap, the two-branch
formula) equals `floor(((e_sec - s_sec) * 1000000 + (e_usec - s_usec)) / 1000)`,
the elapsed milliseconds. The elapsed time is taken to be less than `2^64`
microseconds, which holds of any two clock readings of a run (`2^64` microseconds
are more than 584000 years). -/
theorem latency_is_elapsed_ms (s e : Timeval)
    (hs : 0 ≤ s.tv_usec ∧ s.tv_usec ≤ 999999) (he : 0 ≤ e.tv_usec ∧ e.tv_usec ≤ 999999)
    (hle : s.tv_sec < e.tv_sec ∨ (s.tv_sec = e.tv_sec ∧ s.tv_usec ≤ e.tv_usec))
    (hfit : (e.tv_sec - s.tv_sec) * 1000000 + (e.tv_usec - s.tv_usec) < (U64 : Int)) :
    (timeValueOf s e : Int) =
      ((e.tv_sec - s.tv_sec) * 1000000 + (e.tv_usec - s.tv_usec)) / 1000 := by
  unfold timeValueOf toU64
  simp only [U64] at *
  split_ifs with h <;> push_cast <;> omega

/-- The instance of `latency_is_elapsed_ms` for a start at 10.999999 s and an
event at 12.000005 s: the microsecond difference wraps and the latency is 1000 ms. -/
theorem latency_is_elapsed_ms_witness :
    (timeValueOf ⟨10, 999999⟩ ⟨12, 5⟩ : Int) =
      ((12 - 10) * 1000000 + (5 - 999999)) / 1000 :=
  latency_is_elapsed_ms ⟨10, 999999⟩ ⟨12, 5⟩ (by decide) (by decide) (by decide) (by decide)

/-! ## Pacing arithmetic -/

theorem tdiv_eq_of_nonneg (a b : Int) (ha : 0 ≤ a) (hb : 0 ≤ b) : Int.tdiv a b = a / b :=
  Int.tdiv_eq_ediv ha hb

/-- C8: for every `dataSize ≥ 0`, `compressRate ≥ 1` and sample rate 8000 or 16000
such that `dataSize * compressRate` fits in an `int`,
`getSendAudioSleepTime` and `getAudioFileTimeMs` both return
`floor(dataSize * compressRate / (sampleRate * 2 / 1000))`; 1600 bytes at 8 kHz and
3200 bytes at 16 kHz give 100 ms, 640 bytes at 16 kHz give 20 ms. -/
theorem sleep_time_is_playback_duration (dataSize sampleRate compressRate : Int)
    (hd : 0 ≤ dataSize) (hc : 1 ≤ compressRate)
    (hr : sampleRate = 8000 ∨ sampleRate = 16000)
    (hfit : dataSize * compressRate < 2147483648) :
    (getSendAudioSleepTime dataSize sampleRate compressRate : Int) =
      (dataSize * compressRate) / (sampleRate * 2 / 1000) ∧
    (getAudioFileTimeMs dataSize sampleRate compressRate : Int) =
      (dataSize * compressRate) / (sampleRate * 2 / 1000) ∧
    getSendAudioSleepTime 1600 8000 1 = 100 ∧ getSendAudioSleepTime 3200 16000 1 = 100 ∧
    getSendAudioSleepTime 640 16000 1 = 20 := by
  have hp : 0 ≤ dataSize * compressRate := Int.mul_nonneg hd (by omega)
  have key : ∀ b : Int, 0 < b → b ≤ 32 →
      (toU32 (u32ToInt (toU32 (Int.tdiv (dataSize * compressRate) b))) : Int) =
        (dataSize * compressRate) / b ∧
      (toU32 (Int.tdiv (dataSize * compressRate) b) : Int) = (dataSize * compressRate) / b := by
    intro b hb0 hb32
    rw [tdiv_eq_of_nonneg _ _ hp (le_of_lt hb0)]
    have h0 : 0 ≤ dataSize * compressRate / b := Int.ediv_nonneg hp (le_of_lt hb0)
    have h1 : dataSize * compressRate / b ≤ dataSize * compressRate :=
      Int.ediv_le_self _ hp
    generalize dataSize * compressRate / b = q at h0 h1
    have e : toU32 q = q.toNat := by
      unfold toU32; simp only [U32]; congr 1; omega
    have e2 : u32ToInt q.toNat = q := by
      unfold u32ToInt; simp only [U32]; split_ifs <;> omega
    rw [e, e2, e]
    omega
  refine ⟨?_, ?_, by decide, by decide, by decide⟩
  · rcases hr with rfl | rfl
    · exact (key 16 (by decide) (by decide)).1
    · exact (key 32 (by decide) (by decide)).1
  · rcases hr with rfl | rfl
    · exact (key 16 (by decide) (by decide)).2
    · exact (key 32 (by decide) (by decide)).2

/-- The instance of `sleep_time_is_playback_duration` for 3200 bytes at 16 kHz. -/
theorem sleep_time_is_playback_duration_witness :
    (getSendAudioSleepTime 3200 16000 1 : Int) = (3200 * 1) / (16000 * 2 / 1000) :=
  (sleep_time_is_playback_duration 3200 16000 1 (by decide) (by decide) (Or.inr rfl)
    (by decide)).1

/-! ## Pacing in the send loop -/

/-- C9, the code at the failing input: with pacing enabled, 16 kHz and frames of
640 bytes, a `sendAudio` call that sent 640 bytes and returned 0 (success) after
10 us is followed by no sleep at all: the sleep time is computed from the return
value, `getSendAudioSleepTime(0, 16000, 1) = 0`, while the playback duration of
the 640 bytes is `getSendAudioSleepTime(640, 16000, 1) = 20` ms. -/
theorem pacing_uses_return_value :
    (sendFrame {} sendingWorker0 0 10).2 = [Op.sendAudio 640 0] ∧
    (sendFrame {} sendingWorker0 0 10).1.sleepMs = 0 ∧
    getSendAudioSleepTime 0 16000 1 = 0 ∧
    getSendAudioSleepTime 640 16000 1 = 20 := by
  decide

/-- The sleep time stored by an iteration of the send loop that sent a frame with
pacing enabled is computed from the return value of `sendAudio`. -/
theorem sendFrame_sleepMs (cfg : Config) (wk : Worker) (ret : Int) (tmp_us : Nat)
    (hp : cfg.noSleepFlag = false)
    (h1 : 0 < min cfg.frame_size.toNat (wk.fileLen.getD 0 - wk.filePos)) (h2 : 0 ≤ ret) :
    (sendFrame cfg wk ret tmp_us).1.sleepMs =
      u32ToInt (getSendAudioSleepTime ret cfg.sample_rate 1) := by
  unfold sendFrame
  simp only
  rw [if_neg (by omega), if_neg (by omega)]
  simp [hp]

/-! ## The grace sleep before `delete cbParam` -/

/-- C6, the code at the failing input: in the long-connection worker a wait for
the Closed event that times out leaves `timedwait_flag` false, and the worker
releases the request and deletes `cbParam` without the sleep of ten seconds. The
per-request worker sleeps on the same inputs. -/
theorem long_connection_stop_timeout_skips_grace_sleep :
    opsOf 0 longStopTimeoutRun =
      [Op.createRequest true, Op.setFormat "opus", Op.setSampleRate 16000, Op.start 0,
       Op.sendAudio 640 0, Op.sendAudio 360 0, Op.stop 0,
       Op.releaseRequest, Op.deleteCbParam] ∧
    longStopTimeoutRun.waits = [(Pc.exited, false, false)] ∧
    opsOf 0 stopTimeoutRun =
      [Op.createRequest true, Op.setFormat "opus", Op.setSampleRate 16000, Op.start 0,
       Op.sendAudio 640 0, Op.sendAudio 360 0, Op.stop 0,
       Op.releaseRequest, Op.graceSleep, Op.deleteCbParam] := by
  decide

/-! ## The TaskFailed callback -/

theorem statFind_statUpdate (m : List (Nat × ParamStatistics)) (pid : Nat)
    (f : ParamStatistics → ParamStatistics) :
    statFind (statUpdate m pid f) pid = (statFind m pid).map f := by
  induction m with
  | nil => rfl
  | cons e rest ih =>
    obtain ⟨k, v⟩ := e
    by_cases h : k = pid
    · simp [statFind, statUpdate, h]
    · simp [statFind, statUpdate, h, ih]

theorem vectorSetResult_log (g : Globals) (pid : Nat) (ret : Bool) (tv : Timeval) :
    (vectorSetResult g pid ret tv).failedLog = g.failedLog := by
  unfold vectorSetResult
  split <;> rfl

theorem vectorSetFailed_log (g : Globals) (pid : Nat) (ret : Bool) :
    (vectorSetFailed g pid ret).failedLog = g.failedLog := by
  unfold vectorSetFailed
  split <;> rfl

theorem vectorSetResult_find_false (g : Globals) (pid : Nat) (tv : Timeval) :
    statFind (vectorSetResult g pid false tv).g_statistics pid =
      (statFind g.g_statistics pid).map (fun s => { s with success_flag := false }) := by
  unfold vectorSetResult
  split
  · next h => simp [statFind_statUpdate, h]
  · next h => simp [h]

theorem vectorSetFailed_find (g : Globals) (pid : Nat) (ret : Bool) :
    statFind (vectorSetFailed g pid ret).g_statistics pid =
      (statFind g.g_statistics pid).map (fun s => { s with failed_flag := ret }) := by
  unfold vectorSetFailed
  split
  · next h => simp [statFind_statUpdate, h]
  · next h => simp [h]

/-- C10, counterexample: `onTaskFailed` does not signal the condition variable.
A worker blocked in its wait for the Closed event when the TaskFailed event is
handled stays blocked with no signal recorded, and when its wait returns without
a spurious wake-up it takes the timeout path (`timedwait_flag` is set). -/
theorem taskFailed_does_not_wake_waiter :
    (onTaskFailed Globals.init NlsEvent.blank (some cbParam0) CbEnv.blank).signal = false ∧
    taskFailedWhileWaitingRun.waits = [(Pc.waitClosed, false, false)] ∧
    (step {} taskFailedWhileWaitingRun (.worker 0 (.waitReturn false ⟨105, 0⟩))).waits =
      [(Pc.leaving, false, true)] := by
  decide

/-- C10, amended: for every TaskFailed event delivered with a non-null callback
parameter whose `tParam` is set, `onTaskFailed` increments `run_fail` and
`failedConsumed` by one each, appends exactly one record to the failure log when
the log file can be opened and none otherwise, and marks the session failed in
`g_statistics` when its thread id is registered there (`failed_flag` true,
`success_flag` false). It does not signal the condition variable; the callbacks
that signal it are `onChannelClosed` and `onTranscriptionStarted`. -/
theorem onTaskFailed_effect (g : Globals) (cbEvent : NlsEvent) (cb : ParamCallBack)
    (t : ParamStruct) (env : CbEnv) (ht : cb.tParam = some t) :
    (onTaskFailed g cbEvent (some cb) env).g.run_fail = g.run_fail + 1 ∧
    (onTaskFailed g cbEvent (some cb) env).tst.failedConsumed = (t.failedConsumed + 1) % U64 ∧
    (onTaskFailed g cbEvent (some cb) env).g.failedLog =
      (if env.fopenOk then g.failedLog ++ [failedLine env.ts cbEvent] else g.failedLog) ∧
    (∀ s, statFind g.g_statistics cb.userId = some s →
      statFind (onTaskFailed g cbEvent (some cb) env).g.g_statistics cb.userId =
        some { s with success_flag := false, failed_flag := true }) ∧
    (onTaskFailed g cbEvent (some cb) env).signal = false ∧
    (onChannelClosed g (some cb) env).signal = true ∧
    (onTranscriptionStarted g (some cb) env).signal = true := by
  refine ⟨?_, ?_, ?_, ?_, ?_, ?_, ?_⟩
  · exact (dispatch_counters .TaskFailed g cbEvent (some cb) env).2.2.2.2.trans (by simp)
  · simp [onTaskFailed, ht, CbOut.tst]
  · simp [onTaskFailed, ht, vectorSetFailed_log, vectorSetResult_log]
  · intro s hs
    simp [onTaskFailed, ht, vectorSetFailed_find, vectorSetResult_find_false, hs]
  · simp [onTaskFailed, ht]
  · simp [onChannelClosed, ht]
  · simp [onTranscriptionStarted, ht]

/-- The instance of `onTaskFailed_effect` for the first TaskFailed event of a run. -/
theorem onTaskFailed_effect_witness :
    (onTaskFailed globalsWithWorker0 NlsEvent.blank (some cbParam0) CbEnv.blank).g.run_fail =
      globalsWithWorker0.run_fail + 1 ∧
    statFind (onTaskFailed globalsWithWorker0 NlsEvent.blank (some cbParam0)
        CbEnv.blank).g.g_statistics cbParam0.userId =
      some { running := false, success_flag := false, failed_flag := true
             audio_ms := 20, start_ms := 0, end_ms := 0, ave_ms := 0, s_cnt := 0 } ∧
    (onTaskFailed globalsWithWorker0 NlsEvent.blank (some cbParam0) CbEnv.blank).signal = false :=
  have h := onTaskFailed_effect globalsWithWorker0 NlsEvent.blank cbParam0 _ CbEnv.blank rfl
  ⟨h.1, h.2.2.2.1 _ rfl, h.2.2.2.2.1⟩

/-! ## A send error ends the send loop -/

theorem workerStep_frame (cfg : Config) (g : Globals) (wk : Worker) (ret : Int) (u : Nat)
    (h : wk.pc = Pc.sending) :
    workerStep cfg g wk (.frame ret u) =
      ⟨g, (sendFrame cfg wk ret u).1, (sendFrame cfg wk ret u).2⟩ := by
  unfold workerStep pthreadFunction pthreadLongConnectionFunction
  simp [h]

theorem workerRun_append (cfg : Config) (g : Globals) (wk : Worker) (a b : List WorkerInput) :
    workerRun cfg g wk (a ++ b) =
      ⟨(workerRun cfg (workerRun cfg g wk a).g (workerRun cfg g wk a).wk b).g,
       (workerRun cfg (workerRun cfg g wk a).g (workerRun cfg g wk a).wk b).wk,
       (workerRun cfg g wk a).ops ++
         (workerRun cfg (workerRun cfg g wk a).g (workerRun cfg g wk a).wk b).ops⟩ := by
  induction a generalizing g wk with
  | nil => simp [workerRun]
  | cons x a ih => simp [workerRun, ih, List.append_assoc]

/-- An iteration of the send loop that reads a full frame before the end of the
file and whose `sendAudio` call succeeds. -/
theorem sendFrame_ok (cfg : Config) (wk : Worker) (ret : Int) (u L : Nat)
    (hF : 0 < cfg.frame_size) (hL : wk.fileLen = some L)
    (hpos : wk.filePos + cfg.frame_size.toNat < L) (he : wk.eof = false) (hr : 0 ≤ ret) :
    (sendFrame cfg wk ret u).1.pc = Pc.sending ∧
    (sendFrame cfg wk ret u).1.eof = false ∧
    (sendFrame cfg wk ret u).1.fileLen = some L ∧
    (sendFrame cfg wk ret u).1.filePos = wk.filePos + cfg.frame_size.toNat ∧
    (sendFrame cfg wk ret u).1.sendAudio_cnt = (wk.sendAudio_cnt + 1) % U32 ∧
    (sendFrame cfg wk ret u).1.cbParam = wk.cbParam ∧
    ((sendFrame cfg wk ret u).2.filter Op.isSendAudio).length = 1 := by
  have hmin : min cfg.frame_size.toNat (L - wk.filePos) = cfg.frame_size.toNat := by omega
  have hlt : ¬ (L - wk.filePos < cfg.frame_size.toNat) := by omega
  have hnz : ¬ (cfg.frame_size.toNat ≤ 0) := by omega
  unfold sendFrame
  simp only [hL, Option.getD_some, hmin, he, hlt, hnz, if_false, decide_False, Bool.or_false,
    not_lt.mpr hr, Bool.false_eq_true]
  split_ifs <;> simp [List.filter_cons, Op.isSendAudio]

/-- An iteration of the send loop that reads at least one byte and whose
`sendAudio` call fails. -/
theorem sendFrame_fail (cfg : Config) (wk : Worker) (ret : Int) (u L : Nat)
    (hF : 0 < cfg.frame_size) (hL : wk.fileLen = some L)
    (hpos : wk.filePos < L) (hr : ret < 0) :
    (sendFrame cfg wk ret u).1.pc = Pc.stopping ∧
    (sendFrame cfg wk ret u).1.sendAudio_cnt = wk.sendAudio_cnt ∧
    (sendFrame cfg wk ret u).1.cbParam = wk.cbParam ∧
    (sendFrame cfg wk ret u).2 =
      [Op.sendAudio (min cfg.frame_size.toNat (L - wk.filePos)) ret] := by
  have hnz : ¬ (min cfg.frame_size.toNat (L - wk.filePos) ≤ 0) := by omega
  unfold sendFrame
  simp only [hL, Option.getD_some, hnz, if_false, hr, if_true]
  simp

/-- The send loop while every `sendAudio` call succeeds and the file has more
data than the frames sent so far. -/
theorem sendLoop_ok (cfg : Config) (g : Globals) (L : Nat) (hF : 0 < cfg.frame_size)
    (rs : List (Int × Nat)) (wk : Worker)
    (hpc : wk.pc = Pc.sending) (he : wk.eof = false) (hL : wk.fileLen = some L)
    (hc : wk.sendAudio_cnt < U32)
    (hfile : wk.filePos + rs.length * cfg.frame_size.toNat < L)
    (hok : ∀ x ∈ rs, 0 ≤ x.1) :
    (workerRun cfg g wk (frameInputs rs)).g = g ∧
    (workerRun cfg g wk (frameInputs rs)).wk.pc = Pc.sending ∧
    (workerRun cfg g wk (frameInputs rs)).wk.fileLen = some L ∧
    (workerRun cfg g wk (frameInputs rs)).wk.filePos =
      wk.filePos + rs.length * cfg.frame_size.toNat ∧
    (workerRun cfg g wk (frameInputs rs)).wk.sendAudio_cnt =
      (wk.sendAudio_cnt + rs.length) % U32 ∧
    (workerRun cfg g wk (frameInputs rs)).wk.cbParam = wk.cbParam ∧
    ((workerRun cfg g wk (frameInputs rs)).ops.filter Op.isSendAudio).length = rs.length := by
  induction rs generalizing wk with
  | nil =>
    refine ⟨rfl, hpc, hL, by simp [frameInputs, workerRun], ?_, rfl, rfl⟩
    simp only [frameInputs, List.map_nil, workerRun, List.length_nil, Nat.add_zero]
    exact (Nat.mod_eq_of_lt hc).symm
  | cons x rs ih =>
    have hlen : (x :: rs).length = rs.length + 1 := rfl
    rw [hlen, Nat.add_mul, Nat.one_mul] at hfile
    obtain ⟨s1, s2, s3, s4, s5, s6, s7⟩ :=
      sendFrame_ok cfg wk x.1 x.2 L hF hL (by omega) he (hok x (List.mem_cons_self _ _))
    have ih' := ih (sendFrame cfg wk x.1 x.2).1 s1 s2 s3
      (by rw [s5]; exact Nat.mod_lt _ (by decide)) (by rw [s4]; omega)
      (fun y hy => hok y (List.mem_cons_of_mem _ hy))
    obtain ⟨i1, i2, i3, i4, i5, i6, i7⟩ := ih'
    simp only [frameInputs, List.map_cons, workerRun, workerStep_frame cfg g wk x.1 x.2 hpc]
    simp only [frameInputs] at i1 i2 i3 i4 i5 i6 i7
    refine ⟨i1, i2, i3, ?_, ?_, ?_, ?_⟩
    · rw [i4, s4, hlen]; ring
    · rw [i5, s5, hlen]; simp only [U32]; omega
    · rw [i6, s6]
    · rw [List.filter_append, List.length_append, s7, i7, hlen]; omega

theorem workerStep_stopping_frame (cfg : Config) (g : Globals) (wk : Worker) (ret : Int)
    (u : Nat) (h : wk.pc = Pc.stopping) : workerStep cfg g wk (.frame ret u) = ⟨g, wk, []⟩ := by
  unfold workerStep pthreadFunction pthreadLongConnectionFunction
  simp [h]

theorem endIteration_ops (cfg : Config) (g : Globals) (wk : Worker) (ops : List Op) :
    (endIteration cfg g wk ops).ops = ops ∧
    (endIteration cfg g wk ops).wk.cbParam = wk.cbParam := by
  unfold endIteration
  simp only
  split_ifs <;> simp

theorem workerStep_stopping_ops (cfg : Config) (g : Globals) (wk : Worker)
    (inp : WorkerInput) (h : wk.pc = Pc.stopping) :
    (workerStep cfg g wk inp).ops = [] ∨
      ∃ ret, (workerStep cfg g wk inp).ops.head? = some (Op.stop ret) := by
  unfold workerStep pthreadFunction pthreadLongConnectionFunction
  cases inp <;> simp [h]
  all_goals (split_ifs <;> simp [endIteration_ops])

theorem workerStep_stop_sendConsumed (cfg : Config) (g : Globals) (wk : Worker)
    (t : ParamStruct) (ret : Int) (h : wk.pc = Pc.stopping) (ht : wk.cbParam.tParam = some t) :
    (workerStep cfg g wk (.stop ret)).wk.sendConsumed =
      some ((t.sendConsumed + wk.sendAudio_cnt) % U64) := by
  unfold workerStep pthreadFunction pthreadLongConnectionFunction
  simp only [h]
  split_ifs <;>
    simp [endIteration_ops, Worker.sendConsumed, afterSend, Worker.modTst, ht]

/-- The send loop up to the first failing `sendAudio` call: `rs` are the
successful calls, `(r, u)` the failing one. -/
theorem sendLoop_until_error (cfg : Config) (g : Globals) (wk : Worker) (t : ParamStruct)
    (L : Nat) (rs : List (Int × Nat)) (r : Int) (u : Nat)
    (hpc : wk.pc = Pc.sending) (heof : wk.eof = false) (hpos : wk.filePos = 0)
    (hcnt : wk.sendAudio_cnt = 0) (hL : wk.fileLen = some L)
    (ht : wk.cbParam.tParam = some t) (hF : 0 < cfg.frame_size)
    (hfile : rs.length * cfg.frame_size.toNat < L)
    (hok : ∀ x ∈ rs, 0 ≤ x.1) (hr : r < 0) :
    (workerRun cfg g wk (frameInputs (rs ++ [(r, u)]))).wk.pc = Pc.stopping ∧
    ((workerRun cfg g wk (frameInputs (rs ++ [(r, u)]))).ops.filter Op.isSendAudio).length =
      rs.length + 1 ∧
    (workerRun cfg g wk (frameInputs (rs ++ [(r, u)]))).ops.getLast? =
      some (Op.sendAudio (min cfg.frame_size.toNat (L - rs.length * cfg.frame_size.toNat)) r) ∧
    (workerRun cfg g wk (frameInputs (rs ++ [(r, u)]))).wk.sendAudio_cnt = rs.length % U32 ∧
    (workerRun cfg g wk (frameInputs (rs ++ [(r, u)]))).wk.cbParam.tParam = some t := by
  obtain ⟨i1, i2, i3, i4, i5, i6, i7⟩ :=
    sendLoop_ok cfg g L hF rs wk hpc heof hL (by rw [hcnt]; decide) (by rw [hpos]; omega) hok
  rw [hpos, Nat.zero_add] at i4
  rw [hcnt, Nat.zero_add] at i5
  obtain ⟨f1, f2, f3, f4⟩ :=
    sendFrame_fail cfg (workerRun cfg g wk (frameInputs rs)).wk r u L hF i3
      (by rw [i4]; exact hfile) hr
  have e : frameInputs (rs ++ [(r, u)]) = frameInputs rs ++ [WorkerInput.frame r u] := by
    simp [frameInputs]
  rw [e, workerRun_append]
  simp only [workerRun, workerStep_frame _ _ _ _ _ i2, List.append_nil]
  refine ⟨f1, ?_, ?_, ?_, ?_⟩
  · rw [List.filter_append, List.length_append, i7, f4]
    simp [List.filter_cons, Op.isSendAudio]
  · rw [f4, i4]; simp
  · rw [f2, i5]
  · rw [f3, i6, ht]

/-- C4, counterexample: with frames of one byte and a file of `2^32 + 1` bytes, when
`sendAudio` first returns a negative value on call number `k = 2^32 + 1`, the
`2^32` successful sends are counted in the `uint32_t` counter `sendAudio_cnt`, which
has wrapped to 0: after the code that follows the loop `sendConsumed` is still 0,
it has not grown by `k - 1`. -/
theorem send_count_wraps_after_two_pow_32_sends :
    hugeFileWorker.sendConsumed = some 0 ∧
    (workerStep cfgFrame1 Globals.init
      (workerRun cfgFrame1 Globals.init hugeFileWorker
        (frameInputs (List.replicate 4294967296 (0, 0) ++ [(-1, 0)]))).wk
      (.stop 0)).wk.sendConsumed = some 0 := by
  refine ⟨rfl, ?_⟩
  obtain ⟨h1, _, _, h4, h5⟩ :=
    sendLoop_until_error cfgFrame1 Globals.init hugeFileWorker
      (paInit cfgFrame1 0) 4294967297
      (List.replicate 4294967296 (0, 0)) (-1) 0 rfl rfl rfl rfl rfl rfl (by decide)
      (by rw [List.length_replicate]; decide)
      (fun x hx => by rw [List.eq_of_mem_replicate hx]) (by decide)
  rw [workerStep_stop_sendConsumed _ _ _ _ _ h1 h5, h4, List.length_replicate]
  decide

/-- C4, amended: for every `k` with `1 ≤ k ≤ 2^32` (`k - 1` is the length of `rs`),
in either worker function, if within one lifecycle iteration the first `k - 1`
calls of `sendAudio` succeed and call number `k` returns a negative value (the
file holding more than `k - 1` frames), then the worker leaves the send loop with
exactly `k` calls made, the failing one last; further loop inputs make no
`sendAudio` call; the next operation of the worker is `stop()`; and the code after
the loop adds exactly `k - 1` to `sendConsumed` (as long as `sendConsumed` stays
below `2^64`). The per-iteration counter is a `uint32_t`. -/
theorem send_error_ends_streaming (cfg : Config) (g : Globals) (wk : Worker)
    (t : ParamStruct) (L : Nat) (rs : List (Int × Nat)) (r : Int) (u : Nat)
    (hpc : wk.pc = Pc.sending) (heof : wk.eof = false) (hpos : wk.filePos = 0)
    (hcnt : wk.sendAudio_cnt = 0) (hL : wk.fileLen = some L)
    (ht : wk.cbParam.tParam = some t) (hF : 0 < cfg.frame_size)
    (hfile : rs.length * cfg.frame_size.toNat < L)
    (hok : ∀ x ∈ rs, 0 ≤ x.1) (hr : r < 0)
    (hk : rs.length < U32) (hno : t.sendConsumed + rs.length < U64) :
    (workerRun cfg g wk (frameInputs (rs ++ [(r, u)]))).wk.pc = Pc.stopping ∧
    ((workerRun cfg g wk (frameInputs (rs ++ [(r, u)]))).ops.filter Op.isSendAudio).length =
      rs.length + 1 ∧
    (workerRun cfg g wk (frameInputs (rs ++ [(r, u)]))).ops.getLast? =
      some (Op.sendAudio (min cfg.frame_size.toNat (L - rs.length * cfg.frame_size.toNat)) r) ∧
    (∀ g2 ret2 u2,
      workerStep cfg g2 (workerRun cfg g wk (frameInputs (rs ++ [(r, u)]))).wk
        (.frame ret2 u2) = ⟨g2, (workerRun cfg g wk (frameInputs (rs ++ [(r, u)]))).wk, []⟩) ∧
    (∀ g2 inp,
      (workerStep cfg g2 (workerRun cfg g wk (frameInputs (rs ++ [(r, u)]))).wk inp).ops = [] ∨
      ∃ ret, (workerStep cfg g2 (workerRun cfg g wk (frameInputs (rs ++ [(r, u)]))).wk
        inp).ops.head? = some (Op.stop ret)) ∧
    (∀ g2 ret,
      (workerStep cfg g2 (workerRun cfg g wk (frameInputs (rs ++ [(r, u)]))).wk
        (.stop ret)).wk.sendConsumed = some (t.sendConsumed + rs.length)) := by
  obtain ⟨h1, h2, h3, h4, h5⟩ :=
    sendLoop_until_error cfg g wk t L rs r u hpc heof hpos hcnt hL ht hF hfile hok hr
  refine ⟨h1, h2, h3, ?_, ?_, ?_⟩
  · intro g2 ret2 u2
    exact workerStep_stopping_frame cfg g2 _ ret2 u2 h1
  · intro g2 inp
    exact workerStep_stopping_ops cfg g2 _ inp h1
  · intro g2 ret
    rw [workerStep_stop_sendConsumed cfg g2 _ t ret h1 h5, h4, Nat.mod_eq_of_lt hk,
      Nat.mod_eq_of_lt hno]

/-- The instance of Scenario B: nine successful sends, the tenth call fails. -/
theorem send_error_ends_streaming_witness :
    ((workerRun {} Globals.init tenFrameWorker
        (frameInputs (List.replicate 9 (0, 10) ++ [(-1, 10)]))).ops.filter
          Op.isSendAudio).length = 9 + 1 ∧
    (workerStep {} Globals.init
      (workerRun {} Globals.init tenFrameWorker
        (frameInputs (List.replicate 9 (0, 10) ++ [(-1, 10)]))).wk
      (.stop 0)).wk.sendConsumed = some (0 + 9) :=
  have h := send_error_ends_streaming {} Globals.init tenFrameWorker
    (paInit {} 0) 6400 (List.replicate 9 (0, 10)) (-1) 10
    rfl rfl rfl rfl rfl rfl (by decide) (by decide) (by decide) (by decide) (by decide)
    (by decide)
  ⟨h.2.1, h.2.2.2.2.2 Globals.init 0⟩

/-! ## Workers whose wait for the Started event times out -/

theorem workerStep_timeoutPath (cfg : Config) (g : Globals) (wk : Worker) (ops : List Op)
    (inp : WorkerInput) (h : TimeoutPath cfg wk ops) (hs : inp.silent = true) :
    TimeoutPath cfg (workerStep cfg g wk inp).wk (ops ++ (workerStep cfg g wk inp).ops) ∧
    (workerStep cfg g wk inp).g.run_cancel + cancelledPc wk.pc =
      g.run_cancel + cancelledPc (workerStep cfg g wk inp).wk.pc := by
  obtain ⟨⟨L, hL⟩, hp⟩ := h
  unfold TimeoutPath workerStep pthreadFunction pthreadLongConnectionFunction
  cases inp with
  | init ok =>
    by_cases hlong : cfg.longConnection = true <;> cases hpc : wk.pc <;>
      simp_all [TimeoutPathAt, WorkerInput.silent, cancelledPc, Worker.modTst,
        vectorSetParams_counters]
  | begin ok ret now =>
    simp only [WorkerInput.silent, Bool.and_eq_true, decide_eq_true_eq] at hs
    have hr : ¬ ret < 0 := not_lt.mpr hs.2
    have hok : ok = true := hs.1
    by_cases hlong : cfg.longConnection = true <;> cases hpc : wk.pc <;>
      simp only [hpc, TimeoutPathAt] at hp <;>
      simp [hlong, hpc, hL, hr, hok, TimeoutPathAt, hp, cancelledPc, Worker.modTst,
        vectorSetParams_counters]
    all_goals first
      | exact hs.2
      | exact hp
      | (obtain ⟨_, r, hr2, ho⟩ := hp; exact ⟨r, hr2, by simp_all⟩)
  | enterWait =>
    by_cases hlong : cfg.longConnection = true <;> cases hpc : wk.pc <;>
      simp only [hpc, TimeoutPathAt] at hp <;>
      simp [hlong, hpc, hL, TimeoutPathAt, hp, cancelledPc]
    all_goals first
      | exact hp
      | (obtain ⟨_, r, hr2, ho⟩ := hp; exact ⟨r, hr2, by simp_all⟩)
  | waitReturn sp now =>
    simp only [WorkerInput.silent, Bool.not_eq_true'] at hs
    by_cases hlong : cfg.longConnection = true <;> cases hpc : wk.pc <;>
      simp only [hpc, TimeoutPathAt] at hp <;>
      simp [hlong, hpc, hL, hs, TimeoutPathAt, hp, cancelledPc]
    all_goals first
      | exact hp
      | (obtain ⟨_, r, hr2, ho⟩ := hp; exact ⟨r, hr2, by simp_all⟩)
  | frame ret u =>
    by_cases hlong : cfg.longConnection = true <;> cases hpc : wk.pc <;>
      simp_all [TimeoutPathAt, WorkerInput.silent, cancelledPc]
  | stop ret =>
    by_cases hlong : cfg.longConnection = true <;> cases hpc : wk.pc <;>
      simp_all [TimeoutPathAt, WorkerInput.silent, cancelledPc]
  | finish =>
    by_cases hlong : cfg.longConnection = true <;> cases hpc : wk.pc <;>
      simp only [hpc, TimeoutPathAt] at hp <;>
      simp [hlong, hpc, hL, TimeoutPathAt, hp, cancelledPc, finishWorker]
    all_goals first
      | exact hp
      | (obtain ⟨_, r, hr2, ho⟩ := hp; exact ⟨r, hr2, by simp_all [timeoutOps]⟩)

theorem vectorSetParams_log (g : Globals) (pid : Nat) (add r s : Bool) (a : Nat) :
    (vectorSetParams g pid add r s a).failedLog = g.failedLog := by
  unfold vectorSetParams
  split
  · rfl
  · split <;> rfl

theorem sendFrame_frame (cfg : Config) (wk : Worker) (ret : Int) (u : Nat) :
    (sendFrame cfg wk ret u).1.cbParam = wk.cbParam ∧
    (sendFrame cfg wk ret u).1.fileLen = wk.fileLen := by
  unfold sendFrame
  simp only
  split_ifs <;> simp

theorem endIteration_frame (cfg : Config) (g : Globals) (wk : Worker) (ops : List Op) :
    (endIteration cfg g wk ops).wk.cbParam = wk.cbParam ∧
    (endIteration cfg g wk ops).wk.fileLen = wk.fileLen ∧
    (endIteration cfg g wk ops).g.failedLog = g.failedLog := by
  unfold endIteration
  simp only
  split_ifs <;> simp

/-- A worker step keeps the thread id and the file of the worker and does not
write to the failure log. -/
theorem workerStep_frame_conditions (cfg : Config) (g : Globals) (wk : Worker)
    (inp : WorkerInput) :
    (workerStep cfg g wk inp).wk.cbParam.userId = wk.cbParam.userId ∧
    (workerStep cfg g wk inp).wk.fileLen = wk.fileLen ∧
    (workerStep cfg g wk inp).g.failedLog = g.failedLog := by
  unfold workerStep pthreadFunction pthreadLongConnectionFunction
  by_cases hlong : cfg.longConnection = true <;> cases hpc : wk.pc <;> cases inp <;>
    simp only [hlong, if_true, if_false, Bool.false_eq_true] <;>
    (try split) <;> (try split_ifs) <;>
    simp [Worker.modTst, vectorSetParams_log, sendFrame_frame, endIteration_frame, afterSend,
      finishWorker]

theorem opsOf_append_ops (w : World) (pid j : Nat) (ops : List Op) (g : Globals)
    (ws : List Worker) :
    opsOf j { g := g, workers := ws, trace := w.trace ++ ops.map (TraceItem.op pid) } =
      opsOf j w ++ (if pid = j then ops else []) := by
  unfold opsOf
  simp only [List.filterMap_append]
  congr 1
  induction ops with
  | nil => simp
  | cons o ops ih =>
    by_cases h : pid = j
    · simp [h] at ih ⊢
      exact ih
    · simp [h] at ih ⊢

theorem sum_map_set {α : Type} (f : α → Nat) (l : List α) (i : Nat) (x y : α)
    (h : l.get? i = some y) :
    ((l.set i x).map f).sum + f y = (l.map f).sum + f x := by
  induction l generalizing i with
  | nil => simp at h
  | cons a l ih =>
    cases i with
    | zero =>
      simp only [List.get?_cons_zero, Option.some.injEq] at h
      subst h
      simp only [List.set_cons_zero, List.map_cons, List.sum_cons]
      omega
    | succ i =>
      simp only [List.get?_cons_succ] at h
      have := ih i h
      simp only [List.set_cons_succ, List.map_cons, List.sum_cons]
      omega

theorem get?_set_cases {α : Type} (l : List α) (i j : Nat) (x y : α)
    (h : (l.set i x).get? j = some y) : (i = j ∧ y = x) ∨ (i ≠ j ∧ l.get? j = some y) := by
  induction l generalizing i j with
  | nil => simp at h
  | cons a l ih =>
    cases i with
    | zero =>
      cases j with
      | zero =>
        simp only [List.set_cons_zero, List.get?_cons_zero, Option.some.injEq] at h
        exact Or.inl ⟨rfl, h.symm⟩
      | succ j =>
        simp only [List.set_cons_zero, List.get?_cons_succ] at h
        exact Or.inr ⟨by omega, by simpa using h⟩
    | succ i =>
      cases j with
      | zero =>
        simp only [List.set_cons_succ, List.get?_cons_zero] at h
        exact Or.inr ⟨by omega, by simpa using h⟩
      | succ j =>
        simp only [List.set_cons_succ, List.get?_cons_succ] at h
        rcases ih i j h with ⟨rfl, rfl⟩ | ⟨hne, hj⟩
        · exact Or.inl ⟨rfl, rfl⟩
        · exact Or.inr ⟨by omega, by simpa using hj⟩

theorem get?_map_range {α : Type} (f : Nat → α) (N i : Nat) (y : α)
    (h : ((List.range N).map f).get? i = some y) : i < N ∧ y = f i := by
  simp only [List.get?_eq_getElem?, List.getElem?_map, List.getElem?_range'] at h
  by_cases hi : i < N
  · rw [List.getElem?_range hi] at h
    simp only [Option.map_some', Option.some.injEq] at h
    exact ⟨hi, h.symm⟩
  · rw [List.getElem?_eq_none (by simpa using hi)] at h
    simp at h

theorem step_timeoutRun (cfg : Config) (g0 : Globals) (w : World) (a : Action)
    (h : TimeoutRun cfg g0 w) (hs : a.silent = true) : TimeoutRun cfg g0 (step cfg w a) := by
  obtain ⟨h1, h2, h3⟩ := h
  cases a with
  | worker i inp =>
    simp only [step]
    cases hw : w.workers.get? i with
    | none => exact ⟨h1, h2, h3⟩
    | some wk =>
      simp only
      obtain ⟨hid, hpath⟩ := h1 i wk hw
      obtain ⟨p1, p2⟩ := workerStep_timeoutPath cfg w.g wk (opsOf i w) inp hpath hs
      obtain ⟨f1, f2, f3⟩ := workerStep_frame_conditions cfg w.g wk inp
      refine ⟨?_, ?_, ?_⟩
      · intro j wk2 hj
        rw [opsOf_append_ops, hid]
        rcases get?_set_cases _ _ _ _ _ hj with ⟨rfl, rfl⟩ | ⟨hne, hj2⟩
        · rw [if_pos rfl]
          exact ⟨f1.trans hid, p1⟩
        · rw [if_neg hne, List.append_nil]
          exact h1 j wk2 hj2
      · have hsum := sum_map_set (fun wk => cancelledPc wk.pc) w.workers i
          (workerStep cfg w.g wk inp).wk wk hw
        simp only at hsum ⊢
        omega
      · exact f3.trans h3
  | event i k ev env => simp [Action.silent] at hs
  | stopRun => exact ⟨h1, h2, h3⟩

theorem run_timeoutRun (cfg : Config) (g0 : Globals) (acts : List Action) (w : World)
    (h : TimeoutRun cfg g0 w) (hs : ∀ a ∈ acts, a.silent = true) :
    TimeoutRun cfg g0 (run cfg w acts) := by
  induction acts generalizing w with
  | nil => exact h
  | cons a rest ih =>
    exact ih _ (step_timeoutRun cfg g0 w a h (hs a (List.mem_cons_self _ _)))
      (fun b hb => hs b (List.mem_cons_of_mem _ hb))

theorem step_workers_length (cfg : Config) (w : World) (a : Action) :
    (step cfg w a).workers.length = w.workers.length := by
  cases a with
  | worker i inp =>
    simp only [step]
    split <;> simp
  | event i k ev env =>
    simp only [step]
    split
    · rfl
    · split <;> simp
  | stopRun => rfl

theorem run_workers_length (cfg : Config) (acts : List Action) (w : World) :
    (run cfg w acts).workers.length = w.workers.length := by
  induction acts generalizing w with
  | nil => rfl
  | cons a rest ih => rw [run, ih, step_workers_length]

theorem startRun_timeoutRun (cfg : Config) (files : List UInt8 → Option Nat) (g0 : Globals)
    (N : Nat) (hfiles : ∀ i, i < N → ∃ L, files (workerFileName cfg i) = some L) :
    TimeoutRun cfg g0 (startRun cfg files g0 N) := by
  refine ⟨?_, ?_, rfl⟩
  · intro i wk hi
    obtain ⟨hlt, rfl⟩ := get?_map_range (newWorker cfg files) N i wk hi
    refine ⟨rfl, hfiles i hlt, ?_⟩
    show TimeoutPathAt cfg _ _ Pc.created
    simp [TimeoutPathAt, opsOf, startRun]
  · simp only [startRun]
    have : ∀ l : List Nat,
        ((l.map (newWorker cfg files)).map (fun wk => cancelledPc wk.pc)).sum = 0 := by
      intro l
      induction l with
      | nil => rfl
      | cons a l ih =>
        simp only [List.map_cons, List.sum_cons, ih]
        rfl
    rw [this]
    simp

theorem sum_cancelled_of_exited (l : List Worker) (h : ∀ wk ∈ l, wk.pc = Pc.exited) :
    (l.map (fun wk => cancelledPc wk.pc)).sum = l.length := by
  induction l with
  | nil => rfl
  | cons a l ih =>
    have ha : a.pc = Pc.exited := h a (List.mem_cons_self _ _)
    simp only [List.map_cons, List.sum_cons, List.length_cons, ha,
      ih (fun wk hwk => h wk (List.mem_cons_of_mem _ hwk))]
    simp [cancelledPc]
    omega

theorem timeoutOps_counts (cfg : Config) (ret : Int) :
    ((timeoutOps cfg ret).filter Op.isCancel).length = 1 ∧
    (timeoutOps cfg ret).filter Op.isSendAudio = [] ∧
    (timeoutOps cfg ret).filter Op.isStop = [] := by
  unfold timeoutOps requestSettings
  refine ⟨?_, ?_, ?_⟩ <;> split_ifs <;>
    simp [List.filter_cons, Op.isCancel, Op.isSendAudio, Op.isStop]

/-- The step of a worker whose wait for the Started event times out. -/
theorem workerStep_start_timeout (cfg : Config) (g : Globals) (wk : Worker) (now : Timeval)
    (hpc : wk.pc = Pc.waitStarted) (hsig : wk.signalled = false) :
    (workerStep cfg g wk (.waitReturn false now)).ops =
      Op.cancel :: (if cfg.longConnection then [] else [Op.releaseRequest]) ∧
    (workerStep cfg g wk (.waitReturn false now)).g.run_cancel = g.run_cancel + 1 ∧
    (workerStep cfg g wk (.waitReturn false now)).g.failedLog = g.failedLog ∧
    (workerStep cfg g wk (.waitReturn false now)).wk.pc = Pc.leaving ∧
    (workerStep cfg g wk (.waitReturn false now)).wk.timedwait_flag = true := by
  unfold workerStep pthreadFunction pthreadLongConnectionFunction
  by_cases hlong : cfg.longConnection = true <;> simp [hlong, hpc, hsig]

/-- The steps of a worker that has left its `do` loop. -/
theorem workerStep_after_loop (cfg : Config) (g : Globals) (wk : Worker) (inp : WorkerInput)
    (hpc : wk.pc = Pc.leaving ∨ wk.pc = Pc.exited) :
    ((workerStep cfg g wk inp).wk.pc = Pc.leaving ∨
      (workerStep cfg g wk inp).wk.pc = Pc.exited) ∧
    (workerStep cfg g wk inp).g.run_cancel = g.run_cancel ∧
    (workerStep cfg g wk inp).ops.filter
      (fun o => o.isCancel || o.isSendAudio || o.isStop || o.isStart) = [] := by
  unfold workerStep pthreadFunction pthreadLongConnectionFunction
  rcases hpc with hpc | hpc <;> by_cases hlong : cfg.longConnection = true <;>
    cases inp <;> simp [hlong, hpc, finishWorker, Op.isCancel, Op.isSendAudio, Op.isStop,
      Op.isStart]

/-- C5: a worker (of either worker function) whose `start()` succeeded and whose
wait for the Started event times out calls `cancel()` once, increments
`run_cancel` by exactly one, writes nothing to the failure log and leaves its
loop; after that it performs no `start()`, `sendAudio`, `stop()` or `cancel()`.
In every run of `N` workers (any interleaving) in which every request is created,
every `start()` succeeds, the transport delivers no event and no wait is left by
a spurious wake-up, so that every wait for Started times out, and in which all
workers have returned: `run_cancel` has grown by exactly `N` (from 0 to `N` in the
first run), the failure log is unchanged, and the operations of every worker are
exactly: create the request, configure it, `start()`, `cancel()`, release, the
sleep of ten seconds, `delete cbParam`; no `sendAudio` and no `stop()`. -/
theorem start_timeout_workers_are_cancelled (cfg : Config) (files : List UInt8 → Option Nat)
    (g0 : Globals) (N : Nat) (acts : List Action)
    (hfiles : ∀ i, i < N → ∃ L, files (workerFileName cfg i) = some L)
    (hsilent : ∀ a ∈ acts, a.silent = true)
    (hdone : ∀ wk ∈ (run cfg (startRun cfg files g0 N) acts).workers, wk.pc = Pc.exited) :
    (∀ g wk now, wk.pc = Pc.waitStarted → wk.signalled = false →
      (workerStep cfg g wk (.waitReturn false now)).ops =
        Op.cancel :: (if cfg.longConnection then [] else [Op.releaseRequest]) ∧
      (workerStep cfg g wk (.waitReturn false now)).g.run_cancel = g.run_cancel + 1 ∧
      (workerStep cfg g wk (.waitReturn false now)).g.failedLog = g.failedLog ∧
      (workerStep cfg g wk (.waitReturn false now)).wk.pc = Pc.leaving ∧
      (workerStep cfg g wk (.waitReturn false now)).wk.timedwait_flag = true) ∧
    (∀ g wk inp, wk.pc = Pc.leaving ∨ wk.pc = Pc.exited →
      ((workerStep cfg g wk inp).wk.pc = Pc.leaving ∨
        (workerStep cfg g wk inp).wk.pc = Pc.exited) ∧
      (workerStep cfg g wk inp).g.run_cancel = g.run_cancel ∧
      (workerStep cfg g wk inp).ops.filter
        (fun o => o.isCancel || o.isSendAudio || o.isStop || o.isStart) = []) ∧
    (run cfg (startRun cfg files g0 N) acts).g.run_cancel = g0.run_cancel + N ∧
    (run cfg (startRun cfg files g0 N) acts).g.failedLog = g0.failedLog ∧
    ∀ i, i < N → ∃ ret, 0 ≤ ret ∧
      opsOf i (run cfg (startRun cfg files g0 N) acts) = timeoutOps cfg ret ∧
      ((opsOf i (run cfg (startRun cfg files g0 N) acts)).filter Op.isCancel).length = 1 ∧
      (opsOf i (run cfg (startRun cfg files g0 N) acts)).filter Op.isSendAudio = [] ∧
      (opsOf i (run cfg (startRun cfg files g0 N) acts)).filter Op.isStop = [] := by
  obtain ⟨h1, h2, h3⟩ :=
    run_timeoutRun cfg g0 acts _ (startRun_timeoutRun cfg files g0 N hfiles) hsilent
  have hlen : (run cfg (startRun cfg files g0 N) acts).workers.length = N := by
    rw [run_workers_length]
    simp [startRun]
  refine ⟨fun g wk now => workerStep_start_timeout cfg g wk now,
    fun g wk inp => workerStep_after_loop cfg g wk inp, ?_, h3, ?_⟩
  · rw [h2, sum_cancelled_of_exited _ hdone, hlen]
  · intro i hi
    have hi' : i < (run cfg (startRun cfg files g0 N) acts).workers.length := by
      rw [hlen]; exact hi
    have hget : (run cfg (startRun cfg files g0 N) acts).workers.get? i =
        some ((run cfg (startRun cfg files g0 N) acts).workers.get ⟨i, hi'⟩) :=
      List.get?_eq_get hi'
    obtain ⟨_, _, hp⟩ := h1 i _ hget
    rw [hdone _ (List.get_mem _ _ _)] at hp
    obtain ⟨ret, hret, hops⟩ := hp
    refine ⟨ret, hret, hops, ?_⟩
    rw [hops]
    exact timeoutOps_counts cfg ret

/-- Scenario A: four sessions, no Started event; all four are cancelled. -/
theorem start_timeout_workers_are_cancelled_witness :
    (run {} (startRun {} (fun _ => some 1000) Globals.init 4) scenarioA).g.run_cancel = 4 ∧
    (run {} (startRun {} (fun _ => some 1000) Globals.init 4) scenarioA).g.failedLog = [] ∧
    ∃ ret, 0 ≤ ret ∧
      opsOf 3 (run {} (startRun {} (fun _ => some 1000) Globals.init 4) scenarioA) =
        timeoutOps {} ret ∧
      ((opsOf 3 (run {} (startRun {} (fun _ => some 1000) Globals.init 4) scenarioA)).filter
        Op.isCancel).length = 1 ∧
      (opsOf 3 (run {} (startRun {} (fun _ => some 1000) Globals.init 4) scenarioA)).filter
        Op.isSendAudio = [] ∧
      (opsOf 3 (run {} (startRun {} (fun _ => some 1000) Globals.init 4) scenarioA)).filter
        Op.isStop = [] :=
  have h := start_timeout_workers_are_cancelled {} (fun _ => some 1000) Globals.init 4
    scenarioA (fun _ _ => ⟨1000, rfl⟩) (by decide) (by decide)
  ⟨h.2.2.1, h.2.2.2.1, h.2.2.2.2 3 (by decide)⟩

/-! ## The send loop and the failed flag -/

/-- The send loop reads only the stream state and the counters of the worker:
a change of the callback parameter or of the signal record does not change what
an iteration does. -/
theorem sendFrame_ignores_callback_state (cfg : Config) (wk : Worker) (cb : ParamCallBack)
    (s : Bool) (ret : Int) (u : Nat) :
    (sendFrame cfg { wk with cbParam := cb, signalled := s } ret u).2 =
      (sendFrame cfg wk ret u).2 ∧
    (sendFrame cfg { wk with cbParam := cb, signalled := s } ret u).1.pc =
      (sendFrame cfg wk ret u).1.pc ∧
    (sendFrame cfg { wk with cbParam := cb, signalled := s } ret u).1.filePos =
      (sendFrame cfg wk ret u).1.filePos ∧
    (sendFrame cfg { wk with cbParam := cb, signalled := s } ret u).1.sendAudio_cnt =
      (sendFrame cfg wk ret u).1.sendAudio_cnt := by
  unfold sendFrame
  simp only
  split_ifs <;> simp

theorem deliver_taskFailed_worker (g : Globals) (wk : Worker) (ev : NlsEvent) (env : CbEnv) :
    ∃ cb s, (deliver g wk .TaskFailed ev env).2 = { wk with cbParam := cb, signalled := s } := by
  unfold deliver
  simp only [dispatch, onTaskFailed]
  cases h : wk.cbParam.tParam <;> exact ⟨_, _, rfl⟩

/-- C11, counterexample: in `taskFailedMidStreamRun` the TaskFailed event is handled
after the first frame and sets the failed flag of the session, and the next
iteration of the send loop still sends the second frame: the history ends with
the handled TaskFailed followed by a `sendAudio` call. -/
theorem frame_sent_after_taskFailed :
    vectorGetFailed taskFailedMidStreamRun.g 0 = true ∧
    taskFailedMidStreamRun.trace.drop 6 =
      [TraceItem.handled 0 EventKind.TaskFailed, TraceItem.op 0 (Op.sendAudio 360 0)] := by
  decide

/-- C11, amended: the send loop does not read the state of the session. For a
worker in the send loop, the iteration that follows a handled TaskFailed event
performs the same operations and reaches the same control point, file position
and send count as without the event; in particular it sends the next frame
whenever data remain and `sendAudio` returns a non-negative value, and it leaves
the loop when `sendAudio` returns a negative value. -/
theorem send_loop_ignores_taskFailed (cfg : Config) (g : Globals) (wk : Worker)
    (ev : NlsEvent) (env : CbEnv) (ret : Int) (u : Nat) (hpc : wk.pc = Pc.sending) :
    (deliver g wk .TaskFailed ev env).2.pc = Pc.sending ∧
    (workerStep cfg (deliver g wk .TaskFailed ev env).1 (deliver g wk .TaskFailed ev env).2
      (.frame ret u)).ops = (workerStep cfg g wk (.frame ret u)).ops ∧
    (workerStep cfg (deliver g wk .TaskFailed ev env).1 (deliver g wk .TaskFailed ev env).2
      (.frame ret u)).wk.pc = (workerStep cfg g wk (.frame ret u)).wk.pc ∧
    (workerStep cfg (deliver g wk .TaskFailed ev env).1 (deliver g wk .TaskFailed ev env).2
      (.frame ret u)).wk.filePos = (workerStep cfg g wk (.frame ret u)).wk.filePos ∧
    (workerStep cfg (deliver g wk .TaskFailed ev env).1 (deliver g wk .TaskFailed ev env).2
      (.frame ret u)).wk.sendAudio_cnt = (workerStep cfg g wk (.frame ret u)).wk.sendAudio_cnt ∧
    (0 < min cfg.frame_size.toNat (wk.fileLen.getD 0 - wk.filePos) →
      ((workerStep cfg (deliver g wk .TaskFailed ev env).1
          (deliver g wk .TaskFailed ev env).2 (.frame ret u)).ops.filter
            Op.isSendAudio).length = 1 ∧
      (ret < 0 → (workerStep cfg (deliver g wk .TaskFailed ev env).1
          (deliver g wk .TaskFailed ev env).2 (.frame ret u)).wk.pc = Pc.stopping)) := by
  obtain ⟨cb, s, hd⟩ := deliver_taskFailed_worker g wk ev env
  have hpc2 : (deliver g wk .TaskFailed ev env).2.pc = Pc.sending := by rw [hd]; exact hpc
  obtain ⟨e1, e2, e3, e4⟩ := sendFrame_ignores_callback_state cfg wk cb s ret u
  rw [workerStep_frame _ _ _ _ _ hpc2, workerStep_frame _ _ _ _ _ hpc, hd]
  refine ⟨hpc, e1, e2, e3, e4, ?_⟩
  intro hn
  simp only [e1, e2]
  unfold sendFrame
  simp only
  rw [if_neg (by omega)]
  constructor
  · split_ifs <;> simp [List.filter_cons, Op.isSendAudio]
  · intro hr
    simp [hr]

/-- The instance of `send_loop_ignores_taskFailed` for a worker at the beginning of
a file of 1000 bytes. -/
theorem send_loop_ignores_taskFailed_witness :
    ((workerStep {} (deliver Globals.init sendingWorker0 .TaskFailed NlsEvent.blank
        CbEnv.blank).1 (deliver Globals.init sendingWorker0 .TaskFailed NlsEvent.blank
        CbEnv.blank).2 (.frame 0 10)).ops.filter Op.isSendAudio).length = 1 :=
  ((send_loop_ignores_taskFailed {} Globals.init sendingWorker0 NlsEvent.blank CbEnv.blank
    0 10 rfl).2.2.2.2.2 (by decide)).1

/-! ## Strings as bytes -/

theorem utf8_append (a b : String) : utf8 (a ++ b) = utf8 a ++ utf8 b := by
  simp [utf8, String.data_append, List.flatMap_append]

theorem byte_ofNat_ne_zero (n : Nat) (h1 : 0 < n) (h2 : n ≤ 127) : UInt8.ofNat n ≠ 0 := by
  interval_cases n <;> decide

theorem byte_ofNat_or_ne_zero (n : Nat) (h : n < 256) :
    UInt8.ofNat n ||| 192 ≠ 0 ∧ UInt8.ofNat n ||| 128 ≠ 0 ∧ UInt8.ofNat n ||| 224 ≠ 0 ∧
    UInt8.ofNat n ||| 240 ≠ 0 := by
  interval_cases n <;> decide

theorem byte_or_ne_zero (x : UInt8) :
    x ||| 192 ≠ 0 ∧ x ||| 128 ≠ 0 ∧ x ||| 224 ≠ 0 ∧ x ||| 240 ≠ 0 := by
  have h := byte_ofNat_or_ne_zero x.toNat x.toNat_lt
  have e : UInt8.ofNat x.toNat = x := by
    apply UInt8.ext
    show (BitVec.ofNat 8 x.toNat).toNat = x.toNat
    rw [BitVec.toNat_ofNat]
    exact Nat.mod_eq_of_lt x.toNat_lt
  rw [e] at h
  exact h

/-- The UTF-8 encoding of a character other than NUL contains no NUL byte. -/
theorem utf8EncodeChar_ne_zero (c : Char) (h0 : c ≠ '\x00') :
    ∀ b ∈ String.utf8EncodeChar c, b ≠ 0 := by
  intro b hb
  unfold String.utf8EncodeChar at hb
  simp only at hb
  split_ifs at hb with h1 h2 h3
  · simp only [List.mem_singleton] at hb
    subst hb
    have hle : c.val.toNat ≤ 127 := h1
    have hpos : 0 < c.val.toNat := by
      rcases Nat.eq_zero_or_pos c.val.toNat with h | h
      · exfalso
        apply h0
        apply Char.ext
        apply UInt32.ext
        simpa using h
      · exact h
    exact byte_ofNat_ne_zero _ hpos hle
  · simp only [List.mem_cons, List.mem_singleton, List.not_mem_nil, or_false] at hb
    rcases hb with rfl | rfl
    · exact (byte_or_ne_zero _).1
    · exact (byte_or_ne_zero _).2.1
  · simp only [List.mem_cons, List.mem_singleton, List.not_mem_nil, or_false] at hb
    rcases hb with rfl | rfl | rfl
    · exact (byte_or_ne_zero _).2.2.1
    · exact (byte_or_ne_zero _).2.1
    · exact (byte_or_ne_zero _).2.1
  · simp only [List.mem_cons, List.mem_singleton, List.not_mem_nil, or_false] at hb
    rcases hb with rfl | rfl | rfl | rfl
    · exact (byte_or_ne_zero _).2.2.2
    · exact (byte_or_ne_zero _).2.1
    · exact (byte_or_ne_zero _).2.1
    · exact (byte_or_ne_zero _).2.1

/-- The bytes of a string without a NUL character contain no NUL byte. -/
theorem utf8_ne_zero (s : String) (h : '\x00' ∉ s.data) : ∀ b ∈ utf8 s, b ≠ 0 := by
  intro b hb
  unfold utf8 at hb
  obtain ⟨c, hc, hbc⟩ := List.mem_flatMap.mp hb
  exact utf8EncodeChar_ne_zero c (fun e => h (e ▸ hc)) b hbc

theorem cString_eq_self (bs : List UInt8) (h : ∀ b ∈ bs, b ≠ 0) : cString bs = bs := by
  unfold cString
  rw [List.takeWhile_eq_self_iff]
  intro b hb
  simpa using h b hb

theorem cString_ne_zero (bs : List UInt8) : ∀ b ∈ cString bs, b ≠ 0 := by
  intro b hb
  unfold cString at hb
  simpa using List.mem_takeWhile_imp hb

/-- A C string followed by a NUL byte is read back as it is. -/
theorem cString_append_zero (bs rest : List UInt8) (h : ∀ b ∈ bs, b ≠ 0) :
    cString (bs ++ 0 :: rest) = bs := by
  unfold cString
  induction bs with
  | nil => simp [List.takeWhile]
  | cons a l ih =>
    have ha : a ≠ 0 := h a (List.mem_cons_self _ _)
    have hl : ∀ b ∈ l, b ≠ 0 := fun b hb => h b (List.mem_cons_of_mem _ hb)
    simp [ha, ih hl]

/-- A string without a NUL character is a C string as a whole. -/
theorem c_str_eq_utf8 (s : String) (h : '\x00' ∉ s.data) : c_str s = utf8 s :=
  cString_eq_self _ (utf8_ne_zero s h)

/-! ## The failure log line -/

theorem digitChar_isDigit (m : Nat) (h : m < 10) : (Nat.digitChar m).isDigit = true := by
  interval_cases m <;> decide

theorem toDigitsCore_shape (fuel : Nat) : ∀ (n w : Nat) (ds : List Char),
    n < fuel → n < 10 ^ w → 0 < w → (∀ c ∈ ds, c.isDigit = true) →
    ds.length < (Nat.toDigitsCore 10 fuel n ds).length ∧
    (Nat.toDigitsCore 10 fuel n ds).length ≤ ds.length + w ∧
    ∀ c ∈ Nat.toDigitsCore 10 fuel n ds, c.isDigit = true := by
  induction fuel with
  | zero => intro n w ds h; omega
  | succ fuel ih =>
    intro n w ds hf hw hpos hds
    have hd : ∀ c ∈ Nat.digitChar (n % 10) :: ds, c.isDigit = true := by
      intro c hc
      rcases List.mem_cons.mp hc with rfl | hc
      · exact digitChar_isDigit _ (Nat.mod_lt _ (by decide))
      · exact hds c hc
    unfold Nat.toDigitsCore
    simp only
    split_ifs with h0
    · refine ⟨by simp, by simp; omega, hd⟩
    · have hn10 : 10 ≤ n := by omega
      have hw2 : 2 ≤ w := by
        rcases Nat.lt_or_ge w 2 with h | h
        · have : w = 1 := by omega
          subst this
          simp at hw
          omega
        · exact h
      have hlt : n / 10 < 10 ^ (w - 1) := by
        apply Nat.div_lt_of_lt_mul
        have : 10 ^ w = 10 * 10 ^ (w - 1) := by
          rw [← Nat.pow_succ']
          congr 1
          omega
        omega
      obtain ⟨i1, i2, i3⟩ := ih (n / 10) (w - 1) (Nat.digitChar (n % 10) :: ds) (by omega) hlt
        (by omega) hd
      simp only [List.length_cons] at i1 i2
      exact ⟨by omega, by omega, i3⟩

/-- A value of at most `w` digits is printed by `%0wd` as a field of `w` digits. -/
theorem fmtZeroPad_field (w : Nat) (v : Int) (h0 : 0 ≤ v) (hw : v < 10 ^ w) (hpos : 0 < w) :
    IsDigitField w (fmtZeroPad w v) := by
  have hn : v.natAbs < 10 ^ w := by
    have : (v.natAbs : Int) = v := Int.natAbs_of_nonneg h0
    have h2 : ((v.natAbs : Nat) : Int) < ((10 ^ w : Nat) : Int) := by
      rw [this]; push_cast; exact hw
    exact Int.ofNat_lt.mp h2
  obtain ⟨s1, s2, s3⟩ := toDigitsCore_shape (v.natAbs + 1) v.natAbs w [] (by omega) hn hpos
    (by simp)
  simp only [List.length_nil, Nat.zero_add] at s1 s2
  unfold fmtZeroPad IsDigitField
  simp only [not_lt.mpr h0, if_false, Nat.toDigits]
  constructor
  · simp only [List.length_append, List.length_replicate]; omega
  · intro c hc
    rcases List.mem_append.mp hc with hc | hc
    · rw [List.eq_of_mem_replicate hc]; decide
    · exact s3 c hc

theorem timestamp_str_shape (ltm : Tm) (tv_usec : Int)
    (hy : 0 ≤ ltm.tm_year + 1900 ∧ ltm.tm_year + 1900 ≤ 9999)
    (hmon : 0 ≤ ltm.tm_mon ∧ ltm.tm_mon ≤ 11) (hday : 1 ≤ ltm.tm_mday ∧ ltm.tm_mday ≤ 31)
    (hh : 0 ≤ ltm.tm_hour ∧ ltm.tm_hour ≤ 23) (hm : 0 ≤ ltm.tm_min ∧ ltm.tm_min ≤ 59)
    (hs : 0 ≤ ltm.tm_sec ∧ ltm.tm_sec ≤ 60) (hu : 0 ≤ tv_usec ∧ tv_usec ≤ 999999) :
    IsTimestamp (timestamp_str ltm tv_usec) := by
  have fY := fmtZeroPad_field 4 (ltm.tm_year + 1900) hy.1 (by norm_num; omega) (by decide)
  have fM := fmtZeroPad_field 2 (ltm.tm_mon + 1) (by omega) (by norm_num; omega) (by decide)
  have fD := fmtZeroPad_field 2 ltm.tm_mday (by omega) (by norm_num; omega) (by decide)
  have fh := fmtZeroPad_field 2 ltm.tm_hour hh.1 (by norm_num; omega) (by decide)
  have fm := fmtZeroPad_field 2 ltm.tm_min hm.1 (by norm_num; omega) (by decide)
  have fs := fmtZeroPad_field 2 ltm.tm_sec hs.1 (by norm_num; omega) (by decide)
  have fu := fmtZeroPad_field 6 tv_usec hu.1 (by norm_num; omega) (by decide)
  refine ⟨_, _, _, _, _, _, _, fY, fM, fD, fh, fm, fs, fu, ?_⟩
  unfold timestamp_str
  congr 1
  apply List.take_of_length_le
  simp only [List.length_append, fY.1, fM.1, fD.1, fh.1, fm.1, fs.1, fu.1, List.length_cons,
    List.length_nil]
  decide

/-- A timestamp of the shape `YYYY-MM-DD hh:mm:ss.uuuuuu` holds no NUL character. -/
theorem IsTimestamp.no_nul {s : String} (h : IsTimestamp s) : '\x00' ∉ s.data := by
  obtain ⟨Y, M, D, hh, m, sec, u, hY, hM, hD, hh2, hm, hsec, hu, rfl⟩ := h
  intro hmem
  simp only [List.mem_append, List.mem_singleton] at hmem
  have hd : ∀ (w : Nat) (l : List Char), IsDigitField w l → '\x00' ∉ l := by
    intro w l hl h0
    have := hl.2 _ h0
    revert this
    decide
  rcases hmem with ((((((((((((h | h) | h) | h) | h) | h) | h) | h) | h) | h) | h) | h) | h)
  · exact hd _ _ hY h
  · revert h; decide
  · exact hd _ _ hM h
  · revert h; decide
  · exact hd _ _ hD h
  · revert h; decide
  · exact hd _ _ hh2 h
  · revert h; decide
  · exact hd _ _ hm h
  · revert h; decide
  · exact hd _ _ hsec h
  · revert h; decide
  · exact hd _ _ hu h

/-- A line of at most 1023 bytes is written to the failure log as it is. -/
theorem failedLine_untruncated (ts : String) (ev : NlsEvent)
    (hfit : (c_str ts ++ utf8 " status code:" ++ utf8 (toString ev.statusCode) ++
      utf8 " task id:" ++ c_str ev.taskId ++ utf8 " error mesg:" ++ c_str ev.errorMessage ++
      utf8 "\n").length ≤ 1023) :
    failedLine ts ev = c_str ts ++ utf8 " status code:" ++ utf8 (toString ev.statusCode) ++
      utf8 " task id:" ++ c_str ev.taskId ++ utf8 " error mesg:" ++ c_str ev.errorMessage ++
      utf8 "\n" :=
  List.take_of_length_le hfit

/-- The line of the failure log as the bytes of one string, for a timestamp, a task
id and an error message without a NUL character. -/
theorem failedLine_utf8 (ts : String) (ev : NlsEvent) (h1 : '\x00' ∉ ts.data)
    (h2 : '\x00' ∉ ev.taskId.data) (h3 : '\x00' ∉ ev.errorMessage.data) :
    failedLine ts ev =
      (utf8 (ts ++ " status code:" ++ toString ev.statusCode ++ " task id:" ++ ev.taskId ++
        " error mesg:" ++ ev.errorMessage ++ "\n")).take 1023 := by
  unfold failedLine
  rw [c_str_eq_utf8 _ h1, c_str_eq_utf8 _ h2, c_str_eq_utf8 _ h3]
  simp only [utf8_append]

/-- C12, counterexample: for the TaskFailed event with status code 40000004, task
id `abc` and error message `idle` handled at 2026-11-01 18:55:07.123456, the line
written to the failure log is
`2026-11-01 18:55:07.123456 status code:40000004 task id:abc error mesg:idle`,
not `2026-11-01 18:55:07.123456 status_code:40000004 task_id:abc error_message:idle`. -/
theorem failure_log_line_has_other_keys :
    failedLine (timestamp_str tmExample 123456) failedEventExample =
      utf8 "2026-11-01 18:55:07.123456 status code:40000004 task id:abc error mesg:idle\n" ∧
    failedLine (timestamp_str tmExample 123456) failedEventExample ≠
      utf8 (timestamp_str tmExample 123456 ++
        " status_code:40000004 task_id:abc error_message:idle\n") := by
  decide

/-- C12, amended: for every TaskFailed event with status code `c`, task id `t` and
error message `m`, when the log file can be opened, `onTaskFailed` appends exactly
one block to the failure log; it holds the bytes of
`<timestamp> status code:<c> task id:<t> error mesg:<m>` followed by a newline,
cut after 1023 bytes (so it is exactly this line when the line has at most 1023
bytes, and it never has more than 1023 bytes), where `<timestamp>` is the string
produced by `timestamp_str`, which has the shape `YYYY-MM-DD hh:mm:ss.uuuuuu` for
every calendar time up to the year 9999. -/
theorem failure_log_line (g : Globals) (cbEvent : NlsEvent) (cbParam : Option ParamCallBack)
    (env : CbEnv) (ltm : Tm) (tv_usec : Int)
    (hopen : env.fopenOk = true) (hts : env.ts = timestamp_str ltm tv_usec)
    (hy : 0 ≤ ltm.tm_year + 1900 ∧ ltm.tm_year + 1900 ≤ 9999)
    (hmon : 0 ≤ ltm.tm_mon ∧ ltm.tm_mon ≤ 11) (hday : 1 ≤ ltm.tm_mday ∧ ltm.tm_mday ≤ 31)
    (hh : 0 ≤ ltm.tm_hour ∧ ltm.tm_hour ≤ 23) (hm : 0 ≤ ltm.tm_min ∧ ltm.tm_min ≤ 59)
    (hs : 0 ≤ ltm.tm_sec ∧ ltm.tm_sec ≤ 60) (hu : 0 ≤ tv_usec ∧ tv_usec ≤ 999999)
    (ht : '\x00' ∉ cbEvent.taskId.data) (hmsg : '\x00' ∉ cbEvent.errorMessage.data) :
    (onTaskFailed g cbEvent cbParam env).g.failedLog =
      g.failedLog ++ [failedLine (timestamp_str ltm tv_usec) cbEvent] ∧
    failedLine (timestamp_str ltm tv_usec) cbEvent =
      (utf8 (timestamp_str ltm tv_usec ++ " status code:" ++ toString cbEvent.statusCode ++
        " task id:" ++ cbEvent.taskId ++ " error mesg:" ++ cbEvent.errorMessage ++
        "\n")).take 1023 ∧
    (failedLine (timestamp_str ltm tv_usec) cbEvent).length ≤ 1023 ∧
    ((utf8 (timestamp_str ltm tv_usec ++ " status code:" ++ toString cbEvent.statusCode ++
        " task id:" ++ cbEvent.taskId ++ " error mesg:" ++ cbEvent.errorMessage ++
        "\n")).length ≤ 1023 →
      failedLine (timestamp_str ltm tv_usec) cbEvent =
        utf8 (timestamp_str ltm tv_usec ++ " status code:" ++ toString cbEvent.statusCode ++
          " task id:" ++ cbEvent.taskId ++ " error mesg:" ++ cbEvent.errorMessage ++ "\n")) ∧
    IsTimestamp (timestamp_str ltm tv_usec) := by
  have hshape := timestamp_str_shape ltm tv_usec hy hmon hday hh hm hs hu
  have hline := failedLine_utf8 _ cbEvent hshape.no_nul ht hmsg
  refine ⟨?_, hline, ?_, ?_, hshape⟩
  · rw [← hts]
    unfold onTaskFailed
    rcases cbParam with _ | cb
    · simp [hopen]
    · rcases h : cb.tParam with _ | t
      · simp [h, hopen]
      · simp [h, hopen, vectorSetFailed_log, vectorSetResult_log]
  · unfold failedLine
    exact List.length_take_le _ _
  · intro hfit
    rw [hline]
    exact List.take_of_length_le hfit

/-- The instance of `failure_log_line` for the event and time of
`failure_log_line_has_other_keys`, delivered to the first worker. -/
theorem failure_log_line_witness :
    (onTaskFailed Globals.init failedEventExample (some cbParam0)
      { CbEnv.blank with ts := timestamp_str tmExample 123456 }).g.failedLog =
      Globals.init.failedLog ++ [failedLine (timestamp_str tmExample 123456) failedEventExample] ∧
    IsTimestamp (timestamp_str tmExample 123456) :=
  have h := failure_log_line Globals.init failedEventExample (some cbParam0)
    { CbEnv.blank with ts := timestamp_str tmExample 123456 } tmExample 123456 rfl rfl
    (by decide) (by decide) (by decide) (by decide) (by decide) (by decide) (by decide)
    (by decide) (by decide)
  ⟨h.1, h.2.2.2.2⟩

/-! ## Iterations whose `start()` fails -/

/-- A worker that has left its `do` loop changes no global, stays outside the loop
and calls none of `start()`, `cancel()`, `sendAudio()`, `stop()`. -/
theorem workerRun_after_loop (cfg : Config) (inps : List WorkerInput) :
    ∀ (g : Globals) (wk : Worker), (wk.pc = Pc.leaving ∨ wk.pc = Pc.exited) →
      ((workerRun cfg g wk inps).wk.pc = Pc.leaving ∨
        (workerRun cfg g wk inps).wk.pc = Pc.exited) ∧
      (workerRun cfg g wk inps).g = g ∧
      (workerRun cfg g wk inps).ops.filter
        (fun o => o.isCancel || o.isSendAudio || o.isStop || o.isStart) = [] := by
  induction inps with
  | nil => intro g wk hpc; exact ⟨hpc, rfl, rfl⟩
  | cons inp rest ih =>
    intro g wk hpc
    have h1 := workerStep_after_loop cfg g wk inp hpc
    have hg : (workerStep cfg g wk inp).g = g := by
      unfold workerStep pthreadFunction pthreadLongConnectionFunction
      rcases hpc with hpc | hpc <;> by_cases hlong : cfg.longConnection = true <;>
        cases inp <;> simp [hlong, hpc, finishWorker]
    have h2 := ih (workerStep cfg g wk inp).g (workerStep cfg g wk inp).wk h1.1
    try simp only [workerRun]
    refine ⟨h2.1, by rw [h2.2.1, hg], ?_⟩
    rw [List.filter_append, h1.2.2, h2.2.2]
    rfl

/-- C13: in an iteration of either worker function in which `start()` is called
(the request exists and, for the long-connection worker, the audio file opens)
and returns a negative value, the worker increments `run_start_failed` by exactly
one (and `run_cnt` by one), leaves `run_cancel`, `run_success` and `run_fail`
unchanged, and leaves its `do` loop at once: it enters neither wait, and neither
in this iteration nor in anything it does afterwards calls `cancel()`,
`sendAudio()` or `stop()` (or `start()` again) or changes a global; the request is
released exactly once (in the iteration itself by the per-request worker, after
the loop by the long-connection worker), and the worker returns. -/
theorem start_failure_iteration (cfg : Config) (g : Globals) (wk : Worker) (createOk : Bool)
    (ret : Int) (now : Timeval) (hpc : wk.pc = Pc.loopTop) (hret : ret < 0)
    (hreq : cfg.longConnection = false → createOk = true)
    (hfile : cfg.longConnection = true → wk.fileLen ≠ none) :
    (workerStep cfg g wk (.begin createOk ret now)).g.run_start_failed =
      g.run_start_failed + 1 ∧
    (workerStep cfg g wk (.begin createOk ret now)).g.run_cnt = g.run_cnt + 1 ∧
    (workerStep cfg g wk (.begin createOk ret now)).g.run_cancel = g.run_cancel ∧
    (workerStep cfg g wk (.begin createOk ret now)).g.run_success = g.run_success ∧
    (workerStep cfg g wk (.begin createOk ret now)).g.run_fail = g.run_fail ∧
    (workerStep cfg g wk (.begin createOk ret now)).wk.pc = Pc.leaving ∧
    (workerStep cfg g wk (.begin createOk ret now)).ops.filter Op.isStart = [Op.start ret] ∧
    (workerStep cfg g wk (.begin createOk ret now)).ops.filter
      (fun o => o.isCancel || o.isSendAudio || o.isStop) = [] ∧
    (∀ inps : List WorkerInput,
      ((workerRun cfg (workerStep cfg g wk (.begin createOk ret now)).g
          (workerStep cfg g wk (.begin createOk ret now)).wk inps).wk.pc = Pc.leaving ∨
        (workerRun cfg (workerStep cfg g wk (.begin createOk ret now)).g
          (workerStep cfg g wk (.begin createOk ret now)).wk inps).wk.pc = Pc.exited) ∧
      (workerRun cfg (workerStep cfg g wk (.begin createOk ret now)).g
          (workerStep cfg g wk (.begin createOk ret now)).wk inps).g =
        (workerStep cfg g wk (.begin createOk ret now)).g ∧
      (workerRun cfg (workerStep cfg g wk (.begin createOk ret now)).g
          (workerStep cfg g wk (.begin createOk ret now)).wk inps).ops.filter
        (fun o => o.isCancel || o.isSendAudio || o.isStop || o.isStart) = []) ∧
    (workerRun cfg g wk [.begin createOk ret now, .finish]).wk.pc = Pc.exited ∧
    (workerRun cfg g wk [.begin createOk ret now, .finish]).ops.filter Op.isRelease =
      [Op.releaseRequest] := by
  have hleave : (workerStep cfg g wk (.begin createOk ret now)).wk.pc = Pc.leaving := by
    unfold workerStep pthreadFunction pthreadLongConnectionFunction
    by_cases hlong : cfg.longConnection = true
    · rcases hf : wk.fileLen with _ | size
      · exact absurd hf (hfile hlong)
      · simp [hlong, hpc, hret, hf, Worker.modTst]
    · simp only [Bool.not_eq_true] at hlong
      simp [hlong, hpc, hret, hreq hlong, Worker.modTst]
  have hT : (requestSettings cfg).filter Op.isStart = [] := (requestSettings_counts cfg).1
  have hS : (requestSettings cfg).filter
      (fun o => o.isCancel || o.isSendAudio || o.isStop) = [] := by
    unfold requestSettings
    split_ifs <;> simp [List.filter_cons, Op.isCancel, Op.isSendAudio, Op.isStop]
  have hR : (requestSettings cfg).filter Op.isRelease = [] := by
    unfold requestSettings
    split_ifs <;> simp [List.filter_cons, Op.isRelease]
  refine ⟨?_, ?_, ?_, ?_, ?_, hleave, ?_, ?_,
    fun inps => workerRun_after_loop cfg inps _ _ (Or.inl hleave), ?_, ?_⟩
  all_goals
    try simp only [workerRun]
    unfold workerStep pthreadFunction pthreadLongConnectionFunction
    by_cases hlong : cfg.longConnection = true
    · rcases hf : wk.fileLen with _ | size
      · exact absurd hf (hfile hlong)
      · simp [hlong, hpc, hret, hf, Worker.modTst, vectorSetParams_counters, finishWorker,
          Op.isStart, Op.isCancel, Op.isSendAudio, Op.isStop, Op.isRelease, List.filter_cons]
    · simp only [Bool.not_eq_true] at hlong
      simp [hlong, hpc, hret, hreq hlong, Worker.modTst, finishWorker, hT, hS, hR,
        Op.isStart, Op.isCancel, Op.isSendAudio, Op.isStop, Op.isRelease, List.filter_cons]
        <;> simpa [Op.isCancel, Op.isSendAudio, Op.isStop] using hS

/-- The instance of `start_failure_iteration` for a per-request worker whose
`start()` returns -1. -/
theorem start_failure_iteration_witness :
    (workerStep {} Globals.init loopTopWorker0 (.begin true (-1) ⟨100, 0⟩)).g.run_start_failed
      = 1 ∧
    (workerRun {} Globals.init loopTopWorker0 [.begin true (-1) ⟨100, 0⟩, .finish]).ops =
      [Op.createRequest true, Op.setFormat "opus", Op.setSampleRate 16000, Op.start (-1),
        Op.releaseRequest, Op.deleteCbParam] :=
  ⟨(start_failure_iteration {} Globals.init loopTopWorker0 true (-1) ⟨100, 0⟩ rfl
      (by decide) (fun _ => rfl) (fun h => absurd h (by decide))).1, by decide⟩

/-! ## The aggregation of the start latencies -/

/-- C14, counterexample: when the two workers record the start latencies 0 ms and
5 ms, the aggregation reports the minimum start time 5, not `min 0 5 = 0`; when
both record `2 ^ 63` ms, it reports the average start time 0, not `2 ^ 63`. -/
theorem aggregate_min_skips_zero_latency :
    (aggregate [recordStarted pa0 0, recordStarted pa0 5]).map Totals.sMinTime = some 5 ∧
    min 0 5 = 0 ∧
    (aggregate [recordStarted pa0 (2 ^ 63), recordStarted pa0 (2 ^ 63)]).map Totals.sAveTime
      = some 0 ∧
    (2 ^ 63 + 2 ^ 63) / 2 = 2 ^ 63 := by
  decide

/-- C14, amended: for every pair of start latencies `a` and `b` with
`a + b < 2 ^ 64` of which the first is positive unless both are 0, recorded once
each by two workers whose start statistics were empty, the aggregation reports
the started count 2, the minimum `min a b`, the maximum `max a b` and the average
`(a + b) / 2`. -/
theorem aggregate_two_latencies (p q : ParamStruct) (a b : Nat)
    (hp : (startView p).Fresh) (hq : (startView q).Fresh)
    (hsum : a + b < U64) (hzero : a = 0 → b = 0) :
    ∃ T, aggregate [recordStarted p a, recordStarted q b] = some T ∧
      T.sTotalCount = 2 ∧ T.sMinTime = min a b ∧ T.sMaxTime = max a b ∧
      T.sAveTime = (a + b) / 2 := by
  obtain ⟨hp1, hp2, hp3, hp4⟩ := hp
  obtain ⟨hq1, hq2, hq3, hq4⟩ := hq
  simp only [startView] at hp1 hp2 hp3 hp4 hq1 hq2 hq3 hq4
  have hU : U64 = 18446744073709551616 := rfl
  have ha : a % 18446744073709551616 = a := Nat.mod_eq_of_lt (by omega)
  have hb : b % 18446744073709551616 = b := Nat.mod_eq_of_lt (by omega)
  have hab : (a + b) % 18446744073709551616 = a + b := Nat.mod_eq_of_lt (by omega)
  refine ⟨_, by simp [aggregate, U64]; rfl, ?_, ?_, ?_, ?_⟩
  · simp [Totals.add, Totals.zero, recordStarted, hp1, hq1, U64]
  · simp only [List.foldl, Totals.add, Totals.zero, recordStarted, hp4, hq4]
    simp only [if_true]
    split_ifs <;> omega
  · simp only [List.foldl, Totals.add, Totals.zero, recordStarted, hp3, hq3]
    split_ifs <;> omega
  · simp [Totals.add, Totals.zero, recordStarted, hp1, hq1, hp2, hq2, U64, ha, hb, hab]

/-- The instance of `aggregate_two_latencies` for the latencies 7 ms and 4 ms. -/
theorem aggregate_two_latencies_witness :
    ∃ T, aggregate [recordStarted pa0 7, recordStarted pa0 4] = some T ∧
      T.sTotalCount = 2 ∧ T.sMinTime = min 7 4 ∧ T.sMaxTime = max 7 4 ∧
      T.sAveTime = (7 + 4) / 2 :=
  aggregate_two_latencies pa0 pa0 7 4 ⟨rfl, rfl, rfl, rfl⟩ ⟨rfl, rfl, rfl, rfl⟩ (by decide)
    (by decide)

/-! ## The keys of the statistics map -/

theorem statKeys_statUpdate (m : List (Nat × ParamStatistics)) (pid : Nat)
    (f : ParamStatistics → ParamStatistics) : statKeys (statUpdate m pid f) = statKeys m := by
  induction m with
  | nil => rfl
  | cons kv rest ih =>
    obtain ⟨k, v⟩ := kv
    unfold statUpdate
    split_ifs
    · rfl
    · simp only [statKeys, List.map_cons] at ih ⊢
      rw [ih]

theorem statFind_none_iff (m : List (Nat × ParamStatistics)) (pid : Nat) :
    statFind m pid = none ↔ pid ∉ statKeys m := by
  induction m with
  | nil => simp [statFind, statKeys]
  | cons kv rest ih =>
    obtain ⟨k, v⟩ := kv
    unfold statFind
    by_cases h : k = pid
    · simp [h, statKeys]
    · simp only [h, if_false, ih, statKeys, List.map_cons, List.mem_cons]
      constructor
      · rintro h1 (h2 | h2)
        · exact h h2.symm
        · exact h1 h2
      · intro h1 h2
        exact h1 (Or.inr h2)

theorem vectorStartStore_keys (g : Globals) (pid : Nat) (tv : Timeval) :
    statKeys (vectorStartStore g pid tv).g_statistics = statKeys g.g_statistics := by
  unfold vectorStartStore
  split
  · exact statKeys_statUpdate _ _ _
  · rfl

theorem vectorSetRunning_keys (g : Globals) (pid : Nat) (r : Bool) :
    statKeys (vectorSetRunning g pid r).g_statistics = statKeys g.g_statistics := by
  unfold vectorSetRunning
  split
  · exact statKeys_statUpdate _ _ _
  · rfl

theorem vectorSetResult_keys (g : Globals) (pid : Nat) (r : Bool) (tv : Timeval) :
    statKeys (vectorSetResult g pid r tv).g_statistics = statKeys g.g_statistics := by
  unfold vectorSetResult
  split
  · exact statKeys_statUpdate _ _ _
  · rfl

theorem vectorSetFailed_keys (g : Globals) (pid : Nat) (r : Bool) :
    statKeys (vectorSetFailed g pid r).g_statistics = statKeys g.g_statistics := by
  unfold vectorSetFailed
  split
  · exact statKeys_statUpdate _ _ _
  · rfl

theorem vectorSetParams_keys (g : Globals) (pid : Nat) (add r s : Bool) (a : Nat) :
    statKeys (vectorSetParams g pid add r s a).g_statistics =
      if add = true ∧ pid ∉ statKeys g.g_statistics then statKeys g.g_statistics ++ [pid]
      else statKeys g.g_statistics := by
  unfold vectorSetParams
  split
  · next v hv =>
    have hin : ¬ pid ∉ statKeys g.g_statistics := by
      rw [← statFind_none_iff, hv]
      simp
    simp only [hin, and_false, if_false]
    exact statKeys_statUpdate _ _ _
  · next hv =>
    have hout : pid ∉ statKeys g.g_statistics := (statFind_none_iff _ _).mp hv
    by_cases hadd : add = true
    · have hc : add = true ∧ pid ∉ statKeys g.g_statistics := And.intro hadd hout
      simp only [statKeys] at hc ⊢
      rw [if_pos hc]
      simp [hadd]
    · simp [hadd]

theorem KeysKept.refl (g : Globals) : KeysKept g g := ⟨[], by simp⟩

theorem KeysKept.of_eq {g g2 : Globals}
    (h : statKeys g2.g_statistics = statKeys g.g_statistics) : KeysKept g g2 :=
  ⟨[], by simp [h]⟩

theorem KeysKept.trans {g g2 g3 : Globals} (h1 : KeysKept g g2) (h2 : KeysKept g2 g3) :
    KeysKept g g3 := by
  obtain ⟨e1, h1⟩ := h1
  obtain ⟨e2, h2⟩ := h2
  exact ⟨e1 ++ e2, by rw [h2, h1, List.append_assoc]⟩

theorem vectorSetParams_keysKept (g : Globals) (pid : Nat) (add r s : Bool) (a : Nat) :
    KeysKept g (vectorSetParams g pid add r s a) := by
  unfold KeysKept
  rw [vectorSetParams_keys]
  split_ifs
  · exact ⟨[pid], rfl⟩
  · exact ⟨[], by simp⟩

theorem dispatch_keysKept (k : EventKind) (g : Globals) (ev : NlsEvent)
    (cb : Option ParamCallBack) (env : CbEnv) : KeysKept g (dispatch k g ev cb env).g := by
  cases k <;>
    simp only [dispatch, onTranscriptionStarted, onSentenceBegin, onSentenceEnd,
      onTranscriptionResultChanged, onTranscriptionCompleted, onTaskFailed, onChannelClosed]
  all_goals
    rcases cb with _ | cb
    · exact KeysKept.of_eq rfl
    · rcases h : cb.tParam with _ | t
      all_goals try simp only [h]
      all_goals first
        | exact KeysKept.of_eq rfl
        | exact vectorSetParams_keysKept _ _ _ _ _ _
        | exact KeysKept.of_eq (by simp [vectorSetResult_keys, vectorSetFailed_keys])
        | (split_ifs <;> exact KeysKept.of_eq rfl)

theorem workerStep_keysKept (cfg : Config) (g : Globals) (wk : Worker) (inp : WorkerInput) :
    KeysKept g (workerStep cfg g wk inp).g := by
  have hv := fun pid a => vectorSetParams_keysKept g pid true false false a
  unfold workerStep pthreadFunction pthreadLongConnectionFunction
  cases inp <;> by_cases hlong : cfg.longConnection = true <;> cases hpc : wk.pc <;>
    simp only [hlong, hpc, if_true, if_false, Bool.false_eq_true, endIteration, finishWorker]
  all_goals first
    | exact KeysKept.refl g
    | (split <;> (try split_ifs) <;>
        first | exact KeysKept.refl g | exact KeysKept.of_eq rfl | exact hv _ _)

theorem deliver_keysKept (g : Globals) (wk : Worker) (k : EventKind) (ev : NlsEvent)
    (env : CbEnv) : KeysKept g (deliver g wk k ev env).1 :=
  dispatch_keysKept k g ev (some wk.cbParam) env

theorem step_keysKept (cfg : Config) (w : World) (a : Action) :
    KeysKept w.g (step cfg w a).g := by
  cases a with
  | worker i inp =>
    simp only [step]
    split
    · exact KeysKept.refl _
    · exact workerStep_keysKept cfg w.g _ inp
  | event i k ev env =>
    simp only [step]
    split
    · exact KeysKept.refl _
    · split_ifs
      · exact deliver_keysKept w.g _ k ev env
      · exact KeysKept.refl _
  | stopRun => exact KeysKept.of_eq rfl

theorem run_keysKept (cfg : Config) (acts : List Action) :
    ∀ w : World, KeysKept w.g (run cfg w acts).g := by
  induction acts with
  | nil => intro w; exact KeysKept.refl _
  | cons a rest ih => intro w; exact (step_keysKept cfg w a).trans (ih (step cfg w a))

/-- C16: each of `vectorStartStore`, `vectorSetRunning`, `vectorSetResult` and
`vectorSetFailed` leaves the list of pids of `g_statistics` unchanged;
`vectorSetParams` leaves it unchanged too, except that with `add = true` and a
pid that has no entry it appends exactly that pid; `vectorGetRunning` and
`vectorGetFailed` return a flag and cannot change the map (a pid for which they
return `true` has an entry). In every run from every state (any interleaving of
worker steps, event deliveries and stop requests) the pids present at the
beginning are still present at the end, in the same order, followed by the pids
added meanwhile. The end-of-run code of `main` leaves the map empty. -/
theorem statistics_keys_only_grow :
    (∀ g pid tv, statKeys (vectorStartStore g pid tv).g_statistics = statKeys g.g_statistics) ∧
    (∀ g pid add r s a, statKeys (vectorSetParams g pid add r s a).g_statistics =
      if add = true ∧ pid ∉ statKeys g.g_statistics then statKeys g.g_statistics ++ [pid]
      else statKeys g.g_statistics) ∧
    (∀ g pid r, statKeys (vectorSetRunning g pid r).g_statistics = statKeys g.g_statistics) ∧
    (∀ g pid r tv,
      statKeys (vectorSetResult g pid r tv).g_statistics = statKeys g.g_statistics) ∧
    (∀ g pid r, statKeys (vectorSetFailed g pid r).g_statistics = statKeys g.g_statistics) ∧
    (∀ g pid, (vectorGetRunning g pid = true ∨ vectorGetFailed g pid = true) →
      pid ∈ statKeys g.g_statistics) ∧
    (∀ cfg w acts, ∃ extra,
      statKeys (run cfg w acts).g.g_statistics = statKeys w.g.g_statistics ++ extra) ∧
    (∀ cfg w acts pid, pid ∈ statKeys w.g.g_statistics →
      pid ∈ statKeys (run cfg w acts).g.g_statistics) ∧
    (∀ g, (mainEndOfRun g).g_statistics = []) := by
  refine ⟨vectorStartStore_keys, vectorSetParams_keys, vectorSetRunning_keys,
    vectorSetResult_keys, vectorSetFailed_keys, ?_, fun cfg w acts => run_keysKept cfg acts w,
    ?_, ?_⟩
  · intro g pid h
    by_contra hout
    have hn := (statFind_none_iff g.g_statistics pid).mpr hout
    simp [vectorGetRunning, vectorGetFailed, hn] at h
  · intro cfg w acts pid hin
    obtain ⟨extra, he⟩ := run_keysKept cfg acts w
    rw [he]
    exact List.mem_append_left _ hin
  · intro g
    unfold mainEndOfRun
    simp only
    split_ifs with h
    · rfl
    · simp only [gt_iff_lt, List.length_pos, ne_eq, not_not] at h
      exact h

/-! ## The setting of the sentence silence -/

theorem requestSettings_silence (cfg : Config) :
    (requestSettings cfg).filter Op.isSetSilence =
      if 200 ≤ cfg.max_sentence_silence ∧ cfg.max_sentence_silence ≤ 2000 then
        [Op.setMaxSentenceSilence cfg.max_sentence_silence]
      else [] := by
  unfold requestSettings
  by_cases h1 : cfg.max_sentence_silence > 0
  · by_cases h2 : cfg.max_sentence_silence > 2000 ∨ cfg.max_sentence_silence < 200
    · have h3 : ¬ (200 ≤ cfg.max_sentence_silence ∧ cfg.max_sentence_silence ≤ 2000) := by omega
      simp [h1, h2, h3, List.filter_cons, Op.isSetSilence]
    · have h3 : 200 ≤ cfg.max_sentence_silence ∧ cfg.max_sentence_silence ≤ 2000 := by omega
      simp [h1, h2, h3, List.filter_cons, Op.isSetSilence]
  · have h3 : ¬ (200 ≤ cfg.max_sentence_silence ∧ cfg.max_sentence_silence ≤ 2000) := by omega
    simp [h1, h3, List.filter_cons, Op.isSetSilence]

theorem sendFrame_silence (cfg : Config) (wk : Worker) (ret : Int) (tmp_us : Nat) :
    (sendFrame cfg wk ret tmp_us).2.filter Op.isSetSilence = [] := by
  unfold sendFrame
  simp only
  split_ifs <;> simp [List.filter_cons, Op.isSetSilence]

/-- The calls of `setMaxSentenceSilence` in a worker step are those of the request
settings, which the step makes only when it configures the request. -/
theorem workerStep_silence (cfg : Config) (g : Globals) (wk : Worker) (inp : WorkerInput) :
    (workerStep cfg g wk inp).ops.filter Op.isSetSilence = [] ∨
    (workerStep cfg g wk inp).ops.filter Op.isSetSilence =
      (requestSettings cfg).filter Op.isSetSilence := by
  have hs := sendFrame_silence cfg wk
  unfold workerStep pthreadFunction pthreadLongConnectionFunction
  cases inp <;> by_cases hlong : cfg.longConnection = true <;> cases hpc : wk.pc <;>
    simp only [hlong, hpc, if_true, if_false, Bool.false_eq_true, endIteration, finishWorker]
  all_goals first
    | exact Or.inl rfl
    | exact Or.inl (hs _ _)
    | (split <;> (try split_ifs) <;>
        first
          | exact Or.inl rfl
          | (right; simp [List.filter_cons, List.filter_append, Op.isSetSilence]))

theorem mem_setSilence_iff (l : List Op) (x : Int) :
    Op.setMaxSentenceSilence x ∈ l ↔ Op.setMaxSentenceSilence x ∈ l.filter Op.isSetSilence := by
  simp [List.mem_filter, Op.isSetSilence]

/-- C20: with the configured value `v = max_sentence_silence`, the request settings
of a worker contain the call `setMaxSentenceSilence(v)` exactly once when
`200 ≤ v ≤ 2000` and contain no call of `setMaxSentenceSilence` otherwise (so
`setMaxSentenceSilence(x)` is called if and only if `x = v` and `200 ≤ v ≤ 2000`).
The per-request worker makes these settings in every iteration between creating
the request and `start()`; the long-connection worker makes them once after
creating its request; no step of a worker calls `setMaxSentenceSilence` with any
other value or when `v` is outside the range, and `start()` is called in either
case. -/
theorem max_sentence_silence_setting (cfg : Config) :
    ((requestSettings cfg).filter Op.isSetSilence =
      if 200 ≤ cfg.max_sentence_silence ∧ cfg.max_sentence_silence ≤ 2000 then
        [Op.setMaxSentenceSilence cfg.max_sentence_silence]
      else []) ∧
    (∀ x, Op.setMaxSentenceSilence x ∈ requestSettings cfg ↔
      (x = cfg.max_sentence_silence ∧ 200 ≤ x ∧ x ≤ 2000)) ∧
    (∀ g wk ret now, cfg.longConnection = false → wk.pc = Pc.loopTop →
      ∃ post, (workerStep cfg g wk (.begin true ret now)).ops =
        Op.createRequest true :: (requestSettings cfg ++ Op.start ret :: post) ∧
        post.filter Op.isSetSilence = []) ∧
    (∀ g wk, cfg.longConnection = true → wk.pc = Pc.created →
      (workerStep cfg g wk (.init true)).ops = Op.createRequest true :: requestSettings cfg) ∧
    (∀ g wk inp x, Op.setMaxSentenceSilence x ∈ (workerStep cfg g wk inp).ops →
      (x = cfg.max_sentence_silence ∧ 200 ≤ x ∧ x ≤ 2000)) := by
  have hmem : ∀ x, Op.setMaxSentenceSilence x ∈ (requestSettings cfg).filter Op.isSetSilence →
      (x = cfg.max_sentence_silence ∧ 200 ≤ x ∧ x ≤ 2000) := by
    intro x hx
    rw [requestSettings_silence] at hx
    split_ifs at hx with h
    · simp only [List.mem_singleton, Op.setMaxSentenceSilence.injEq] at hx
      subst hx
      exact ⟨rfl, h⟩
    · simp at hx
  refine ⟨requestSettings_silence cfg, ?_, ?_, ?_, ?_⟩
  · intro x
    constructor
    · intro hx
      exact hmem x ((mem_setSilence_iff _ x).mp hx)
    · rintro ⟨rfl, h1, h2⟩
      rw [mem_setSilence_iff, requestSettings_silence, if_pos ⟨h1, h2⟩]
      exact List.mem_singleton.mpr rfl
  · intro g wk ret now hlong hpc
    unfold workerStep pthreadFunction
    by_cases hret : ret < 0
    · exact ⟨[Op.releaseRequest], by simp [hlong, hpc, hret], rfl⟩
    · exact ⟨[], by simp [hlong, hpc, hret], rfl⟩
  · intro g wk hlong hpc
    unfold workerStep pthreadLongConnectionFunction
    simp [hlong, hpc]
  · intro g wk inp x hx
    rw [mem_setSilence_iff] at hx
    rcases workerStep_silence cfg g wk inp with h | h
    · rw [h] at hx
      simp at hx
    · rw [h] at hx
      exact hmem x hx

/-! ## The character arrays of a parameter block -/

theorem audioFileNames_getD (i : Nat) :
    audioFileNames.getD (i % 4) "" = "test" ++ toString (i % 4) ++ ".wav" := by
  have h : i % 4 < 4 := Nat.mod_lt _ (by decide)
  generalize i % 4 = k at h
  interval_cases k <;> rfl

theorem builtin_name_bytes (i : Nat) :
    c_str (audioFileNames.getD (i % 4) "") = utf8 ("test" ++ toString (i % 4) ++ ".wav") ∧
    (c_str (audioFileNames.getD (i % 4) "")).length = 9 := by
  have h : i % 4 < 4 := Nat.mod_lt _ (by decide)
  generalize i % 4 = k at h
  interval_cases k <;> decide

theorem length_memWrite (mem : List UInt8) (off : Nat) (bs : List UInt8)
    (h : off ≤ mem.length) : (memWrite mem off bs).length = mem.length := by
  unfold memWrite
  simp only [List.length_append, List.length_take, List.length_drop]
  omega

theorem length_memset0 (mem : List UInt8) (off n : Nat) (h : off ≤ mem.length) :
    (memset0 mem off n).length = mem.length :=
  length_memWrite mem off _ h

/-- A write leaves the bytes before its offset as they are. -/
theorem take_memWrite (mem : List UInt8) (off k : Nat) (bs : List UInt8)
    (hk : k ≤ off) (h : off ≤ mem.length) : (memWrite mem off bs).take k = mem.take k := by
  unfold memWrite
  rw [List.take_append_of_le_length (by rw [List.length_take]; omega), List.take_take,
    Nat.min_eq_left hk]

/-- A write at the beginning of zeroed memory. -/
theorem memWrite_zero (n : Nat) (bs : List UInt8) :
    memWrite (List.replicate n 0) 0 bs = (bs ++ List.replicate (n - bs.length) 0).take n := by
  unfold memWrite
  simp [List.drop_replicate]

/-- The call `strncpy` at the beginning of the zeroed block, for a C string that fits
into its `n ≤ 128` bytes. -/
theorem strncpy_zero (src : List UInt8) (n : Nat) (hs : src.length ≤ n) (hn : n ≤ 128) :
    (strncpy (List.replicate 512 0) 0 src n).length = 512 ∧
    (strncpy (List.replicate 512 0) 0 src n).take 128 =
      src ++ List.replicate (128 - src.length) 0 := by
  have e1 : src.take n = src := List.take_of_length_le hs
  have hbs : (src ++ List.replicate (n - src.length) (0 : UInt8)).length = n := by
    simp only [List.length_append, List.length_replicate]
    omega
  have e2 : src ++ List.replicate (n - src.length) (0 : UInt8) ++
      List.replicate (512 - n) 0 = src ++ List.replicate (512 - src.length) 0 := by
    rw [List.append_assoc, ← List.replicate_add]
    congr 2
    omega
  have e3 : strncpy (List.replicate 512 0) 0 src n =
      src ++ List.replicate (512 - src.length) 0 := by
    unfold strncpy
    rw [memWrite_zero, e1, hbs, e2]
    apply List.take_of_length_le
    simp only [List.length_append, List.length_replicate]
    omega
  rw [e3]
  constructor
  · simp only [List.length_append, List.length_replicate]
    omega
  · have hmin : min (128 - src.length) (512 - src.length) = 128 - src.length := by omega
    rw [List.take_append_eq_append_take, List.take_of_length_le (by omega),
      List.take_replicate, hmin]

/-- The array `fileName` of `pa[i]` after the initialisation, when the name to be
stored has fewer than `DEFAULT_STRING_LEN` bytes: the name, then NUL bytes. -/
theorem paArrays_fileName (cfg : Config) (i : Nat)
    (hlen : (c_str cfg.g_audio_path).length < DEFAULT_STRING_LEN) :
    (paArrays cfg i).take DEFAULT_STRING_LEN =
      (if cfg.g_audio_path = "" then c_str (audioFileNames.getD (i % 4) "")
        else c_str cfg.g_audio_path) ++
      List.replicate (DEFAULT_STRING_LEN -
        (if cfg.g_audio_path = "" then c_str (audioFileNames.getD (i % 4) "")
          else c_str cfg.g_audio_path).length) 0 := by
  have hz : memset0 (List.replicate (4 * DEFAULT_STRING_LEN) 0) 0 DEFAULT_STRING_LEN =
      List.replicate 512 0 := by
    show memWrite (List.replicate 512 0) 0 (List.replicate 128 0) = List.replicate 512 0
    rw [memWrite_zero, List.length_replicate, ← List.replicate_add]
    exact List.take_of_length_le (by rw [List.length_replicate])
  have hb := (builtin_name_bytes i).2
  have w : ∀ (m : List UInt8) (off : Nat) (bs : List UInt8), m.length = 512 → 128 ≤ off →
      off ≤ 512 → (memWrite m off bs).length = 512 ∧ (memWrite m off bs).take 128 = m.take 128 :=
    fun m off bs hm h1 h2 =>
      ⟨by rw [length_memWrite _ _ _ (by omega), hm], take_memWrite _ _ _ _ h1 (by omega)⟩
  -- the writes that follow the first two leave the first array as it is
  have rest : ∀ m1 : List UInt8, m1.length = 512 →
      (if cfg.g_url = "" then
        memset0 (memWrite (memset0 (memWrite (memset0 m1 128 128) 128 (utf8 cfg.g_token))
          (2 * 128) 128) (2 * 128) (c_str cfg.g_appkey)) (3 * 128) 128
      else memWrite
        (memset0 (memWrite (memset0 (memWrite (memset0 m1 128 128) 128 (utf8 cfg.g_token))
          (2 * 128) 128) (2 * 128) (c_str cfg.g_appkey)) (3 * 128) 128)
        (3 * 128) (utf8 cfg.g_url)).take 128 = m1.take 128 := by
    intro m1 l1
    unfold memset0
    obtain ⟨a1, a2⟩ := w m1 128 (List.replicate 128 0) l1 (by omega) (by omega)
    obtain ⟨b1, b2⟩ := w _ 128 (utf8 cfg.g_token) a1 (by omega) (by omega)
    obtain ⟨c1, c2⟩ := w _ (2 * 128) (List.replicate 128 0) b1 (by omega) (by omega)
    obtain ⟨d1, d2⟩ := w _ (2 * 128) (c_str cfg.g_appkey) c1 (by omega) (by omega)
    obtain ⟨e1, e2⟩ := w _ (3 * 128) (List.replicate 128 0) d1 (by omega) (by omega)
    obtain ⟨f1, f2⟩ := w _ (3 * 128) (utf8 cfg.g_url) e1 (by omega) (by omega)
    split_ifs
    · rw [e2, d2, c2, b2, a2]
    · rw [f2, e2, d2, c2, b2, a2]
  unfold paArrays
  simp only [hz]
  simp only [DEFAULT_STRING_LEN] at hlen ⊢
  by_cases hp : cfg.g_audio_path = ""
  · simp only [hp, if_true]
    obtain ⟨l1, t1⟩ := strncpy_zero (c_str (audioFileNames.getD (i % 4) ""))
      (c_str (audioFileNames.getD (i % 4) "")).length (le_refl _) (by rw [hb]; decide)
    rw [rest _ l1, t1]
  · simp only [hp, if_false]
    obtain ⟨l1, t1⟩ := strncpy_zero (c_str cfg.g_audio_path) 128 (by omega) (le_refl _)
    rw [rest _ l1, t1]

/-- The parts of a memory block, put together again. -/
theorem take_drop_parts (m : List UInt8) (n : Nat) :
    m.take n ++ (m.drop n).take n ++ (m.drop (2 * n)).take n ++ m.drop (3 * n) = m := by
  have e2 : m.drop (2 * n) = (m.drop n).drop n := by rw [List.drop_drop]; congr 1; omega
  have e3 : m.drop (3 * n) = ((m.drop n).drop n).drop n := by
    rw [List.drop_drop, List.drop_drop]; congr 1; omega
  rw [e2, e3, List.append_assoc, List.take_append_drop, List.append_assoc,
    List.take_append_drop, List.take_append_drop]

/-- The file name a worker opens is the C string at the beginning of its
parameter block. -/
theorem workerFileName_eq (cfg : Config) (i : Nat) :
    workerFileName cfg i = cString (paArrays cfg i) := by
  unfold workerFileName paInit ParamStruct.openName ParamStruct.init
  simp only
  rw [take_drop_parts]

/-- The file name of a worker when the name to be stored has fewer than
`DEFAULT_STRING_LEN` bytes. -/
theorem workerFileName_short (cfg : Config) (i : Nat)
    (hlen : (c_str cfg.g_audio_path).length < DEFAULT_STRING_LEN) :
    workerFileName cfg i =
      if cfg.g_audio_path = "" then utf8 ("test" ++ toString (i % 4) ++ ".wav")
      else c_str cfg.g_audio_path := by
  have ht := paArrays_fileName cfg i hlen
  have hb := builtin_name_bytes i
  rw [workerFileName_eq]
  have key : ∀ name : List UInt8, (∀ b ∈ name, b ≠ 0) → name.length < DEFAULT_STRING_LEN →
      (paArrays cfg i).take DEFAULT_STRING_LEN =
        name ++ List.replicate (DEFAULT_STRING_LEN - name.length) 0 →
      cString (paArrays cfg i) = name := by
    intro name hne hl hta
    have hsplit : paArrays cfg i =
        name ++ 0 :: (List.replicate (DEFAULT_STRING_LEN - name.length - 1) 0 ++
          (paArrays cfg i).drop DEFAULT_STRING_LEN) := by
      conv_lhs => rw [← List.take_append_drop DEFAULT_STRING_LEN (paArrays cfg i), hta]
      have : DEFAULT_STRING_LEN - name.length = (DEFAULT_STRING_LEN - name.length - 1) + 1 := by
        omega
      rw [this, List.replicate_succ]
      simp
    rw [hsplit]
    exact cString_append_zero _ _ hne
  by_cases hp : cfg.g_audio_path = ""
  · simp only [hp, if_true] at ht ⊢
    rw [← hb.1]
    exact key _ (cString_ne_zero _) (by rw [hb.2]; decide) ht
  · simp only [hp, if_false] at ht ⊢
    exact key _ (cString_ne_zero _) hlen ht

/-- The bytes of a block that a `memset` with 0 and a write at the same offset
leave in the `n` bytes from that offset on: the bytes written, cut after `n`,
or followed by NUL bytes up to `n`. -/
theorem region_memWrite (m : List UInt8) (off n : Nat) (bs : List UInt8)
    (hm : off + n ≤ m.length) :
    ((memWrite (memset0 m off n) off bs).drop off).take n =
      (bs ++ List.replicate (n - bs.length) 0).take n := by
  have hA : (m.take off).length = off := by rw [List.length_take]; omega
  have hset : memset0 m off n = m.take off ++ (List.replicate n 0 ++ m.drop (off + n)) := by
    unfold memset0 memWrite
    rw [List.length_replicate]
    congr 1
    apply List.take_of_length_le
    simp only [List.length_append, List.length_replicate, List.length_drop]
    omega
  have hlen : (memset0 m off n).length = m.length := length_memWrite _ _ _ (by omega)
  have hw : memWrite (memset0 m off n) off bs =
      m.take off ++ (bs ++ (List.replicate n 0 ++ m.drop (off + n)).drop bs.length).take
        (m.length - off) := by
    unfold memWrite
    rw [hlen, hset, List.take_left' hA]
    congr 2
    rw [← List.drop_drop, List.drop_left' hA]
  rw [hw, List.drop_left' hA, List.take_take, Nat.min_eq_left (by omega)]
  rcases Nat.lt_or_ge bs.length n with h | h
  · have hd : (List.replicate n (0 : UInt8) ++ m.drop (off + n)).drop bs.length =
        List.replicate (n - bs.length) 0 ++ m.drop (off + n) := by
      rw [List.drop_append_of_le_length (by rw [List.length_replicate]; omega),
        List.drop_replicate]
    have hl : (bs ++ List.replicate (n - bs.length) (0 : UInt8)).length = n := by
      simp only [List.length_append, List.length_replicate]
      omega
    rw [hd, ← List.append_assoc, List.take_left' hl, List.take_of_length_le (by omega)]
  · rw [List.take_append_of_le_length h, List.take_append_of_le_length h]

/-- The array `token` of `pa[i]` after the initialisation: the bytes of the
token, cut after `DEFAULT_STRING_LEN` bytes or followed by NUL bytes. -/
theorem paArrays_token (cfg : Config) (i : Nat) :
    ((paArrays cfg i).drop DEFAULT_STRING_LEN).take DEFAULT_STRING_LEN =
      (utf8 cfg.g_token ++
        List.replicate (DEFAULT_STRING_LEN - (utf8 cfg.g_token).length) 0).take
        DEFAULT_STRING_LEN := by
  have w : ∀ (m : List UInt8) (off : Nat) (bs : List UInt8), m.length = 512 → 256 ≤ off →
      off ≤ 512 → (memWrite m off bs).length = 512 ∧ (memWrite m off bs).take 256 = m.take 256 :=
    fun m off bs hm h1 h2 =>
      ⟨by rw [length_memWrite _ _ _ (by omega), hm], take_memWrite _ _ _ _ h1 (by omega)⟩
  have rest : ∀ m2 : List UInt8, m2.length = 512 →
      (if cfg.g_url = "" then
        memset0 (memWrite (memset0 m2 (2 * 128) 128) (2 * 128) (c_str cfg.g_appkey)) (3 * 128) 128
      else memWrite
        (memset0 (memWrite (memset0 m2 (2 * 128) 128) (2 * 128) (c_str cfg.g_appkey)) (3 * 128) 128)
        (3 * 128) (utf8 cfg.g_url)).take 256 = m2.take 256 := by
    intro m2 l2
    unfold memset0
    obtain ⟨c1, c2⟩ := w m2 (2 * 128) (List.replicate 128 0) l2 (by omega) (by omega)
    obtain ⟨d1, d2⟩ := w _ (2 * 128) (c_str cfg.g_appkey) c1 (by omega) (by omega)
    obtain ⟨e1, e2⟩ := w _ (3 * 128) (List.replicate 128 0) d1 (by omega) (by omega)
    obtain ⟨f1, f2⟩ := w _ (3 * 128) (utf8 cfg.g_url) e1 (by omega) (by omega)
    split_ifs
    · rw [e2, d2, c2]
    · rw [f2, e2, d2, c2]
  have hreg : ∀ m : List UInt8, (m.drop 128).take 128 = (m.take 256).drop 128 := by
    intro m
    rw [List.drop_take]
  have hfirst : ∀ m1 : List UInt8, m1.length = 512 →
      (memWrite (memset0 m1 128 128) 128 (utf8 cfg.g_token)).length = 512 := by
    intro m1 l1
    rw [length_memWrite _ _ _ (by rw [length_memset0 _ _ _ (by omega)]; omega),
      length_memset0 _ _ _ (by omega), l1]
  unfold paArrays
  simp only [DEFAULT_STRING_LEN]
  generalize hm1 : (if cfg.g_audio_path = "" then
      strncpy (memset0 (List.replicate (4 * 128) 0) 0 128) 0
        (c_str (audioFileNames.getD (i % 4) ""))
        (c_str (audioFileNames.getD (i % 4) "")).length
    else strncpy (memset0 (List.replicate (4 * 128) 0) 0 128) 0 (c_str cfg.g_audio_path) 128) = m1
  have l1 : m1.length = 512 := by
    have l0 : (memset0 (List.replicate (4 * 128) 0) 0 128).length = 512 := by
      rw [length_memset0 _ _ _ (Nat.zero_le _), List.length_replicate]
    rw [← hm1]
    unfold strncpy
    split_ifs <;> rw [length_memWrite _ _ _ (Nat.zero_le _), l0]
  rw [hreg, rest _ (hfirst m1 l1), ← hreg]
  exact region_memWrite m1 128 128 (utf8 cfg.g_token) (by omega)

/-! ## The audio file of a worker -/

set_option maxRecDepth 100000 in
/-- C19, counterexample: with a configured audio path of 130 bytes (and the token
`tok`) the file name of worker 0 is not that path: `pa[0].fileName` holds its
first 128 bytes without a terminator, and the name that is opened runs on into
the token; in a file system that holds only the configured file the worker opens
nothing. A path of 70 characters that takes 140 bytes is cut in the same way. -/
theorem long_audio_path_is_cut :
    longPathCfg.g_audio_path ≠ "" ∧
    workerFileName longPathCfg 0 ≠ utf8 longPathCfg.g_audio_path ∧
    workerFileName longPathCfg 0 = utf8 (String.mk (List.replicate 128 'a')) ++ utf8 "tok" ∧
    (startRun longPathCfg (filesOnly longPathCfg.g_audio_path) Globals.init 1).workers.map
      Worker.fileLen = [none] ∧
    widePathCfg.g_audio_path.length = 70 ∧
    workerFileName widePathCfg 0 ≠ utf8 widePathCfg.g_audio_path ∧
    workerFileName widePathCfg 0 = utf8 (String.mk (List.replicate 64 '\u00e9')) := by
  decide

/-- C19, amended: for every thread count and every worker index `i < threads`,
worker `i` of a run opens the file of the following name: when no audio path is
configured, the built-in name number `i mod 4`, which is `test0.wav` ..
`test3.wav`; when an audio path shorter than 128 bytes is configured, that
path. -/
theorem worker_file_binding (cfg : Config) (files : List UInt8 → Option Nat) (g : Globals)
    (threads i : Nat) (hi : i < threads)
    (hlen : (c_str cfg.g_audio_path).length < DEFAULT_STRING_LEN) :
    ∃ wk, (startRun cfg files g threads).workers.get? i = some wk ∧
      wk.cbParam.userId = i ∧
      wk.cbParam.tParam.map ParamStruct.openName =
        some (if cfg.g_audio_path = "" then utf8 ("test" ++ toString (i % 4) ++ ".wav")
          else c_str cfg.g_audio_path) ∧
      wk.fileLen =
        files (if cfg.g_audio_path = "" then utf8 ("test" ++ toString (i % 4) ++ ".wav")
          else c_str cfg.g_audio_path) ∧
      (cfg.g_audio_path = "" →
        audioFileNames.get? (i % 4) = some ("test" ++ toString (i % 4) ++ ".wav")) ∧
      ('\x00' ∉ cfg.g_audio_path.data → c_str cfg.g_audio_path = utf8 cfg.g_audio_path) := by
  have hname := workerFileName_short cfg i hlen
  unfold workerFileName at hname
  refine ⟨newWorker cfg files i, ?_, rfl, ?_, ?_, ?_, c_str_eq_utf8 _⟩
  · simp [startRun, List.get?_eq_getElem?, hi]
  · simp only [newWorker, Option.map_some', hname]
  · simp only [newWorker, hname]
  · intro _
    have h : i % 4 < 4 := Nat.mod_lt _ (by decide)
    generalize i % 4 = k at h
    interval_cases k <;> rfl

/-- The instance of `worker_file_binding` for worker 5 of 8 with the path
`audio/sample.wav` configured. -/
theorem worker_file_binding_witness :
    ∃ wk, (startRun pathCfg files0 Globals.init 8).workers.get? 5 = some wk ∧
      wk.cbParam.userId = 5 ∧
      wk.cbParam.tParam.map ParamStruct.openName = some (utf8 "audio/sample.wav") ∧
      wk.fileLen = some 1000 :=
  have h := worker_file_binding pathCfg files0 Globals.init 8 5 (by decide) (by decide)
  h.imp (fun _ hw => ⟨hw.1, hw.2.1, hw.2.2.1.trans (by decide), hw.2.2.2.1.trans rfl⟩)

/-! ## The token check -/

/-- C18, counterexample: with the token `tok` given on the command line the global
expiry still has its initial value -1, so at the time 1000 the difference
`g_expireTime - curTime` is below 10; yet the check generates no token, whatever
the token service would answer, and does not return -1 when that service fails:
the run goes on with `tok` and the expiry -1. -/
theorem supplied_token_is_never_checked :
    g_expireTime_init - 1000 < 10 ∧
    (∀ service, tokenCheck service tokenCfg g_expireTime_init 1000 =
      TokenCheck.proceed tokenCfg g_expireTime_init) ∧
    tokenCheck failingService tokenCfg g_expireTime_init 1000 ≠ TokenCheck.returned (-1) := by
  refine ⟨by decide, fun service => ?_, by decide⟩
  rfl

/-- C18, amended: before it creates its workers `speechTranscriberMultFile`
checks the expiry only while the global token is empty. Then, if `g_expireTime`
minus the current time is below 10, it requests a token with the AccessKey id and
secret: when the request fails it returns -1 and no worker is created; when it
succeeds the global token and expiry become the ones received and every worker is
created with the new token. If the difference is at least 10 it goes on without a
request. A token given on the command line (the expiry is still at its initial
value) is used as it is, without a request. -/
theorem token_check_when_empty (service : String → String → String → String → TokenReply)
    (cfg : Config) (files : List UInt8 → Option Nat) (g : Globals) (threads : Nat)
    (g_expireTime curTime : Int) (hempty : cfg.g_token = "") :
    (g_expireTime - curTime < 10 →
      (service cfg.g_akId cfg.g_akSecret cfg.g_domain cfg.g_api_version).retCode < 0 →
      tokenCheck service cfg g_expireTime curTime = TokenCheck.returned (-1) ∧
      speechTranscriberMultFile_begin service cfg files g threads g_expireTime curTime =
        MultFileStart.returned (-1)) ∧
    (g_expireTime - curTime < 10 →
      0 ≤ (service cfg.g_akId cfg.g_akSecret cfg.g_domain cfg.g_api_version).retCode →
      tokenCheck service cfg g_expireTime curTime =
        TokenCheck.proceed
          { cfg with g_token :=
              (service cfg.g_akId cfg.g_akSecret cfg.g_domain cfg.g_api_version).token }
          (service cfg.g_akId cfg.g_akSecret cfg.g_domain cfg.g_api_version).expireTime ∧
      ∃ w, speechTranscriberMultFile_begin service cfg files g threads g_expireTime curTime =
          MultFileStart.started
            { cfg with g_token :=
                (service cfg.g_akId cfg.g_akSecret cfg.g_domain cfg.g_api_version).token }
            (service cfg.g_akId cfg.g_akSecret cfg.g_domain cfg.g_api_version).expireTime w ∧
        w.workers.length = threads ∧
        (∀ wk ∈ w.workers, wk.cbParam.tParam.map ParamStruct.token =
          some ((utf8 (service cfg.g_akId cfg.g_akSecret cfg.g_domain cfg.g_api_version).token ++
            List.replicate (DEFAULT_STRING_LEN -
              (utf8 (service cfg.g_akId cfg.g_akSecret cfg.g_domain
                cfg.g_api_version).token).length) 0).take DEFAULT_STRING_LEN)) ∧
        ((utf8 (service cfg.g_akId cfg.g_akSecret cfg.g_domain cfg.g_api_version).token).length <
            DEFAULT_STRING_LEN →
          '\x00' ∉ (service cfg.g_akId cfg.g_akSecret cfg.g_domain cfg.g_api_version).token.data →
          ∀ wk ∈ w.workers, wk.cbParam.tParam.map (fun t => cString t.token) =
            some (utf8 (service cfg.g_akId cfg.g_akSecret cfg.g_domain
              cfg.g_api_version).token))) ∧
    (10 ≤ g_expireTime - curTime →
      tokenCheck service cfg g_expireTime curTime = TokenCheck.proceed cfg g_expireTime) ∧
    (∀ cfg2 : Config, cfg2.g_token ≠ "" →
      tokenCheck service cfg2 g_expireTime_init curTime =
        TokenCheck.proceed cfg2 g_expireTime_init) := by
  refine ⟨?_, ?_, ?_, ?_⟩
  · intro hexp hfail
    have h : tokenCheck service cfg g_expireTime curTime = TokenCheck.returned (-1) := by
      simp [tokenCheck, generateToken, hempty, hexp, hfail]
    exact ⟨h, by simp [speechTranscriberMultFile_begin, h]⟩
  · intro hexp hok
    have hnot : ¬ (service cfg.g_akId cfg.g_akSecret cfg.g_domain cfg.g_api_version).retCode < 0 :=
      not_lt.mpr hok
    have h : tokenCheck service cfg g_expireTime curTime =
        TokenCheck.proceed
          { cfg with g_token :=
              (service cfg.g_akId cfg.g_akSecret cfg.g_domain cfg.g_api_version).token }
          (service cfg.g_akId cfg.g_akSecret cfg.g_domain cfg.g_api_version).expireTime := by
      simp [tokenCheck, generateToken, hempty, hexp, hnot]
    refine ⟨h, startRun { cfg with g_token :=
        (service cfg.g_akId cfg.g_akSecret cfg.g_domain cfg.g_api_version).token } files g threads,
      by simp only [speechTranscriberMultFile_begin, h], ?_, ?_, ?_⟩
    · simp [startRun]
    · intro wk hwk
      simp only [startRun, List.mem_map, List.mem_range] at hwk
      obtain ⟨i, _, rfl⟩ := hwk
      exact congrArg some (paArrays_token _ i)
    · intro hlen hnul wk hwk
      simp only [startRun, List.mem_map, List.mem_range] at hwk
      obtain ⟨i, _, rfl⟩ := hwk
      have ha := paArrays_token { cfg with g_token :=
        (service cfg.g_akId cfg.g_akSecret cfg.g_domain cfg.g_api_version).token } i
      simp only at ha
      generalize (service cfg.g_akId cfg.g_akSecret cfg.g_domain cfg.g_api_version).token = tok
        at hlen hnul ha ⊢
      have hl : (utf8 tok ++ List.replicate (DEFAULT_STRING_LEN - (utf8 tok).length)
          (0 : UInt8)).length = DEFAULT_STRING_LEN := by
        simp only [List.length_append, List.length_replicate]
        omega
      rw [List.take_of_length_le (le_of_eq hl)] at ha
      have hsucc : DEFAULT_STRING_LEN - (utf8 tok).length =
          (DEFAULT_STRING_LEN - (utf8 tok).length - 1) + 1 := by omega
      rw [hsucc, List.replicate_succ] at ha
      show some (cString (((paArrays _ i).drop DEFAULT_STRING_LEN).take DEFAULT_STRING_LEN)) = _
      rw [ha, cString_append_zero _ _ (utf8_ne_zero tok hnul)]
  · intro hfresh
    have hnot : ¬ g_expireTime - curTime < 10 := not_lt.mpr hfresh
    simp [tokenCheck, hempty, hnot]
  · intro cfg2 h2
    simp [tokenCheck, h2]

/-- The instance of `token_check_when_empty` for a configuration without a token
at the time 1000: the failing service makes the run return -1, the other service
gives the four workers the token `fresh`. -/
theorem token_check_when_empty_witness :
    speechTranscriberMultFile_begin failingService akCfg files0 Globals.init 4
      g_expireTime_init 1000 = MultFileStart.returned (-1) ∧
    tokenCheck freshService akCfg g_expireTime_init 1000 =
      TokenCheck.proceed { akCfg with g_token := "fresh" } 5000 :=
  ⟨((token_check_when_empty failingService akCfg files0 Globals.init 4 g_expireTime_init 1000
      rfl).1 (by decide) (by decide)).2,
   ((token_check_when_empty freshService akCfg files0 Globals.init 4 g_expireTime_init 1000
      rfl).2.1 (by decide) (by decide)).1⟩

/-! ## The command line -/

theorem parseArg_value (cfg : Config) (arg v : String) (h : arg ∈ valueOptions) :
    ∃ c, parseArg cfg arg (some v) = ArgStep.took c := by
  have key : (match parseArg cfg arg (some v) with
      | ArgStep.took _ => True
      | _ => False) := by
    simp only [valueOptions, List.mem_cons, List.mem_singleton, List.mem_nil_iff,
      or_false] at h
    rcases h with h | h | h | h | h | h | h | h | h | h | h | h | h | h | h | h | h | h | h | h | h
    all_goals
      subst h
      simp [parseArg, needValue]
  revert key
  cases parseArg cfg arg (some v) with
  | took c => intro _; exact ⟨c, rfl⟩
  | ret r c => intro h; exact h.elim
  | pastEnd c => intro h; exact h.elim
  | skip c => intro h; exact h.elim

theorem parseArg_other (cfg : Config) (arg : String) (next : Option String)
    (h : arg ∉ valueOptions) : parseArg cfg arg next = ArgStep.skip cfg := by
  simp only [valueOptions, List.mem_cons, List.mem_singleton, not_or, List.mem_nil_iff,
    or_false] at h
  unfold parseArg
  simp [h]

theorem parseEnd_result (cfg : Config) :
    ∃ ret, parseEnd cfg = ParseOut.returned ret cfg ∧ (ret = 0 ↔ credentialsGiven cfg) := by
  unfold parseEnd credentialsGiven
  split_ifs with h
  · refine ⟨1, rfl, ?_⟩
    constructor
    · intro h1
      exact absurd h1 (by decide)
    · rintro ⟨h1, h2⟩
      rcases h with ⟨h3, h4⟩ | h3
      · rcases h2 with h2 | ⟨h5, h6⟩
        · exact absurd h3 h2
        · rcases h4 with h4 | h4
          · exact absurd h4 h5
          · exact absurd h4 h6
      · exact absurd h3 h1
  · refine ⟨0, rfl, ?_⟩
    simp only [true_iff]
    push_neg at h
    refine ⟨h.2, ?_⟩
    by_cases ht : cfg.g_token = ""
    · exact Or.inr (h.1 ht)
    · exact Or.inl ht

theorem parseLoop_total (n : Nat) : ∀ (args : List String) (cfg : Config),
    args.length ≤ n → valuesPresent args = true →
    ∃ ret cfg2, parseLoop cfg args = ParseOut.returned ret cfg2 ∧
      (ret = 0 ↔ credentialsGiven cfg2) := by
  induction n with
  | zero =>
    intro args cfg hlen _
    have : args = [] := List.length_eq_zero.mp (Nat.le_zero.mp hlen)
    subst this
    obtain ⟨ret, h1, h2⟩ := parseEnd_result cfg
    exact ⟨ret, cfg, h1, h2⟩
  | succ n ih =>
    intro args cfg hlen hv
    rcases args with _ | ⟨arg, rest⟩
    · obtain ⟨ret, h1, h2⟩ := parseEnd_result cfg
      exact ⟨ret, cfg, h1, h2⟩
    · have hlen := Nat.le_of_succ_le_succ hlen
      by_cases hopt : arg ∈ valueOptions
      · rcases rest with _ | ⟨v, rest2⟩
        · simp [valuesPresent, hopt] at hv
        · simp only [valuesPresent, hopt, if_true] at hv
          obtain ⟨c, hc⟩ := parseArg_value cfg arg v hopt
          simp only [parseLoop, List.head?_cons, hc]
          exact ih rest2 c (Nat.le_of_succ_le hlen) hv
      · rw [valuesPresent.eq_def] at hv
        simp only [hopt, if_false] at hv
        rw [parseLoop.eq_def]
        simp only [parseArg_other cfg arg _ hopt]
        exact ih rest cfg hlen hv

/-- An example of `parse_argv`: the values are stored, `atoi` reads the number of
threads, and the arguments are accepted. -/
theorem parse_argv_example :
    parse_argv {} ["--appkey", "k", "--token", "t", "--threads", " 4x", "--type", "pcm"] =
      ParseOut.returned 0
        { g_appkey := "k", g_token := "t", g_threads := 4
          encoder_type := ENCODER_TYPE.ENCODER_NONE, frame_size := 3200 } ∧
    parse_argv {} ["--appkey", "k", "--akId", "id"] =
      ParseOut.returned 1 { g_appkey := "k", g_akId := "id" } ∧
    parse_argv {} ["--appkey", "k", "--token"] = ParseOut.returned 1 { g_appkey := "k" } := by
  decide

/-- C17: for every argument vector in which each option that takes a value is
followed by an argument, from every state of the globals, `parse_argv` returns a
value, and this value is 0 if and only if the appkey it leaves is not empty and
either the token is not empty or both the AccessKey id and the AccessKey secret
are not empty; when the value is 0 `main` goes on to its scan loop. For every
argument vector, whenever `parse_argv` returns a value other than 0, `main`
returns -1 at once, before the signal handlers are installed and before any run
is made. -/
theorem parse_argv_accepts_iff_credentials (cfg : Config) (args : List String)
    (hvalues : valuesPresent args = true) :
    (∃ ret cfg2, parse_argv cfg args = ParseOut.returned ret cfg2 ∧
      (ret = 0 ↔ (cfg2.g_appkey ≠ "" ∧
        (cfg2.g_token ≠ "" ∨ (cfg2.g_akId ≠ "" ∧ cfg2.g_akSecret ≠ "")))) ∧
      (ret = 0 → ∃ c, main_begin cfg args = MainStart.running c)) ∧
    (∀ args2 ret cfg2, parse_argv cfg args2 = ParseOut.returned ret cfg2 → ret ≠ 0 →
      main_begin cfg args2 = MainStart.returned (-1)) := by
  constructor
  · obtain ⟨ret, cfg2, h1, h2⟩ := parseLoop_total args.length args cfg (Nat.le_refl _) hvalues
    refine ⟨ret, cfg2, h1, h2, ?_⟩
    intro h0
    have h1b : parse_argv cfg args = ParseOut.returned ret cfg2 := h1
    simp only [main_begin, h1b, h0]
    exact ⟨_, rfl⟩
  · intro args2 ret cfg2 h hne
    simp only [main_begin, h]
    exact if_pos hne

/-- The instance of `parse_argv_accepts_iff_credentials` for the arguments
`--appkey k --akId id --akSecret s --loop 2`. -/
theorem parse_argv_accepts_iff_credentials_witness :
    valuesPresent ["--appkey", "k", "--akId", "id", "--akSecret", "s", "--loop", "2"] = true ∧
    ∃ ret cfg2,
      parse_argv {} ["--appkey", "k", "--akId", "id", "--akSecret", "s", "--loop", "2"] =
        ParseOut.returned ret cfg2 ∧
      (ret = 0 ↔ (cfg2.g_appkey ≠ "" ∧
        (cfg2.g_token ≠ "" ∨ (cfg2.g_akId ≠ "" ∧ cfg2.g_akSecret ≠ "")))) ∧
      (ret = 0 → ∃ c,
        main_begin {} ["--appkey", "k", "--akId", "id", "--akSecret", "s", "--loop", "2"] =
          MainStart.running c) :=
  ⟨by decide,
    (parse_argv_accepts_iff_credentials {}
      ["--appkey", "k", "--akId", "id", "--akSecret", "s", "--loop", "2"] (by decide)).1⟩

/-! ## A single worker with acknowledged iterations -/

theorem length_le_sum_of_pos (xs : List Nat) (hpos : ∀ x ∈ xs, 0 < x) : xs.length ≤ xs.sum := by
  induction xs with
  | nil => simp
  | cons x xs ih =>
    have hx := hpos x (List.mem_cons_self _ _)
    have := ih (fun y hy => hpos y (List.mem_cons_of_mem _ hy))
    simp only [List.length_cons, List.sum_cons]
    omega

/-- The first update of a fresh phase stores the sample in every field. -/
theorem PhaseView.record_exact_first (v : PhaseView) (x : Nat) (hv : v.Fresh)
    (hx : 0 < x) (hb : x < U64) : (v.record x).ExactFor [x] := by
  obtain ⟨h1, h2, h3, h4⟩ := hv
  have e2 : x % U64 = x := Nat.mod_eq_of_lt hb
  unfold PhaseView.ExactFor PhaseView.record
  simp only [h1, h2, h3, h4, Nat.zero_add, e2]
  simp [hx, U64]

/-- An update of a phase that holds the exact statistics of the positive samples
`ys` holds those of `ys` followed by the new sample. -/
theorem PhaseView.record_exact_next (v : PhaseView) (ys : List Nat) (x : Nat)
    (hv : v.ExactFor ys) (hpos : ∀ y ∈ ys, 0 < y) (hx : 0 < x)
    (hb : ys.sum + x < U64) : (v.record x).ExactFor (ys ++ [x]) := by
  obtain ⟨h1, h2, ⟨h3, h4⟩, ⟨h5, h6⟩, _⟩ := hv
  have hlen := length_le_sum_of_pos ys hpos
  have e1 : (ys.length + 1) % U64 = ys.length + 1 := Nat.mod_eq_of_lt (by omega)
  have e2 : (ys.sum + x) % U64 = ys.sum + x := Nat.mod_eq_of_lt hb
  have hmin : v.min ≠ 0 := Nat.pos_iff_ne_zero.mp (hpos _ h5)
  unfold PhaseView.ExactFor PhaseView.record
  simp only [h1, h2, e1, e2, hmin, if_false, List.length_append, List.length_singleton,
    List.sum_append, List.sum_singleton, List.mem_append, List.mem_singleton]
  refine ⟨trivial, trivial, ⟨?_, ?_⟩, ⟨?_, ?_⟩, by simp⟩
  · split_ifs
    · exact Or.inr rfl
    · exact Or.inl h3
  · rintro y (hy | rfl)
    · have := h4 y hy
      split_ifs <;> omega
    · split_ifs <;> omega
  · split_ifs
    · exact Or.inr rfl
    · exact Or.inl h5
  · rintro y (hy | rfl)
    · have := h6 y hy
      split_ifs <;> omega
    · split_ifs <;> omega

/-- The updates for the samples `xs` after those for `ys`. -/
theorem PhaseView.foldl_record_exact (xs : List Nat) :
    ∀ (ys : List Nat) (v : PhaseView),
      ((ys = [] ∧ v.Fresh) ∨ (ys ≠ [] ∧ v.ExactFor ys)) →
      (∀ y ∈ ys ++ xs, 0 < y) → (ys ++ xs).sum < U64 → ys ++ xs ≠ [] →
      (xs.foldl PhaseView.record v).ExactFor (ys ++ xs) := by
  induction xs with
  | nil =>
    intro ys v h _ _ hne
    rcases h with ⟨rfl, _⟩ | ⟨_, h⟩
    · exact absurd rfl hne
    · simpa using h
  | cons x xs ih =>
    intro ys v h hpos hsum _
    have hx : 0 < x := hpos x (by simp)
    have hposy : ∀ y ∈ ys, 0 < y := fun y hy => hpos y (by simp [hy])
    have hsx : ys.sum + x < U64 := by
      simp only [List.sum_append, List.sum_cons] at hsum
      omega
    have hstep : (v.record x).ExactFor (ys ++ [x]) := by
      rcases h with ⟨rfl, hv⟩ | ⟨_, hv⟩
      · exact PhaseView.record_exact_first v x hv hx (by simpa using hsx)
      · exact PhaseView.record_exact_next v ys x hv hposy hx hsx
    have := ih (ys ++ [x]) (v.record x) (Or.inr ⟨by simp, hstep⟩)
      (by simpa using hpos) (by simpa using hsum) (by simp)
    simpa using this

/-- C22: for every non-empty sequence `xs` of strictly positive latency samples
whose sum is below `2 ^ 64`, after the running-statistics update of the start
phase (and likewise of the first-result, completed and closed phase) has processed
them in order from the all-zero block created by `speechTranscriberMultFile`, the
stored count is the number of samples, the stored total is their sum, the stored
maximum is a sample that no sample exceeds, the stored minimum is a sample that
is below no sample, and the stored average is the sum divided by the number,
rounded down. -/
theorem running_statistics_exact (fileName token appkey url : List UInt8) (xs : List Nat)
    (hne : xs ≠ []) (hpos : ∀ x ∈ xs, 0 < x) (hsum : xs.sum < U64) :
    (startView (xs.foldl recordStarted (ParamStruct.init fileName token appkey url))).ExactFor
      xs ∧
    (firstView (xs.foldl recordFirst (ParamStruct.init fileName token appkey url))).ExactFor
      xs ∧
    (endView (xs.foldl recordCompleted (ParamStruct.init fileName token appkey url))).ExactFor
      xs ∧
    (closeView (xs.foldl recordClosed (ParamStruct.init fileName token appkey url))).ExactFor
      xs := by
  have key : ∀ v : PhaseView, v.Fresh → (xs.foldl PhaseView.record v).ExactFor xs := by
    intro v hv
    have := PhaseView.foldl_record_exact xs [] v (Or.inl ⟨rfl, hv⟩) (by simpa using hpos)
      (by simpa using hsum) (by simpa using hne)
    simpa using this
  rw [startView_foldl, firstView_foldl, endView_foldl, closeView_foldl]
  exact ⟨key _ ⟨rfl, rfl, rfl, rfl⟩, key _ ⟨rfl, rfl, rfl, rfl⟩, key _ ⟨rfl, rfl, rfl, rfl⟩,
    key _ ⟨rfl, rfl, rfl, rfl⟩⟩

/-- The instance of `running_statistics_exact` for the samples 7, 3, 9: the start
phase holds the count 3, the total 19, the maximum 9, the minimum 3 and the
average 6. -/
theorem running_statistics_exact_witness :
    (startView ([7, 3, 9].foldl recordStarted (ParamStruct.init [] [] [] []))).ExactFor
      [7, 3, 9] ∧
    startView ([7, 3, 9].foldl recordStarted (ParamStruct.init [] [] [] [])) =
      { consumed := 3, total := 19, ave := 6, max := 9, min := 3 } :=
  ⟨(running_statistics_exact [] [] [] [] [7, 3, 9] (by decide) (by decide) (by decide)).1,
    by decide⟩

/-! ## One streaming pass -/

theorem sendSizes_append (a b : List Op) : sendSizes (a ++ b) = sendSizes a ++ sendSizes b := by
  simp [sendSizes, List.filterMap_append]

/-- One pass of the send loop whose `sendAudio` call, if any, succeeds: a full
frame is read and sent while at least `frame_size` bytes remain; otherwise the
rest of the file, if any, is sent and the loop is left. -/
theorem sendFrame_pass (cfg : Config) (wk : Worker) (ret : Int) (u L : Nat)
    (hF : 0 < cfg.frame_size) (hL : wk.fileLen = some L) (he : wk.eof = false)
    (hr : 0 ≤ ret) (hp : wk.filePos ≤ L) :
    (cfg.frame_size.toNat ≤ L - wk.filePos →
      (sendFrame cfg wk ret u).1.pc = Pc.sending ∧ (sendFrame cfg wk ret u).1.eof = false ∧
      (sendFrame cfg wk ret u).1.fileLen = some L ∧
      (sendFrame cfg wk ret u).1.filePos = wk.filePos + cfg.frame_size.toNat ∧
      sendSizes (sendFrame cfg wk ret u).2 = [cfg.frame_size.toNat]) ∧
    (L - wk.filePos < cfg.frame_size.toNat →
      (sendFrame cfg wk ret u).1.pc = Pc.stopping ∧
      (sendFrame cfg wk ret u).1.filePos = L ∧
      sendSizes (sendFrame cfg wk ret u).2 =
        (if L - wk.filePos = 0 then [] else [L - wk.filePos])) := by
  have hFn : 0 < cfg.frame_size.toNat := by omega
  have hn : ¬ ret < 0 := not_lt.mpr hr
  constructor
  · intro hfull
    have hmin : min cfg.frame_size.toNat (L - wk.filePos) = cfg.frame_size.toNat := by omega
    have hlt : ¬ (L - wk.filePos < cfg.frame_size.toNat) := by omega
    have hnz : ¬ (cfg.frame_size.toNat ≤ 0) := by omega
    unfold sendFrame
    simp only [hL, Option.getD_some, he, hlt, hmin, hnz, hn, decide_False, Bool.or_false,
      if_false]
    split_ifs <;> first | (exfalso; assumption) | simp [sendSizes, Op.audioLen]
  · intro hpart
    have hmin : min cfg.frame_size.toNat (L - wk.filePos) = L - wk.filePos := by omega
    unfold sendFrame
    simp only [hL, Option.getD_some, he, hpart, hmin, hn, decide_True, Bool.or_true, if_false]
    by_cases hz : L - wk.filePos = 0
    · simp [hz, sendSizes]
      omega
    · have hnz : ¬ (L - wk.filePos ≤ 0) := by omega
      simp only [hnz, hz, if_false]
      split_ifs <;> simp [sendSizes, Op.audioLen] <;> omega

theorem workerRun_cons (cfg : Config) (g : Globals) (wk : Worker) (inp : WorkerInput)
    (rest : List WorkerInput) :
    workerRun cfg g wk (inp :: rest) =
      ⟨(workerRun cfg (workerStep cfg g wk inp).g (workerStep cfg g wk inp).wk rest).g,
       (workerRun cfg (workerStep cfg g wk inp).g (workerStep cfg g wk inp).wk rest).wk,
       (workerStep cfg g wk inp).ops ++
         (workerRun cfg (workerStep cfg g wk inp).g (workerStep cfg g wk inp).wk rest).ops⟩ :=
  rfl

/-- The first passes of a streaming pass, while full frames remain: each sends one
full frame, in file order, and the loop goes on. -/
theorem sendLoop_full_frames (cfg : Config) (g : Globals) (L : Nat)
    (hF : 0 < cfg.frame_size) :
    ∀ (rs : List (Int × Nat)) (wk : Worker), wk.pc = Pc.sending → wk.eof = false →
      wk.fileLen = some L → wk.filePos ≤ L → (∀ x ∈ rs, 0 ≤ x.1) →
      rs.length ≤ (L - wk.filePos) / cfg.frame_size.toNat →
      (workerRun cfg g wk (frameInputs rs)).g = g ∧
      (workerRun cfg g wk (frameInputs rs)).wk.pc = Pc.sending ∧
      (workerRun cfg g wk (frameInputs rs)).wk.eof = false ∧
      (workerRun cfg g wk (frameInputs rs)).wk.fileLen = some L ∧
      (workerRun cfg g wk (frameInputs rs)).wk.filePos =
        wk.filePos + rs.length * cfg.frame_size.toNat ∧
      sendSizes (workerRun cfg g wk (frameInputs rs)).ops =
        List.replicate rs.length cfg.frame_size.toNat := by
  have hFn : 0 < cfg.frame_size.toNat := by omega
  intro rs
  induction rs with
  | nil => intro wk hpc he hL _ _ _; simp [frameInputs, workerRun, hpc, he, hL, sendSizes]
  | cons x rest ih =>
    intro wk hpc he hL hp hok hlen
    have hq : 1 ≤ (L - wk.filePos) / cfg.frame_size.toNat := by
      simp only [List.length_cons] at hlen
      omega
    have hfull : cfg.frame_size.toNat ≤ L - wk.filePos := by
      by_contra hc
      rw [Nat.div_eq_of_lt (by omega)] at hq
      omega
    obtain ⟨p1, p2, p3, p4, p5⟩ :=
      (sendFrame_pass cfg wk x.1 x.2 L hF hL he (hok x (List.mem_cons_self _ _)) hp).1 hfull
    have hdiv : (L - wk.filePos) / cfg.frame_size.toNat =
        (L - (wk.filePos + cfg.frame_size.toNat)) / cfg.frame_size.toNat + 1 := by
      rw [Nat.div_eq_sub_div hFn hfull, Nat.sub_add_eq]
    have hstep := workerStep_frame cfg g wk x.1 x.2 hpc
    obtain ⟨i1, i2, i3, i4, i5, i6⟩ := ih (sendFrame cfg wk x.1 x.2).1 p1 p2 p3
      (by rw [p4]; omega) (fun y hy => hok y (List.mem_cons_of_mem _ hy))
      (by rw [p4]; simp only [List.length_cons] at hlen; omega)
    simp only [frameInputs, List.map_cons, workerRun_cons, hstep] at *
    refine ⟨i1, i2, i3, i4, ?_, ?_⟩
    · rw [i5, p4, List.length_cons, Nat.add_mul]
      omega
    · rw [sendSizes_append, p5, i6, List.length_cons, List.replicate_succ]
      rfl

/-- A whole streaming pass from the offset of the worker. -/
theorem sendLoop_whole (cfg : Config) (g : Globals) (L : Nat) (hF : 0 < cfg.frame_size) :
    ∀ (rs : List (Int × Nat)) (wk : Worker), wk.pc = Pc.sending → wk.eof = false →
      wk.fileLen = some L → wk.filePos ≤ L → (∀ x ∈ rs, 0 ≤ x.1) →
      rs.length = (L - wk.filePos) / cfg.frame_size.toNat + 1 →
      (workerRun cfg g wk (frameInputs rs)).wk.pc = Pc.stopping ∧
      (workerRun cfg g wk (frameInputs rs)).wk.filePos = L ∧
      sendSizes (workerRun cfg g wk (frameInputs rs)).ops =
        List.replicate ((L - wk.filePos) / cfg.frame_size.toNat) cfg.frame_size.toNat ++
          (if (L - wk.filePos) % cfg.frame_size.toNat = 0 then []
            else [(L - wk.filePos) % cfg.frame_size.toNat]) := by
  have hFn : 0 < cfg.frame_size.toNat := by omega
  intro rs
  induction rs with
  | nil => intro wk _ _ _ _ _ hlen; simp at hlen
  | cons x rest ih =>
    intro wk hpc he hL hp hok hlen
    have hstep := workerStep_frame cfg g wk x.1 x.2 hpc
    have hpass := sendFrame_pass cfg wk x.1 x.2 L hF hL he (hok x (List.mem_cons_self _ _)) hp
    simp only [List.length_cons, Nat.add_right_cancel_iff] at hlen
    by_cases hfull : cfg.frame_size.toNat ≤ L - wk.filePos
    · obtain ⟨p1, p2, p3, p4, p5⟩ := hpass.1 hfull
      have hdiv : (L - wk.filePos) / cfg.frame_size.toNat =
          (L - (wk.filePos + cfg.frame_size.toNat)) / cfg.frame_size.toNat + 1 := by
        rw [Nat.div_eq_sub_div hFn hfull, Nat.sub_add_eq]
      have hmod : (L - wk.filePos) % cfg.frame_size.toNat =
          (L - (wk.filePos + cfg.frame_size.toNat)) % cfg.frame_size.toNat := by
        rw [Nat.mod_eq_sub_mod hfull, Nat.sub_add_eq]
      obtain ⟨i1, i2, i3⟩ := ih (sendFrame cfg wk x.1 x.2).1 p1 p2 p3
        (by rw [p4]; omega) (fun y hy => hok y (List.mem_cons_of_mem _ hy))
        (by rw [p4]; omega)
      simp only [frameInputs, List.map_cons, workerRun_cons, hstep] at *
      refine ⟨i1, i2, ?_⟩
      rw [sendSizes_append, p5, i3, p4, hdiv, hmod, List.replicate_succ]
      rfl
    · have hpart : L - wk.filePos < cfg.frame_size.toNat := by omega
      obtain ⟨p1, p2, p3⟩ := hpass.2 hpart
      have hq : (L - wk.filePos) / cfg.frame_size.toNat = 0 := Nat.div_eq_of_lt hpart
      have hm : (L - wk.filePos) % cfg.frame_size.toNat = L - wk.filePos :=
        Nat.mod_eq_of_lt hpart
      have hrest : rest = [] := List.length_eq_zero.mp (by omega)
      subst hrest
      simp only [frameInputs, List.map_cons, List.map_nil, workerRun_cons, hstep, workerRun,
        List.append_nil]
      refine ⟨p1, p2, ?_⟩
      rw [p3, hq, hm]
      rfl

theorem ceil_div_eq (L F : Nat) (hF : 0 < F) :
    (L + F - 1) / F = L / F + (if L % F = 0 then 0 else 1) := by
  have hL := Nat.div_add_mod L F
  have hr := Nat.mod_lt L hF
  rw [Nat.mul_comm] at hL
  by_cases h0 : L % F = 0
  · rw [if_pos h0, Nat.add_zero]
    apply Nat.div_eq_of_lt_le
    · omega
    · rw [Nat.add_mul, Nat.one_mul]
      omega
  · rw [if_neg h0]
    apply Nat.div_eq_of_lt_le
    · rw [Nat.add_mul, Nat.one_mul]
      omega
    · rw [Nat.add_mul, Nat.add_mul, Nat.one_mul]
      omega

/-- C23: for every audio file of `L ≥ 0` bytes and every frame size `F ≥ 1`, one
streaming pass of a worker (of either worker function) in which every `sendAudio`
call succeeds leaves the send loop after exactly `L / F + 1` passes of the loop
and makes exactly `⌈L / F⌉` calls of `sendAudio`: `L / F` calls with `F` bytes
each, followed, when `F` does not divide `L`, by one call with the remaining
`L mod F` bytes. Every call carries between 1 and `F` bytes, the bytes of all
calls add up to `L`, and the calls are made in file order: before pass `j + 1`
(for `j ≤ L / F`) the worker is still in the loop, has made `j` calls of `F`
bytes, and the stream is at offset `j * F`; at the end it is at offset `L`. -/
theorem streaming_pass_sends_file_in_frames (cfg : Config) (g : Globals) (wk : Worker)
    (L : Nat) (rs : List (Int × Nat)) (hF : 0 < cfg.frame_size) (hpc : wk.pc = Pc.sending)
    (hL : wk.fileLen = some L) (hpos : wk.filePos = 0) (he : wk.eof = false)
    (hok : ∀ x ∈ rs, 0 ≤ x.1) (hlen : rs.length = L / cfg.frame_size.toNat + 1) :
    (workerRun cfg g wk (frameInputs rs)).wk.pc = Pc.stopping ∧
    (workerRun cfg g wk (frameInputs rs)).wk.filePos = L ∧
    sendSizes (workerRun cfg g wk (frameInputs rs)).ops =
      List.replicate (L / cfg.frame_size.toNat) cfg.frame_size.toNat ++
        (if L % cfg.frame_size.toNat = 0 then [] else [L % cfg.frame_size.toNat]) ∧
    (sendSizes (workerRun cfg g wk (frameInputs rs)).ops).length =
      (L + cfg.frame_size.toNat - 1) / cfg.frame_size.toNat ∧
    (∀ n ∈ sendSizes (workerRun cfg g wk (frameInputs rs)).ops,
      1 ≤ n ∧ n ≤ cfg.frame_size.toNat) ∧
    (sendSizes (workerRun cfg g wk (frameInputs rs)).ops).sum = L ∧
    (∀ j, j ≤ L / cfg.frame_size.toNat →
      (workerRun cfg g wk (frameInputs (rs.take j))).wk.pc = Pc.sending ∧
      (workerRun cfg g wk (frameInputs (rs.take j))).wk.filePos = j * cfg.frame_size.toNat ∧
      sendSizes (workerRun cfg g wk (frameInputs (rs.take j))).ops =
        List.replicate j cfg.frame_size.toNat) := by
  have hFn : 0 < cfg.frame_size.toNat := by omega
  have hr := Nat.mod_lt L hFn
  have hdm := Nat.div_add_mod L cfg.frame_size.toNat
  obtain ⟨w1, w2, w3⟩ := sendLoop_whole cfg g L hF rs wk hpc he hL (by omega) hok
    (by rw [hpos]; exact hlen)
  rw [hpos, Nat.sub_zero] at w3
  refine ⟨w1, w2, w3, ?_, ?_, ?_, ?_⟩
  · rw [w3, ceil_div_eq L _ hFn]
    split_ifs <;> simp
  · intro n hn
    rw [w3] at hn
    rcases List.mem_append.mp hn with h | h
    · rw [List.eq_of_mem_replicate h]
      omega
    · split_ifs at h with h0
      · simp at h
      · simp only [List.mem_singleton] at h
        omega
  · rw [w3, List.sum_append, List.sum_replicate, smul_eq_mul, Nat.mul_comm]
    split_ifs with h0
    · simp only [List.sum_nil]
      omega
    · simp only [List.sum_singleton]
      omega
  · intro j hj
    have hlj : (rs.take j).length = j := by
      rw [List.length_take]
      omega
    obtain ⟨_, f2, _, _, f5, f6⟩ := sendLoop_full_frames cfg g L hF (rs.take j) wk hpc he hL
      (by omega) (fun x hx => hok x (List.mem_of_mem_take hx))
      (by rw [hlj, hpos, Nat.sub_zero]; exact hj)
    rw [hlj] at f5 f6
    exact ⟨f2, by rw [f5, hpos, Nat.zero_add], f6⟩

/-- The instance of `streaming_pass_sends_file_in_frames` for a file of 1000 bytes
and frames of 640 bytes: two passes, the calls carry 640 and 360 bytes. -/
theorem streaming_pass_sends_file_in_frames_witness :
    (workerRun {} Globals.init (streamingWorker 1000)
      (frameInputs [(0, 10), (0, 10)])).wk.pc = Pc.stopping ∧
    sendSizes (workerRun {} Globals.init (streamingWorker 1000)
      (frameInputs [(0, 10), (0, 10)])).ops = [640, 360] :=
  have h := streaming_pass_sends_file_in_frames {} Globals.init (streamingWorker 1000) 1000
    [(0, 10), (0, 10)] (by decide) rfl rfl rfl rfl (by decide) (by decide)
  ⟨h.1, h.2.2.1⟩

/-! ## The start-latency histogram -/

/-- The ranges of the six buckets. -/
theorem startBucket_ranges (t : Nat) :
    (startBucket t = Bucket.s50 ↔ t ≤ 50) ∧
    (startBucket t = Bucket.s100 ↔ (50 < t ∧ t ≤ 100)) ∧
    (startBucket t = Bucket.s200 ↔ (100 < t ∧ t ≤ 200)) ∧
    (startBucket t = Bucket.s500 ↔ (200 < t ∧ t ≤ 500)) ∧
    (startBucket t = Bucket.s1000 ↔ (500 < t ∧ t ≤ 1000)) ∧
    (startBucket t = Bucket.s2000 ↔ 1000 < t) := by
  unfold startBucket
  refine ⟨?_, ?_, ?_, ?_, ?_, ?_⟩ <;> split_ifs <;> simp <;> omega

/-- The start-phase update increments the counter of the bucket of its latency and
no other counter. -/
theorem recordStarted_buckets (p : ParamStruct) (t : Nat) (b : Bucket) :
    bucketValue (recordStarted p t) b =
      (if startBucket t = b then (bucketValue p b + 1) % U64 else bucketValue p b) ∧
    (recordStarted p t).startedConsumed = (p.startedConsumed + 1) % U64 := by
  cases b <;> simp [bucketValue, recordStarted, incIf]

/-- The histogram counters and the count of Started events behind a callback
parameter change only in the Started callback, which applies the start-phase
update for the latency of the event; `startTv` is not changed by any callback. -/
theorem dispatch_start_fields (k : EventKind) (g : Globals) (ev : NlsEvent)
    (cb : ParamCallBack) (t : ParamStruct) (env : CbEnv) (ht : cb.tParam = some t) :
    (dispatch k g ev (some cb) env).cbParam.map ParamCallBack.startTv = some cb.startTv ∧
    (∀ b, (tParamOf (dispatch k g ev (some cb) env).cbParam).map (fun t1 => bucketValue t1 b) =
      some (if k = EventKind.Started then
          bucketValue (recordStarted t (timeValueOf cb.startTv env.now)) b
        else bucketValue t b)) ∧
    (tParamOf (dispatch k g ev (some cb) env).cbParam).map ParamStruct.startedConsumed =
      some (if k = EventKind.Started then (t.startedConsumed + 1) % U64
        else t.startedConsumed) := by
  cases k <;>
    simp only [dispatch, onTranscriptionStarted, onSentenceBegin, onSentenceEnd,
      onTranscriptionResultChanged, onTranscriptionCompleted, onTaskFailed, onChannelClosed, ht]
  case ResultChanged =>
    by_cases hf : t.firstFlag = false
    · refine ⟨by simp [hf], ?_, by simp [hf, tParamOf, recordFirst]⟩
      intro b
      cases b <;> simp [hf, tParamOf, bucketValue, recordFirst]
    · refine ⟨by simp [hf], ?_, by simp [hf, tParamOf, ht]⟩
      intro b
      simp [hf, tParamOf, ht]
  case Started =>
    exact ⟨rfl, fun b => by simp [tParamOf], by simp [tParamOf, recordStarted]⟩
  case SentenceBegin =>
    exact ⟨rfl, fun b => by simp [tParamOf, ht], by simp [tParamOf, ht]⟩
  case SentenceEnd =>
    exact ⟨rfl, fun b => by simp [tParamOf, ht], by simp [tParamOf, ht]⟩
  case Completed =>
    refine ⟨rfl, ?_, by simp [tParamOf, recordCompleted]⟩
    intro b
    cases b <;> simp [tParamOf, bucketValue, recordCompleted]
  case TaskFailed =>
    refine ⟨rfl, ?_, by simp [tParamOf]⟩
    intro b
    cases b <;> simp [tParamOf, bucketValue]
  case Closed =>
    refine ⟨rfl, ?_, by simp [tParamOf, recordClosed]⟩
    intro b
    cases b <;> simp [tParamOf, bucketValue, recordClosed]

theorem handleAll_cons (g : Globals) (cb : Option ParamCallBack)
    (x : EventKind × NlsEvent × CbEnv) (rest : List (EventKind × NlsEvent × CbEnv)) :
    handleAll g cb (x :: rest) =
      handleAll (dispatch x.1 g x.2.1 cb x.2.2).g (dispatch x.1 g x.2.1 cb x.2.2).cbParam rest :=
  rfl

/-- The histogram counters after a sequence of events: each holds, modulo `2 ^ 64`,
the number of Started events whose latency fell into its bucket, and the count of
Started events holds the sum of these numbers modulo `2 ^ 64`. -/
theorem handleAll_histogram :
    ∀ (evs : List (EventKind × NlsEvent × CbEnv)) (g : Globals) (cb : ParamCallBack)
      (t : ParamStruct) (c : Bucket → Nat), cb.tParam = some t →
      (∀ b, bucketValue t b = c b % U64) →
      t.startedConsumed =
        (c .s50 + c .s100 + c .s200 + c .s500 + c .s1000 + c .s2000) % U64 →
      ∃ (t2 : ParamStruct) (c2 : Bucket → Nat),
        tParamOf (handleAll g (some cb) evs).2 = some t2 ∧
        (∀ b, bucketValue t2 b = c2 b % U64) ∧
        t2.startedConsumed =
          (c2 .s50 + c2 .s100 + c2 .s200 + c2 .s500 + c2 .s1000 + c2 .s2000) % U64 ∧
        c2 .s50 + c2 .s100 + c2 .s200 + c2 .s500 + c2 .s1000 + c2 .s2000 =
          c .s50 + c .s100 + c .s200 + c .s500 + c .s1000 + c .s2000 + numStarted evs := by
  intro evs
  induction evs with
  | nil =>
    intro g cb t c ht hb hs
    exact ⟨t, c, by simp [handleAll, tParamOf, ht], hb, hs, by simp [numStarted]⟩
  | cons x rest ih =>
    intro g cb t c ht hb hs
    obtain ⟨d1, d2, d3⟩ := dispatch_start_fields x.1 g x.2.1 cb t x.2.2 ht
    rw [handleAll_cons]
    rcases hcb : (dispatch x.1 g x.2.1 (some cb) x.2.2).cbParam with _ | cb1
    · rw [hcb] at d1
      simp at d1
    · rw [hcb] at d2 d3
      simp only [tParamOf] at d2 d3
      rcases ht1 : cb1.tParam with _ | t1
      · rw [ht1] at d3
        simp at d3
      · rw [ht1] at d2 d3
        simp only [Option.map_some', Option.some.injEq] at d2 d3
        by_cases hk : x.1 = EventKind.Started
        · simp only [hk, if_true] at d2 d3
          have hn : numStarted (x :: rest) = numStarted rest + 1 := by
            simp [numStarted, List.filter_cons, hk]
          obtain ⟨t2, c2, e1, e2, e3, e4⟩ := ih (dispatch x.1 g x.2.1 (some cb) x.2.2).g cb1 t1
            (Function.update c (startBucket (timeValueOf cb.startTv x.2.2.now))
              (c (startBucket (timeValueOf cb.startTv x.2.2.now)) + 1)) ht1
            (by
              intro b
              rw [d2 b, (recordStarted_buckets t _ b).1, hb b]
              by_cases hbb : startBucket (timeValueOf cb.startTv x.2.2.now) = b
              · subst hbb
                simp only [if_true, Function.update_same]
                exact Nat.mod_add_mod _ _ _
              · simp only [hbb, if_false]
                rw [Function.update_noteq (Ne.symm hbb)])
            (by
              rw [d3, hs]
              cases hbk : startBucket (timeValueOf cb.startTv x.2.2.now) <;>
                simp only [Function.update, eq_rec_constant, dite_eq_ite, if_true, if_false,
                  reduceCtorEq, U64] <;> omega)
          refine ⟨t2, c2, e1, e2, e3, ?_⟩
          rw [e4, hn]
          cases hbk : startBucket (timeValueOf cb.startTv x.2.2.now) <;>
            simp [Function.update] <;> omega
        · simp only [hk, if_false] at d2 d3
          have hn : numStarted (x :: rest) = numStarted rest := by
            simp [numStarted, List.filter_cons, hk]
          obtain ⟨t2, c2, e1, e2, e3, e4⟩ := ih (dispatch x.1 g x.2.1 (some cb) x.2.2).g cb1 t1 c
            ht1 (fun b => by rw [d2 b, hb b]) (by rw [d3, hs])
          exact ⟨t2, c2, e1, e2, e3, by rw [e4, hn]⟩

/-- C24: the Started callback of a session increments the counter of exactly one
of the six histogram buckets, the one chosen by the latency `t` of the event:
`s50` for `t ≤ 50`, `s100` for `50 < t ≤ 100`, `s200` for `100 < t ≤ 200`, `s500`
for `200 < t ≤ 500`, `s1000` for `500 < t ≤ 1000`, `s2000` for `t > 1000`; the
other five counters are unchanged. Hence after any sequence of events handled for
a session whose counters started at zero, the sum of the six counters equals
`startedConsumed` modulo `2 ^ 64`, and as long as fewer than `2 ^ 64` Started
events have been handled (no 64-bit counter has wrapped) the sum equals
`startedConsumed`, which is the number of Started events. -/
theorem histogram_partitions_started_events (g : Globals) (cb : ParamCallBack)
    (t : ParamStruct) (evs : List (EventKind × NlsEvent × CbEnv)) (ht : cb.tParam = some t)
    (hzero : t.startedConsumed = 0 ∧ bucketSum t = 0) :
    (∀ (g1 : Globals) (ev : NlsEvent) (env : CbEnv) (cb1 : ParamCallBack) (t1 : ParamStruct),
      cb1.tParam = some t1 →
      ∃ t2, tParamOf (dispatch .Started g1 ev (some cb1) env).cbParam = some t2 ∧
        ∀ b, bucketValue t2 b =
          (if startBucket (timeValueOf cb1.startTv env.now) = b then
            (bucketValue t1 b + 1) % U64
          else bucketValue t1 b)) ∧
    (∀ τ : Nat,
      (startBucket τ = Bucket.s50 ↔ τ ≤ 50) ∧
      (startBucket τ = Bucket.s100 ↔ (50 < τ ∧ τ ≤ 100)) ∧
      (startBucket τ = Bucket.s200 ↔ (100 < τ ∧ τ ≤ 200)) ∧
      (startBucket τ = Bucket.s500 ↔ (200 < τ ∧ τ ≤ 500)) ∧
      (startBucket τ = Bucket.s1000 ↔ (500 < τ ∧ τ ≤ 1000)) ∧
      (startBucket τ = Bucket.s2000 ↔ 1000 < τ)) ∧
    ∃ t2, tParamOf (handleAll g (some cb) evs).2 = some t2 ∧
      bucketSum t2 % U64 = t2.startedConsumed ∧
      (numStarted evs < U64 →
        bucketSum t2 = t2.startedConsumed ∧ t2.startedConsumed = numStarted evs) := by
  refine ⟨?_, startBucket_ranges, ?_⟩
  · intro g1 ev env cb1 t1 h1
    obtain ⟨_, d2, _⟩ := dispatch_start_fields .Started g1 ev cb1 t1 env h1
    rcases h2 : tParamOf (dispatch .Started g1 ev (some cb1) env).cbParam with _ | t2
    · have := d2 Bucket.s50
      rw [h2] at this
      simp at this
    · refine ⟨t2, rfl, fun b => ?_⟩
      have := d2 b
      rw [h2] at this
      simp only [Option.map_some', Option.some.injEq, if_true] at this
      rw [this, (recordStarted_buckets t1 _ b).1]
  · obtain ⟨hz1, hz2⟩ := hzero
    have hz : ∀ b, bucketValue t b = 0 := by
      unfold bucketSum at hz2
      intro b
      cases b <;> simp only [bucketValue] <;> omega
    obtain ⟨t2, c2, e1, e2, e3, e4⟩ := handleAll_histogram evs g cb t (fun _ => 0) ht
      (fun b => by rw [hz b]; rfl) (by rw [hz1]; rfl)
    have b1 := e2 .s50
    have b2 := e2 .s100
    have b3 := e2 .s200
    have b4 := e2 .s500
    have b5 := e2 .s1000
    have b6 := e2 .s2000
    simp only [bucketValue] at b1 b2 b3 b4 b5 b6
    refine ⟨t2, e1, ?_, ?_⟩
    · unfold bucketSum
      rw [e3, b1, b2, b3, b4, b5, b6]
      simp only [U64]
      omega
    · intro hn
      unfold bucketSum
      rw [e3, b1, b2, b3, b4, b5, b6]
      simp only [U64] at hn ⊢
      omega

/-- The instance of `histogram_partitions_started_events` for a session that
handles a Started event with latency 30 ms, a ResultChanged event and a Started
event with latency 70 ms. -/
theorem histogram_partitions_started_events_witness :
    ∃ t2, tParamOf (handleAll Globals.init (some cbParam0)
        [eventAt .Started ⟨0, 30000⟩, eventAt .ResultChanged ⟨0, 40000⟩,
          eventAt .Started ⟨0, 70000⟩]).2 = some t2 ∧
      bucketSum t2 % U64 = t2.startedConsumed ∧
      (numStarted [eventAt .Started ⟨0, 30000⟩, eventAt .ResultChanged ⟨0, 40000⟩,
          eventAt .Started ⟨0, 70000⟩] < U64 →
        bucketSum t2 = t2.startedConsumed ∧
        t2.startedConsumed = numStarted [eventAt .Started ⟨0, 30000⟩,
          eventAt .ResultChanged ⟨0, 40000⟩, eventAt .Started ⟨0, 70000⟩]) :=
  (histogram_partitions_started_events Globals.init cbParam0 _
    [eventAt .Started ⟨0, 30000⟩, eventAt .ResultChanged ⟨0, 40000⟩,
      eventAt .Started ⟨0, 70000⟩] rfl (by decide)).2.2

/-! ## The first result of a session -/

/-- The first-result flag and the first-result statistics behind a callback
parameter: the Started callback clears the flag; the ResultChanged callback, when
the flag is clear, sets it and records its latency; nothing else changes them. -/
theorem dispatch_first_fields (k : EventKind) (g : Globals) (ev : NlsEvent)
    (cb : ParamCallBack) (t : ParamStruct) (env : CbEnv) (ht : cb.tParam = some t) :
    (tParamOf (dispatch k g ev (some cb) env).cbParam).map
        (fun t1 => (t1.firstFlag, firstView t1)) =
      some (if k = EventKind.Started then (false, firstView t)
        else if k = EventKind.ResultChanged ∧ t.firstFlag = false then
          (true, (firstView t).record (timeValueOf cb.startTv env.now))
        else (t.firstFlag, firstView t)) := by
  cases k <;>
    simp only [dispatch, onTranscriptionStarted, onSentenceBegin, onSentenceEnd,
      onTranscriptionResultChanged, onTranscriptionCompleted, onTaskFailed, onChannelClosed, ht]
  case ResultChanged =>
    by_cases hf : t.firstFlag = false
    · simp [hf, tParamOf, firstView_recordFirst]
      simp [recordFirst]
    · simp [hf, tParamOf, ht]
  case Started => simp [tParamOf, firstView, recordStarted]
  case SentenceBegin => simp [tParamOf, ht]
  case SentenceEnd => simp [tParamOf, ht]
  case Completed => simp [tParamOf, firstView, recordCompleted]
  case TaskFailed => simp [tParamOf, firstView]
  case Closed => simp [tParamOf, firstView, recordClosed]

/-- The first-result flag and statistics after a sequence of events without a
Started event: with the flag clear at the beginning, the first ResultChanged event
of the sequence, if there is one, is recorded and sets the flag. -/
theorem handleAll_first :
    ∀ (evs : List (EventKind × NlsEvent × CbEnv)) (g : Globals) (cb : ParamCallBack)
      (t : ParamStruct), cb.tParam = some t → (∀ x ∈ evs, x.1 ≠ EventKind.Started) →
      (tParamOf (handleAll g (some cb) evs).2).map (fun t1 => (t1.firstFlag, firstView t1)) =
        some (if t.firstFlag = false then
            match firstResultChanged evs with
            | some x => (true, (firstView t).record (timeValueOf cb.startTv x.2.2.now))
            | none => (false, firstView t)
          else (t.firstFlag, firstView t)) := by
  intro evs
  induction evs with
  | nil =>
    intro g cb t ht _
    by_cases hf : t.firstFlag = false <;>
      simp [handleAll, tParamOf, ht, firstResultChanged, hf]
  | cons x rest ih =>
    intro g cb t ht hno
    have hx : x.1 ≠ EventKind.Started := hno x (List.mem_cons_self _ _)
    have hrest : ∀ y ∈ rest, y.1 ≠ EventKind.Started :=
      fun y hy => hno y (List.mem_cons_of_mem _ hy)
    have d := dispatch_first_fields x.1 g x.2.1 cb t x.2.2 ht
    obtain ⟨s1, _, _⟩ := dispatch_start_fields x.1 g x.2.1 cb t x.2.2 ht
    rw [handleAll_cons]
    rcases hcb : (dispatch x.1 g x.2.1 (some cb) x.2.2).cbParam with _ | cb1
    · rw [hcb] at s1
      simp at s1
    · rw [hcb] at d s1
      simp only [Option.map_some', Option.some.injEq] at s1
      simp only [tParamOf] at d
      rcases ht1 : cb1.tParam with _ | t1
      · rw [ht1] at d
        simp at d
      · rw [ht1] at d
        simp only [Option.map_some', Option.some.injEq, hx, if_false] at d
        rw [ih _ cb1 t1 ht1 hrest, s1]
        by_cases hk : x.1 = EventKind.ResultChanged
        · by_cases hf : t.firstFlag = false
          · rw [if_pos ⟨hk, hf⟩] at d
            obtain ⟨d1, d2⟩ := Prod.mk.inj d
            simp [d1, d2, hf, firstResultChanged, List.find?_cons, hk]
          · rw [if_neg (fun h => hf h.2)] at d
            obtain ⟨d1, d2⟩ := Prod.mk.inj d
            have hft : t.firstFlag = true := by simpa using hf
            simp [d1, d2, hft]
        · rw [if_neg (fun h => hk h.1)] at d
          obtain ⟨d1, d2⟩ := Prod.mk.inj d
          by_cases hf : t.firstFlag = false
          · simp [d1, d2, hf, firstResultChanged, List.find?_cons, hk]
          · have hft : t.firstFlag = true := by simpa using hf
            simp [d1, d2, hft]

/-- No step of a worker changes the first-result flag or the first-result
statistics behind its callback parameter. -/
theorem workerStep_first_fields (cfg : Config) (g : Globals) (wk : Worker)
    (inp : WorkerInput) :
    (workerStep cfg g wk inp).wk.cbParam.tParam.map (fun t => (t.firstFlag, firstView t)) =
      wk.cbParam.tParam.map (fun t => (t.firstFlag, firstView t)) := by
  have hs := (sendFrame_frame cfg wk)
  unfold workerStep pthreadFunction pthreadLongConnectionFunction
  by_cases hlong : cfg.longConnection = true <;> cases hpc : wk.pc <;> cases inp <;>
    simp only [hlong, if_true, if_false, Bool.false_eq_true] <;>
    (try split) <;> (try split_ifs) <;>
    (try simp only [(hs _ _).1, (endIteration_frame _ _ _ _).1, finishWorker, afterSend,
      Worker.modTst]) <;>
    first
      | rfl
      | (cases wk.cbParam.tParam <;> rfl)

/-- C25: after a Started event has been handled for a session, and until the next
Started event, the first ResultChanged event handled for the session, and only
that one, increments `firstConsumed` and records its latency in the first-result
statistics (total, average, maximum, minimum); every later ResultChanged event,
like every event of another kind, leaves the first-result count and statistics
unchanged. So after the Started event and a sequence `evs` of events without a
Started event, the first-result fields are those before the Started event, updated
once with the latency of the first ResultChanged event of `evs`, if there is one. -/
theorem only_first_result_is_recorded (g : Globals) (cb : ParamCallBack) (t : ParamStruct)
    (ev0 : NlsEvent) (env0 : CbEnv) (evs : List (EventKind × NlsEvent × CbEnv))
    (ht : cb.tParam = some t) (hno : ∀ x ∈ evs, x.1 ≠ EventKind.Started) :
    (tParamOf (handleAll g (some cb) ((EventKind.Started, ev0, env0) :: evs)).2).map firstView =
      some (match firstResultChanged evs with
        | some x => (firstView t).record (timeValueOf cb.startTv x.2.2.now)
        | none => firstView t) ∧
    (∀ (pre : List (EventKind × NlsEvent × CbEnv)) (ev : NlsEvent) (env : CbEnv),
      evs = pre ++ [(EventKind.ResultChanged, ev, env)] →
      (tParamOf (handleAll g (some cb) ((EventKind.Started, ev0, env0) :: evs)).2).map
          firstView =
        (tParamOf (handleAll g (some cb) ((EventKind.Started, ev0, env0) :: pre)).2).map
          (fun t1 =>
            if ∃ y ∈ pre, y.1 = EventKind.ResultChanged then firstView t1
            else (firstView t1).record (timeValueOf cb.startTv env.now))) := by
  have closed : ∀ l : List (EventKind × NlsEvent × CbEnv),
      (∀ x ∈ l, x.1 ≠ EventKind.Started) →
      (tParamOf (handleAll g (some cb) ((EventKind.Started, ev0, env0) :: l)).2).map
          firstView =
        some (match firstResultChanged l with
          | some x => (firstView t).record (timeValueOf cb.startTv x.2.2.now)
          | none => firstView t) := by
    intro l hl
    have d := dispatch_first_fields .Started g ev0 cb t env0 ht
    obtain ⟨s1, _, _⟩ := dispatch_start_fields .Started g ev0 cb t env0 ht
    rw [handleAll_cons]
    rcases hcb : (dispatch .Started g ev0 (some cb) env0).cbParam with _ | cb1
    · rw [hcb] at s1
      simp at s1
    · rw [hcb] at d s1
      simp only [Option.map_some', Option.some.injEq] at s1
      simp only [tParamOf] at d
      rcases ht1 : cb1.tParam with _ | t1
      · rw [ht1] at d
        simp at d
      · rw [ht1] at d
        simp only [Option.map_some', Option.some.injEq, if_true] at d
        obtain ⟨d1, d2⟩ := Prod.mk.inj d
        have h := handleAll_first l (dispatch .Started g ev0 (some cb) env0).g cb1 t1 ht1 hl
        rw [d1, d2, s1] at h
        simp only [if_true] at h
        have h2 := congrArg (Option.map Prod.snd) h
        simp only [Option.map_map, Option.map_some'] at h2
        rw [show (Prod.snd ∘ fun t1 : ParamStruct => (t1.firstFlag, firstView t1)) = firstView
          from rfl] at h2
        rw [h2]
        cases firstResultChanged l <;> rfl
  refine ⟨closed evs hno, ?_⟩
  intro pre ev env hsplit
  have hpre : ∀ x ∈ pre, x.1 ≠ EventKind.Started := fun x hx =>
    hno x (by rw [hsplit]; exact List.mem_append_left _ hx)
  have hc := closed pre hpre
  rw [closed evs hno, hsplit]
  rcases hX : tParamOf (handleAll g (some cb) ((EventKind.Started, ev0, env0) :: pre)).2
    with _ | tp
  · rw [hX] at hc
    simp at hc
  · rw [hX] at hc
    simp only [Option.map_some', Option.some.injEq] at hc ⊢
    rw [hc]
    simp only [firstResultChanged, List.find?_append]
    by_cases hex : ∃ y ∈ pre, y.1 = EventKind.ResultChanged
    · obtain ⟨y, hy, hyk⟩ := hex
      have hsome : (pre.find? (fun x => decide (x.1 = EventKind.ResultChanged))).isSome := by
        rw [List.find?_isSome]
        exact ⟨y, hy, by simp [hyk]⟩
      rcases hf : pre.find? (fun x => decide (x.1 = EventKind.ResultChanged)) with _ | z
      · rw [hf] at hsome
        simp at hsome
      · have hex2 : ∃ y ∈ pre, y.1 = EventKind.ResultChanged := ⟨y, hy, hyk⟩
        simp [hex2, hf]
    · have hnone : pre.find? (fun x => decide (x.1 = EventKind.ResultChanged)) = none := by
        rw [List.find?_eq_none]
        intro y hy
        simp only [decide_eq_true_eq]
        exact fun h => hex ⟨y, hy, h⟩
      simp [hnone, hex, List.find?_cons]

/-- The instance of `only_first_result_is_recorded` for a session that handles a
Started event and then two ResultChanged events 40 ms and 90 ms after the start:
the first-result statistics hold the single sample 40. -/
theorem only_first_result_is_recorded_witness :
    (tParamOf (handleAll Globals.init (some cbParam0)
      ((EventKind.Started, NlsEvent.blank, CbEnv.blank) ::
        [eventAt .ResultChanged ⟨0, 40000⟩, eventAt .ResultChanged ⟨0, 90000⟩])).2).map
      firstView = some { consumed := 1, total := 40, ave := 40, max := 40, min := 40 } :=
  (only_first_result_is_recorded Globals.init cbParam0 _ NlsEvent.blank CbEnv.blank
    [eventAt .ResultChanged ⟨0, 40000⟩, eventAt .ResultChanged ⟨0, 90000⟩] rfl
    (by decide)).1

/-! ## Properties kept by the command line -/

theorem parseEnd_cfg (cfg : Config) : (parseEnd cfg).cfg = cfg := by
  unfold parseEnd
  split_ifs <;> rfl

/-- A property of the globals that every pass of the loop of `parse_argv` keeps,
for the arguments that satisfy `Q` together with their successor, holds of the
globals that `parse_argv` leaves. -/
theorem parseLoop_inv (P : Config → Prop) (Q : String → Option String → Prop)
    (hstep : ∀ cfg arg next, Q arg next → P cfg → P (parseArg cfg arg next).cfg) (n : Nat) :
    ∀ (args : List String) (cfg : Config), args.length ≤ n →
      (∀ pre arg rest, args = pre ++ arg :: rest → Q arg rest.head?) → P cfg →
      P (parseLoop cfg args).cfg := by
  induction n with
  | zero =>
    intro args cfg hlen _ hP
    have : args = [] := List.length_eq_zero.mp (Nat.le_zero.mp hlen)
    subst this
    rw [parseLoop.eq_def]
    simpa [parseEnd_cfg] using hP
  | succ n ih =>
    intro args cfg hlen hQ hP
    rcases args with _ | ⟨arg, rest⟩
    · rw [parseLoop.eq_def]
      simpa [parseEnd_cfg] using hP
    · have hlen := Nat.le_of_succ_le_succ hlen
      have h1 := hstep cfg arg rest.head? (hQ [] arg rest rfl) hP
      have hQrest : ∀ pre a r, rest = pre ++ a :: r → Q a r.head? := fun pre a r h =>
        hQ (arg :: pre) a r (by rw [h]; rfl)
      rw [parseLoop.eq_def]
      simp only
      rcases hs : parseArg cfg arg rest.head? with ⟨r, c⟩ | c | c | c
      · rw [hs] at h1
        exact h1
      · rw [hs] at h1
        exact h1
      · rw [hs] at h1
        exact ih rest c hlen hQrest h1
      · rw [hs] at h1
        rcases rest with _ | ⟨v, rest2⟩
        · simpa [parseEnd_cfg] using h1
        · exact ih rest2 c (Nat.le_of_succ_le hlen)
            (fun pre a r h => hQrest (v :: pre) a r (by rw [h]; rfl)) h1

/-- A pass of the loop of `parse_argv` changes the sample rate only for the option
`--sampleRate` and the number of threads only for the option `--threads`. -/
theorem parseArg_keeps_rate_threads (cfg : Config) (arg : String) (next : Option String) :
    (arg ≠ "--sampleRate" → (parseArg cfg arg next).cfg.sample_rate = cfg.sample_rate) ∧
    (arg ≠ "--threads" → (parseArg cfg arg next).cfg.g_threads = cfg.g_threads) := by
  by_cases hmem : arg ∈ valueOptions
  · simp only [valueOptions, List.mem_cons, List.mem_singleton, List.mem_nil_iff,
      or_false] at hmem
    rcases hmem with h | h | h | h | h | h | h | h | h | h | h | h | h | h | h | h | h | h |
      h | h | h
    all_goals
      subst h
      constructor <;> intro hne <;>
      first
        | exact absurd rfl hne
        | (cases next <;> simp [parseArg, needValue, ArgStep.cfg] <;> split_ifs <;> simp)
  · rw [parseArg_other cfg arg next hmem]
    exact ⟨fun _ => rfl, fun _ => rfl⟩

theorem parse_argv_keeps_sample_rate (cfg : Config) (args : List String)
    (h : "--sampleRate" ∉ args) : (parse_argv cfg args).cfg.sample_rate = cfg.sample_rate := by
  apply parseLoop_inv (fun c => c.sample_rate = cfg.sample_rate)
    (fun arg _ => arg ≠ "--sampleRate")
    (fun c arg next hq hp => ((parseArg_keeps_rate_threads c arg next).1 hq).trans hp)
    args.length args cfg (Nat.le_refl _) ?_ rfl
  intro pre arg rest hsplit harg
  apply h
  rw [hsplit, harg]
  simp

theorem parse_argv_keeps_threads (cfg : Config) (args : List String)
    (h : "--threads" ∉ args) : (parse_argv cfg args).cfg.g_threads = cfg.g_threads := by
  apply parseLoop_inv (fun c => c.g_threads = cfg.g_threads)
    (fun arg _ => arg ≠ "--threads")
    (fun c arg next hq hp => ((parseArg_keeps_rate_threads c arg next).2 hq).trans hp)
    args.length args cfg (Nat.le_refl _) ?_ rfl
  intro pre arg rest hsplit harg
  apply h
  rw [hsplit, harg]
  simp

/-- The divisor `bytesMs` is zero exactly for the sample rates between -499 and
499. -/
theorem bytesMs_ne_zero_iff (r : Int) : bytesMs r ≠ 0 ↔ 500 ≤ r.natAbs := by
  unfold bytesMs
  simp only
  rcases Int.le_total 0 r with h | h
  · have e1 : Int.tdiv (r * 16 * 1) 8 = (r * 16 * 1) / 8 :=
      Int.tdiv_eq_ediv (by omega) (by omega)
    rw [e1]
    have e2 : Int.tdiv ((r * 16 * 1) / 8) 1000 = (r * 16 * 1) / 8 / 1000 :=
      Int.tdiv_eq_ediv (by omega) (by omega)
    rw [e2]
    omega
  · have e : r * 16 * 1 = -((-r) * 16) := by ring
    have e1 : Int.tdiv ((-r) * 16) 8 = ((-r) * 16) / 8 :=
      Int.tdiv_eq_ediv (by omega) (by omega)
    have e2 : Int.tdiv (((-r) * 16) / 8) 1000 = ((-r) * 16) / 8 / 1000 :=
      Int.tdiv_eq_ediv (by omega) (by omega)
    rw [e, Int.neg_tdiv, e1, Int.neg_tdiv, e2]
    omega

/-- The divisor of the averages is zero exactly when `threads` is a multiple of
`2 ^ 64`; in the range of `int` that is when `threads` is 0. -/
theorem aveDivisor_ne_zero_iff (threads : Int) :
    aveDivisor threads ≠ 0 ↔ threads % 18446744073709551616 ≠ 0 := by
  unfold aveDivisor toU64
  simp only [U64]
  omega


/-- The value of `atoi` is in the range of `int`. -/
theorem atoi_range (s : String) : -2147483648 ≤ atoi s ∧ atoi s < 2147483648 := by
  unfold atoi u32ToInt
  simp only [U32]
  generalize toU32 (strtol s) = n
  split_ifs <;> constructor <;> omega

/-- The value of `atoi` is the number written in the string when that number is in
the range of `int`. -/
theorem atoi_of_int (s : String) (h1 : -2147483648 ≤ decimalPrefix s)
    (h2 : decimalPrefix s < 2147483648) : atoi s = decimalPrefix s := by
  have a1 : ¬ decimalPrefix s > 9223372036854775807 := by omega
  have a2 : ¬ decimalPrefix s < -9223372036854775808 := by omega
  unfold atoi u32ToInt toU32 strtol
  simp only [U32, a1, a2, if_false]
  generalize decimalPrefix s = z at h1 h2
  split_ifs <;> omega

/-- A pass of the loop of `parse_argv` leaves the thread count and the sample rate
in the range of `int`. -/
theorem parseArg_int_range (cfg : Config) (arg : String) (next : Option String)
    (h : (-2147483648 ≤ cfg.g_threads ∧ cfg.g_threads < 2147483648) ∧
      (-2147483648 ≤ cfg.sample_rate ∧ cfg.sample_rate < 2147483648)) :
    (-2147483648 ≤ (parseArg cfg arg next).cfg.g_threads ∧
      (parseArg cfg arg next).cfg.g_threads < 2147483648) ∧
    (-2147483648 ≤ (parseArg cfg arg next).cfg.sample_rate ∧
      (parseArg cfg arg next).cfg.sample_rate < 2147483648) := by
  obtain ⟨k1, k2⟩ := parseArg_keeps_rate_threads cfg arg next
  constructor
  · by_cases ht : arg = "--threads"
    · subst ht
      cases next with
      | none => simpa [parseArg, needValue, ArgStep.cfg] using h.1
      | some v => simpa [parseArg, needValue, ArgStep.cfg] using atoi_range v
    · rw [k2 ht]
      exact h.1
  · by_cases hr : arg = "--sampleRate"
    · subst hr
      cases next with
      | none => simpa [parseArg, needValue, ArgStep.cfg] using h.2
      | some v =>
        have hv := atoi_range v
        simp only [parseArg, needValue, ArgStep.cfg]
        simp
        split_ifs <;> simp <;> omega
    · rw [k1 hr]
      exact h.2

/-- The thread count and the sample rate that `parse_argv` leaves, from the
initial globals, are in the range of `int`. -/
theorem parse_argv_int_range (args : List String) :
    (-2147483648 ≤ (parse_argv {} args).cfg.g_threads ∧
      (parse_argv {} args).cfg.g_threads < 2147483648) ∧
    (-2147483648 ≤ (parse_argv {} args).cfg.sample_rate ∧
      (parse_argv {} args).cfg.sample_rate < 2147483648) :=
  parseLoop_inv
    (fun c => (-2147483648 ≤ c.g_threads ∧ c.g_threads < 2147483648) ∧
      (-2147483648 ≤ c.sample_rate ∧ c.sample_rate < 2147483648))
    (fun _ _ => True) (fun c arg next _ hp => parseArg_int_range c arg next hp)
    args.length args {} (Nat.le_refl _) (fun _ _ _ _ => trivial) (by decide)

/-- The globals that `parse_argv` leaves when its arguments end with an option and
its value, every option before them being followed by its value: those left by
the arguments before, changed by the pass of the loop for that option. -/
theorem parseLoop_last_pair (opt v : String) (hopt : opt ∈ valueOptions) (n : Nat) :
    ∀ (pre : List String) (cfg : Config), pre.length ≤ n → valuesPresent pre = true →
      (parseLoop cfg (pre ++ [opt, v])).cfg =
        (parseArg (parseLoop cfg pre).cfg opt (some v)).cfg := by
  have base : ∀ cfg : Config, (parseLoop cfg ([] ++ [opt, v])).cfg =
      (parseArg (parseLoop cfg []).cfg opt (some v)).cfg := by
    intro cfg
    obtain ⟨c, hc⟩ := parseArg_value cfg opt v hopt
    have e1 : parseLoop cfg [] = parseEnd cfg := by rw [parseLoop.eq_def]
    have e2 : parseLoop c [] = parseEnd c := by rw [parseLoop.eq_def]
    rw [e1, parseEnd_cfg, hc, List.nil_append, parseLoop.eq_def]
    simp only [List.head?_cons, hc, e2, parseEnd_cfg, ArgStep.cfg]
  induction n with
  | zero =>
    intro pre cfg hlen _
    have : pre = [] := List.length_eq_zero.mp (Nat.le_zero.mp hlen)
    subst this
    exact base cfg
  | succ n ih =>
    intro pre cfg hlen hv
    rcases pre with _ | ⟨arg, rest⟩
    · exact base cfg
    · have hlen := Nat.le_of_succ_le_succ hlen
      by_cases ho : arg ∈ valueOptions
      · rcases rest with _ | ⟨v2, rest2⟩
        · simp [valuesPresent, ho] at hv
        · simp only [valuesPresent, ho, if_true] at hv
          obtain ⟨c, hc⟩ := parseArg_value cfg arg v2 ho
          have h2 := ih rest2 c (Nat.le_of_succ_le hlen) hv
          have l1 : parseLoop cfg ((arg :: v2 :: rest2) ++ [opt, v]) =
              parseLoop c (rest2 ++ [opt, v]) := by
            rw [List.cons_append, List.cons_append, parseLoop.eq_def]
            simp only [List.head?_cons, hc]
          have l2 : parseLoop cfg (arg :: v2 :: rest2) = parseLoop c rest2 := by
            rw [parseLoop.eq_def]
            simp only [List.head?_cons, hc]
          rw [l1, l2]
          exact h2
      · rw [valuesPresent.eq_def] at hv
        simp only [ho, if_false] at hv
        have h2 := ih rest cfg hlen hv
        have l1 : parseLoop cfg ((arg :: rest) ++ [opt, v]) = parseLoop cfg (rest ++ [opt, v]) := by
          rw [List.cons_append, parseLoop.eq_def]
          simp only [parseArg_other cfg arg _ ho]
        have l2 : parseLoop cfg (arg :: rest) = parseLoop cfg rest := by
          rw [parseLoop.eq_def]
          simp only [parseArg_other cfg arg _ ho]
        rw [l1, l2]
        exact h2

/-- The thread count left by arguments that end with `--threads v`, and the sample
rate left by arguments that end with `--sampleRate v`, is `atoi(v)`. -/
theorem parse_argv_last_value (cfg : Config) (pre : List String) (v : String)
    (hpre : valuesPresent pre = true) :
    (parse_argv cfg (pre ++ ["--threads", v])).cfg.g_threads = atoi v ∧
    (parse_argv cfg (pre ++ ["--sampleRate", v])).cfg.sample_rate = atoi v := by
  constructor
  · have h := parseLoop_last_pair "--threads" v (by decide) pre.length pre cfg (Nat.le_refl _) hpre
    unfold parse_argv
    rw [h]
    simp [parseArg, needValue, ArgStep.cfg]
  · have h := parseLoop_last_pair "--sampleRate" v (by decide) pre.length pre cfg (Nat.le_refl _)
      hpre
    unfold parse_argv
    rw [h]
    simp only [parseArg, needValue, ArgStep.cfg]
    simp
    split_ifs <;> rfl

/-! ## The frame size of the compressed formats -/

/-- A pass of the loop of `parse_argv` keeps the frame size of the formats OPU and
OPUS at 640 or 320 bytes, and at 640 bytes for an option other than `--sampleRate`. -/
theorem parseArg_opus_frame (cfg : Config) (arg : String) (next : Option String) :
    (((cfg.encoder_type = ENCODER_TYPE.ENCODER_OPU ∨
        cfg.encoder_type = ENCODER_TYPE.ENCODER_OPUS) →
        (cfg.frame_size = 640 ∨ cfg.frame_size = 320)) →
      ((parseArg cfg arg next).cfg.encoder_type = ENCODER_TYPE.ENCODER_OPU ∨
        (parseArg cfg arg next).cfg.encoder_type = ENCODER_TYPE.ENCODER_OPUS) →
        ((parseArg cfg arg next).cfg.frame_size = 640 ∨
          (parseArg cfg arg next).cfg.frame_size = 320)) ∧
    (arg ≠ "--sampleRate" →
      ((cfg.encoder_type = ENCODER_TYPE.ENCODER_OPU ∨
        cfg.encoder_type = ENCODER_TYPE.ENCODER_OPUS) → cfg.frame_size = 640) →
      ((parseArg cfg arg next).cfg.encoder_type = ENCODER_TYPE.ENCODER_OPU ∨
        (parseArg cfg arg next).cfg.encoder_type = ENCODER_TYPE.ENCODER_OPUS) →
        (parseArg cfg arg next).cfg.frame_size = 640) := by
  by_cases hmem : arg ∈ valueOptions
  · simp only [valueOptions, List.mem_cons, List.mem_singleton, List.mem_nil_iff,
      or_false] at hmem
    rcases hmem with h | h | h | h | h | h | h | h | h | h | h | h | h | h | h | h | h | h |
      h | h | h
    all_goals
      subst h
      constructor
      · cases next <;>
          simp [parseArg, needValue, ArgStep.cfg, FRAME_16K_20MS, FRAME_16K_100MS,
            FRAME_8K_20MS, SAMPLE_RATE_8K, SAMPLE_RATE_16K] <;>
          (try split_ifs) <;> simp_all
      · intro hne
        first
          | exact absurd rfl hne
          | (cases next <;>
              simp [parseArg, needValue, ArgStep.cfg, FRAME_16K_20MS, FRAME_16K_100MS] <;>
              (try split_ifs) <;> simp_all)
  · rw [parseArg_other cfg arg next hmem]
    exact ⟨fun h => h, fun _ h => h⟩

/-- The globals left by `parse_argv` from the initial globals: with the format OPU
or OPUS the frame size is 640 or 320 bytes, and it is 640 bytes when the arguments
contain no `--sampleRate`. -/
theorem parse_argv_opus_frame (args : List String) :
    (((parse_argv {} args).cfg.encoder_type = ENCODER_TYPE.ENCODER_OPU ∨
        (parse_argv {} args).cfg.encoder_type = ENCODER_TYPE.ENCODER_OPUS) →
      ((parse_argv {} args).cfg.frame_size = 640 ∨ (parse_argv {} args).cfg.frame_size = 320)) ∧
    ("--sampleRate" ∉ args →
      ((parse_argv {} args).cfg.encoder_type = ENCODER_TYPE.ENCODER_OPU ∨
        (parse_argv {} args).cfg.encoder_type = ENCODER_TYPE.ENCODER_OPUS) →
      (parse_argv {} args).cfg.frame_size = 640) := by
  constructor
  · exact parseLoop_inv
      (fun c => (c.encoder_type = ENCODER_TYPE.ENCODER_OPU ∨
        c.encoder_type = ENCODER_TYPE.ENCODER_OPUS) → (c.frame_size = 640 ∨ c.frame_size = 320))
      (fun _ _ => True) (fun c arg next _ hp => (parseArg_opus_frame c arg next).1 hp)
      args.length args {} (Nat.le_refl _) (fun _ _ _ _ => trivial) (fun _ => Or.inl rfl)
  · intro h
    refine parseLoop_inv
      (fun c => (c.encoder_type = ENCODER_TYPE.ENCODER_OPU ∨
        c.encoder_type = ENCODER_TYPE.ENCODER_OPUS) → c.frame_size = 640)
      (fun arg _ => arg ≠ "--sampleRate")
      (fun c arg next hq hp => (parseArg_opus_frame c arg next).2 hq hp)
      args.length args {} (Nat.le_refl _) ?_ (fun _ => rfl)
    intro pre arg rest hsplit harg
    apply h
    rw [hsplit, harg]
    simp

/-- C21, the code at the failing input: `parse_argv` accepts the arguments
`--appkey k --token t --sampleRate 8000` and leaves the format OPUS, the initial
value of `encoder_type`, with the frame size 320; in the run that follows the
request is configured with the format `opus` and the first `sendAudio` call
carries 320 bytes, not the 640 bytes that the note on `sendAudio` requires for
the formats OPU and OPUS. -/
theorem sample_rate_8k_leaves_opus_with_320_byte_frames :
    parse_argv {} argsRate8K =
      ParseOut.returned 0
        { g_appkey := "k", g_token := "t", sample_rate := 8000, frame_size := 320 } ∧
    (parse_argv {} argsRate8K).cfg.encoder_type = ENCODER_TYPE.ENCODER_OPUS ∧
    (parse_argv {} argsRate8K).cfg.frame_size = 320 ∧
    Op.setFormat "opus" ∈ requestSettings (parse_argv {} argsRate8K).cfg ∧
    firstFrameRate8K.2.head? = some (Op.sendAudio 320 0) := by
  decide

/-! ## The divisors of a run -/

/-- C26, counterexample: `parse_argv` accepts the arguments
`--appkey k --token t --threads 0`, which leave the thread count 0, the divisor of
the per-thread averages in `speechTranscriberMultFile` (with no thread the
aggregation has no result); it accepts `--threads 4294967296` as well, of which
`atoi` keeps the low 32 bits, 0. It also accepts
`--appkey k --token t --sampleRate 0`, which leave the sample rate 0 and so the
divisor `bytesMs = 0` in `getAudioFileTimeMs`. -/
theorem accepted_arguments_with_zero_divisor :
    parse_argv {} ["--appkey", "k", "--token", "t", "--threads", "0"] =
      ParseOut.returned 0 { g_appkey := "k", g_token := "t", g_threads := 0 } ∧
    parse_argv {} ["--appkey", "k", "--token", "t", "--threads", "4294967296"] =
      ParseOut.returned 0 { g_appkey := "k", g_token := "t", g_threads := 0 } ∧
    aveDivisor 0 = 0 ∧ aggregate [] = none ∧
    parse_argv {} ["--appkey", "k", "--token", "t", "--sampleRate", "0"] =
      ParseOut.returned 0 { g_appkey := "k", g_token := "t", sample_rate := 0 } ∧
    bytesMs 0 = 0 := by
  decide

/-- C26, amended: for every argument vector that `parse_argv` accepts from the
initial globals, the configured thread count and sample rate are values of `int`
(what `atoi` makes of the last `--threads` and `--sampleRate` value; 1 and 16000
without these options); `parse_argv` checks neither. The divisor of the
per-thread averages is non-zero exactly when the configured thread count is not
0. For a configured sample rate `r` with `|r| < 2 ^ 27`, so that `r * 16` fits in
an `int`, `bytesMs` is the divisor of `getAudioFileTimeMs` and it is non-zero
exactly when `|r| ≥ 500`. Both divisors are non-zero when the arguments contain
no `--sampleRate` (the sample rate is 16000 and `bytesMs` is 32) and no
`--threads` (the thread count is 1). -/
theorem divisors_of_accepted_arguments (args : List String) (cfg2 : Config)
    (hacc : parse_argv {} args = ParseOut.returned 0 cfg2) :
    (-2147483648 ≤ cfg2.g_threads ∧ cfg2.g_threads < 2147483648) ∧
    (aveDivisor cfg2.g_threads ≠ 0 ↔ cfg2.g_threads ≠ 0) ∧
    (-2147483648 ≤ cfg2.sample_rate ∧ cfg2.sample_rate < 2147483648) ∧
    (-134217728 < cfg2.sample_rate → cfg2.sample_rate < 134217728 →
      (∀ d c, getAudioFileTimeMs_int d cfg2.sample_rate c =
        Int.tdiv (d * c) (bytesMs cfg2.sample_rate)) ∧
      (bytesMs cfg2.sample_rate ≠ 0 ↔ 500 ≤ cfg2.sample_rate.natAbs)) ∧
    (∀ pre v, args = pre ++ ["--threads", v] → valuesPresent pre = true →
      cfg2.g_threads = atoi v ∧ (aveDivisor cfg2.g_threads ≠ 0 ↔ atoi v ≠ 0)) ∧
    (∀ pre v, args = pre ++ ["--sampleRate", v] → valuesPresent pre = true →
      cfg2.sample_rate = atoi v) ∧
    ("--sampleRate" ∉ args → cfg2.sample_rate = 16000 ∧ bytesMs cfg2.sample_rate = 32) ∧
    ("--threads" ∉ args → cfg2.g_threads = 1 ∧ aveDivisor cfg2.g_threads = 1) := by
  have hcfg : (parse_argv {} args).cfg = cfg2 := by rw [hacc]; rfl
  have hrange := parse_argv_int_range args
  rw [hcfg] at hrange
  have hdiv : aveDivisor cfg2.g_threads ≠ 0 ↔ cfg2.g_threads ≠ 0 := by
    rw [aveDivisor_ne_zero_iff]
    have := hrange.1
    omega
  refine ⟨hrange.1, hdiv, hrange.2, ?_, ?_, ?_, ?_, ?_⟩
  · intro _ _
    exact ⟨fun _ _ => rfl, bytesMs_ne_zero_iff _⟩
  · intro pre v hargs hpre
    have h := (parse_argv_last_value {} pre v hpre).1
    rw [← hargs, hcfg] at h
    exact ⟨h, by rw [hdiv, h]⟩
  · intro pre v hargs hpre
    have h := (parse_argv_last_value {} pre v hpre).2
    rw [← hargs, hcfg] at h
    exact h
  · intro h
    have := parse_argv_keeps_sample_rate {} args h
    rw [hcfg] at this
    rw [this]
    exact ⟨rfl, by decide⟩
  · intro h
    have := parse_argv_keeps_threads {} args h
    rw [hcfg] at this
    rw [this]
    exact ⟨rfl, by decide⟩

/-- The instance of `divisors_of_accepted_arguments` for the arguments
`--appkey k --token t`. -/
theorem divisors_of_accepted_arguments_witness :
    bytesMs ({ g_appkey := "k", g_token := "t" } : Config).sample_rate = 32 ∧
    aveDivisor ({ g_appkey := "k", g_token := "t" } : Config).g_threads = 1 :=
  have h := divisors_of_accepted_arguments ["--appkey", "k", "--token", "t"]
    { g_appkey := "k", g_token := "t" } (by decide)
  ⟨(h.2.2.2.2.2.2.1 (by decide)).2, (h.2.2.2.2.2.2.2 (by decide)).2⟩

/-! ## An option without its value -/

/-- A pass of the loop of `parse_argv` for an option that takes a value, other
than `--frameSize`, at the last position: `invalied_argv` makes `parse_argv`
return 1, and nothing is stored. -/
theorem parseArg_missing (cfg : Config) (arg : String) (h : arg ∈ valueOptions)
    (hfs : arg ≠ "--frameSize") : parseArg cfg arg none = ArgStep.ret 1 cfg := by
  simp only [valueOptions, List.mem_cons, List.mem_singleton, List.mem_nil_iff,
    or_false] at h
  rcases h with h | h | h | h | h | h | h | h | h | h | h | h | h | h | h | h | h | h | h | h | h
  all_goals
    subst h
    first
      | exact absurd rfl hfs
      | simp [parseArg, needValue]

/-- The loop of `parse_argv` on arguments that end with an option without its
value. -/
theorem parseLoop_missing (opt : String) (h : opt ∈ valueOptions)
    (hfs : opt ≠ "--frameSize") (n : Nat) :
    ∀ (pre : List String) (cfg : Config), pre.length ≤ n → valuesPresent pre = true →
      ∃ cfg2, parseLoop cfg (pre ++ [opt]) = ParseOut.returned 1 cfg2 := by
  induction n with
  | zero =>
    intro pre cfg hlen _
    have : pre = [] := List.length_eq_zero.mp (Nat.le_zero.mp hlen)
    subst this
    refine ⟨cfg, ?_⟩
    rw [List.nil_append, parseLoop.eq_def]
    simp only [List.head?_nil, parseArg_missing cfg opt h hfs]
  | succ n ih =>
    intro pre cfg hlen hv
    rcases pre with _ | ⟨arg, rest⟩
    · refine ⟨cfg, ?_⟩
      rw [List.nil_append, parseLoop.eq_def]
      simp only [List.head?_nil, parseArg_missing cfg opt h hfs]
    · have hlen := Nat.le_of_succ_le_succ hlen
      by_cases hopt : arg ∈ valueOptions
      · rcases rest with _ | ⟨v, rest2⟩
        · simp [valuesPresent, hopt] at hv
        · simp only [valuesPresent, hopt, if_true] at hv
          obtain ⟨c, hc⟩ := parseArg_value cfg arg v hopt
          obtain ⟨cfg2, h2⟩ := ih rest2 c (Nat.le_of_succ_le hlen) hv
          refine ⟨cfg2, ?_⟩
          rw [List.cons_append, List.cons_append, parseLoop.eq_def]
          simp only [List.head?_cons, hc]
          exact h2
      · rw [valuesPresent.eq_def] at hv
        simp only [hopt, if_false] at hv
        obtain ⟨cfg2, h2⟩ := ih rest cfg hlen hv
        refine ⟨cfg2, ?_⟩
        rw [List.cons_append, parseLoop.eq_def]
        simp only [parseArg_other cfg arg _ hopt]
        exact h2

/-- C27, counterexample: the arguments `--token t --appkey --akId` end with the
option `--akId`, which takes a value, yet `parse_argv` returns 0: `--akId` is
read as the value of `--appkey`. The arguments that consist of `--frameSize`
alone make `parse_argv` read `argv[argc]`: its branch has no call of
`invalied_argv`. -/
theorem last_option_accepted_or_read_past_end :
    parse_argv {} ["--token", "t", "--appkey", "--akId"] =
      ParseOut.returned 0 { g_token := "t", g_appkey := "--akId" } ∧
    "--akId" ∈ valueOptions ∧
    parse_argv {} ["--frameSize"] = ParseOut.undefined {} ∧
    parseArg {} "--frameSize" none = ArgStep.pastEnd {} := by
  decide

/-- C27, amended: for every argument vector whose last element stands where an
option is expected (every option before it that takes a value is followed by its
value) and is an option that takes a value other than `--frameSize`, from every
state of the globals `parse_argv` returns 1, and it does so without reading an
element of `argv` at an index `≥ argc` (the result is a return value, not the
undefined read of `argv[argc]`). -/
theorem missing_value_returns_one (cfg : Config) (pre : List String) (opt : String)
    (hpre : valuesPresent pre = true) (hopt : opt ∈ valueOptions)
    (hfs : opt ≠ "--frameSize") :
    (∃ cfg2, parse_argv cfg (pre ++ [opt]) = ParseOut.returned 1 cfg2) ∧
    (∀ c, parse_argv cfg (pre ++ [opt]) ≠ ParseOut.undefined c) ∧
    (∀ c, parseArg c opt none = ArgStep.ret 1 c) := by
  obtain ⟨cfg2, h⟩ := parseLoop_missing opt hopt hfs pre.length pre cfg (Nat.le_refl _) hpre
  have h2 : parse_argv cfg (pre ++ [opt]) = ParseOut.returned 1 cfg2 := h
  refine ⟨⟨cfg2, h2⟩, ?_, fun c => parseArg_missing c opt hopt hfs⟩
  intro c hc
  rw [h2] at hc
  exact ParseOut.noConfusion hc

/-- The instance of `missing_value_returns_one` for the arguments
`--appkey k --token`. -/
theorem missing_value_returns_one_witness :
    ∃ cfg2, parse_argv {} (["--appkey", "k"] ++ ["--token"]) = ParseOut.returned 1 cfg2 :=
  (missing_value_returns_one {} ["--appkey", "k"] "--token" (by decide) (by decide)
    (by decide)).1

/-! ## The counters between two runs -/

/-- C28: the end of a run in `main` sets `run_cnt`, `run_start_failed`,
`run_success` and `run_fail` to 0 and leaves `run_cancel` as it is. After a run
of four requests that are all cancelled, `run_cancel` is still 4 when the next
run begins; a second run of the same kind then ends with `run_cnt = 4` and
`run_cancel = 8`, so the count of cancelled requests that is reported includes
the sessions of the run before. -/
theorem end_of_run_keeps_run_cancel :
    (∀ g : Globals,
      (mainEndOfRun g).run_cnt = 0 ∧ (mainEndOfRun g).run_start_failed = 0 ∧
      (mainEndOfRun g).run_success = 0 ∧ (mainEndOfRun g).run_fail = 0 ∧
      (mainEndOfRun g).run_cancel = g.run_cancel) ∧
    (run {} (startRun {} (fun _ => some 1000) Globals.init 4) scenarioA).g.run_cnt = 4 ∧
    (run {} (startRun {} (fun _ => some 1000) Globals.init 4) scenarioA).g.run_cancel = 4 ∧
    (mainEndOfRun
      (run {} (startRun {} (fun _ => some 1000) Globals.init 4) scenarioA).g).run_cnt = 0 ∧
    (mainEndOfRun
      (run {} (startRun {} (fun _ => some 1000) Globals.init 4) scenarioA).g).run_cancel = 4 ∧
    (run {} (startRun {} (fun _ => some 1000)
      (mainEndOfRun (run {} (startRun {} (fun _ => some 1000) Globals.init 4) scenarioA).g) 4)
      scenarioA).g.run_cnt = 4 ∧
    (run {} (startRun {} (fun _ => some 1000)
      (mainEndOfRun (run {} (startRun {} (fun _ => some 1000) Globals.init 4) scenarioA).g) 4)
      scenarioA).g.run_cancel = 8 := by
  refine ⟨fun g => ⟨rfl, rfl, rfl, rfl, ?_⟩, by decide, by decide, by decide, by decide,
    by decide, by decide⟩
  simp only [mainEndOfRun]
  split_ifs <;> rfl


end SpeechTranscriberDemo
